import Mathlib

/-!
# WSClient — the reconnecting WebSocket transport client

A shallow embedding of the class `WSClient` of `src/frontend/src/api/ws.js`.

Modelling conventions.

* The client object is the record `WSClient P`; `P` is the type of outbound payloads.
  Every method is a function from the record to the record (and a return value where the
  method has one).
* Everything the client does to the outside world is appended, in program order, to the
  field `effects`: frames written with `ws.send`, `ws.close` requests, settlements of the
  promises returned by `send`, calls of `emit` / `emitError` and of the registered
  callbacks, timers.
* The platform is not part of the repository. What the methods need from it is explicit:
  `Env.stringify` (`JSON.stringify`, which may throw), `Env.urlOk` (whether
  `new WebSocket(url)` succeeds), the field `faults` (a script saying, for each future
  call of `ws.send` on an open socket, whether it throws and with which message), the
  field `now` (`Date.now()`), and the ready state of the socket. A browser's open socket
  never throws from `send`: its script is empty. The script is there so that what is proved
  for every script also covers a socket object that does throw; no example below that
  shows the code departing from the specification uses it.
* Callbacks registered by the application are opaque: a callback is identified by a number
  and by whether it throws (what it throws is in `Platform.thrown`). Calling one is recorded
  in `effects`; callbacks are assumed not to call back into the client while they run.
* An exception that leaves a public method or a listener is recorded in `effects`
  (`Effect.exception`); the statements of the method after the throwing one do not run.
* JavaScript numbers are rationals (`ℚ`), counters are naturals. The one computation of
  the class that rounds, the backoff delay of lines 270-273, is carried out in IEEE 754
  double arithmetic (`roundDouble`); comparisons and `Math.min` are exact on doubles.
* Console output is not modelled.
* Embedded: the constructor, `connect`, the listeners of the socket's `open`, `error` and
  `close` events, `on` (as `onType`), `onAny`, `onError`, `emit`, `emitError`, `send`,
  `sendImmediately`, `flushMessageQueue`, `startPing`, `stopPing`, `scheduleReconnect`,
  `shouldReconnect`, `isConnected`, `close`, `reconnect`, `getQueueSize`, `clearQueue`,
  `destroy`, the callbacks of the two timers, and the listener of the socket's `message`
  event (with `JSON.parse` and the messages of thrown errors in `Platform`, the parsed
  values in `Json`). Not embedded: `sendSafe`, `getState`.
* `this.listeners` is an object literal: the expression `this.listeners[key]` finds what is
  stored under `key` and otherwise what the object inherits: from `Object.prototype`
  (`objectPrototype`), or, once `on('__proto__', callback)` has replaced the prototype,
  from the callback (`Handler.properties`). None of the keys the class itself uses
  (`open`, `close`, `unhandled`, `*` and the error categories) is inherited from
  `Object.prototype`.
* `step` / `run` execute sequences of method calls, socket events and timer callbacks;
  `stepEvent` / `runEvents` add inbound frames. A frame may arrive on any socket the client
  has created that is still open: its listener reads `this.ws` when it runs.
-/

/-- The four values of `WebSocket.readyState`. -/
inductive ReadyState where
  | CONNECTING
  | OPEN
  | CLOSING
  | CLOSED
  deriving DecidableEq, Repr

/-- The numeric value of a ready state (`WebSocket.CONNECTING` = 0, ... `WebSocket.CLOSED` = 3). -/
def ReadyState.code : ReadyState → Nat
  | .CONNECTING => 0
  | .OPEN => 1
  | .CLOSING => 2
  | .CLOSED => 3

/-- The platform socket object held in `this.ws`, as far as the client reads it. -/
structure WebSocket where
  url : String
  readyState : ReadyState
  deriving DecidableEq, Repr

/-- A value that is thrown, as far as the catch block of the message listener reads it
(line 72, `error.message`). -/
inductive Thrown where
  /-- The value `null` or `undefined`: reading its property `message` throws a
  `TypeError`. -/
  | nullish
  /-- Any other value; `message` is its property `message`, as text. -/
  | value (message : String)
  deriving DecidableEq, Repr

/-- An application callback: its identity and whether calling it throws. A callback is a
function object: once `on('__proto__', callback)` has made it the prototype of
`this.listeners` (line 102), the expression `this.listeners[key]` finds its properties,
own and inherited, under every key that is not stored. `properties` lists those that are
truthy, each with what using it as lines 59-60 do (it is looked up and called with the
message) leads to: `none` when this returns, `some v` when it throws `v`. -/
structure Handler where
  id : Nat
  throws : Bool
  properties : List (String × Option Thrown)
  deriving DecidableEq, Repr

/-- An entry of `this.messageQueue`, built by `send` (lines 160-173). The fields
`resolve` and `reject` of the source are the two halves of one fresh promise, attached
by `send` before it returns; `promise` identifies that promise. -/
structure QueuedMessage (P : Type) where
  id : Nat
  data : P
  timestamp : Nat
  attempts : Nat
  promise : Nat
  deriving DecidableEq, Repr

/-- The two objects a queued message's promise is rejected with. -/
inductive Rejection (P : Type) where
  /-- The object of lines 227-231, error text "Превышено количество попыток отправки". -/
  | retriesExceeded (data : P)
  /-- The object of lines 332-337, error text "Соединение закрыто". -/
  | connectionClosed (code : Nat) (reason : String)
  deriving DecidableEq, Repr

/-- The second argument of `emitError` at each of its call sites. -/
inductive ErrorData (P : Type) where
  /-- Line 27: the error thrown by `new WebSocket`. -/
  | connectError
  /-- Lines 71-75: the message of the caught error and the raw frame. -/
  | parseError (error : String) (rawData : String)
  /-- Line 81: the socket's error event. -/
  | wsError
  /-- Line 89: code and reason of the close event. -/
  | wsClose (code : Nat) (reason : String)
  /-- Lines 187-190: the message of the caught error and the payload. -/
  | sendError (error : String) (data : P)
  /-- Lines 262-265: the counter and the configured maximum. -/
  | maxReconnectAttempts (attempts : Nat) (maxAttempts : ℚ)
  deriving DecidableEq, Repr

/-- The second argument of `emit` at its call sites for socket life-cycle events. -/
inductive EventData where
  /-- Line 35: the socket's open event. -/
  | opened
  /-- Line 88: code and reason of the close event. -/
  | closed (code : Nat) (reason : String)
  /-- Lines 60 and 62: the value `JSON.parse(frame)`, passed to a message handler. -/
  | message (frame : String)
  /-- Line 65: the object holding the message's type and the value `JSON.parse(frame)`. -/
  | unhandled (type : String) (frame : String)
  deriving DecidableEq, Repr

/-- What the client does to the outside world. -/
inductive Effect (P : Type) where
  /-- A socket was created by `new WebSocket(url)`. -/
  | newWebSocket (url : String)
  /-- The call `this.ws.send(frame)` returned: the frame was written to the socket. -/
  | wsSend (frame : String)
  /-- The call `this.ws.close(code, reason)`. -/
  | wsClose (code : Nat) (reason : String)
  /-- The call `queuedMessage.resolve(...)` of lines 214-219, carrying the payload. -/
  | resolve (promise : Nat) (data : P)
  /-- The call `queuedMessage.reject(...)` / `msg.reject(...)`. -/
  | reject (promise : Nat) (why : Rejection P)
  /-- The call `this.emit(eventType, data)`. -/
  | emit (eventType : String) (data : EventData)
  /-- The call of the callback registered under `eventType` made by `emit`. -/
  | listenerCall (handler : Nat) (eventType : String) (data : EventData)
  /-- The call `this.emitError(errorType, errorData)`. -/
  | emitError (errorType : String) (errorData : ErrorData P)
  /-- One call `callback(errorWithType)` made by `emitError`. -/
  | errorListenerCall (handler : Nat) (errorType : String) (errorData : ErrorData P)
  /-- The call `setTimeout(..., delay)` of `scheduleReconnect`. -/
  | setTimeout (delay : ℚ)
  /-- The call `setInterval(..., interval)` of `startPing`; `timer` is the handle. -/
  | setInterval (timer : Nat) (interval : ℚ)
  /-- The call `clearInterval(timer)` of `stopPing`. -/
  | clearInterval (timer : Nat)
  /-- The call `this.listeners[key](data)` of line 60 when nothing is stored under `key`
  and the value found is the one every object inherits from `Object.prototype`; `data` is
  `JSON.parse(frame)`. -/
  | inheritedCall (key : String) (frame : String)
  /-- The call `this.listeners[eventType](data)` of line 128 when nothing is stored under
  `eventType` and the value found is an inherited one. -/
  | inheritedEventCall (eventType : String) (data : EventData)
  /-- An exception leaves the running method or listener: it reaches the caller of the
  public method, or the platform when it leaves a listener; `error` is its name or
  message. -/
  | exception (error : String)
  deriving DecidableEq, Repr

/-- The platform functions the client calls. -/
structure Env (P : Type) where
  /-- The call `JSON.stringify(data)`: the text, or the message of the error it throws
  (a `TypeError`; payloads whose own `toJSON` throws something else are not modelled). -/
  stringify : P → Except String String
  /-- Whether `new WebSocket(url)` returns a socket (it throws otherwise). -/
  urlOk : String → Bool

/-- The object `this` of the class `WSClient`. -/
structure WSClient (P : Type) where
  url : String
  ws : Option WebSocket
  /-- The object `this.listeners`: the callback stored under a key, if any. -/
  listeners : String → Option Handler
  /-- The prototype of the object `this.listeners`: `none` for `Object.prototype`, which
  the object literal of line 5 has; `some callback` once `on('__proto__', callback)` has
  replaced it by the callback. -/
  listenersPrototype : Option Handler
  /-- The object `this.errorListeners`: the array stored under a key (empty if none). -/
  errorListeners : String → List Handler
  messageQueue : List (QueuedMessage P)
  reconnectAttempts : Nat
  maxReconnectAttempts : ℚ
  reconnectDelay : ℚ
  autoReconnect : Bool
  /-- The handle `this.pingInterval` of the keepalive timer. -/
  pingInterval : Option Nat
  /-- The value `Date.now()` returns. -/
  now : Nat
  /-- The next unused promise identity. -/
  nextPromise : Nat
  /-- The next unused timer handle. -/
  nextTimer : Nat
  /-- For each coming call of `ws.send` on an open socket, `some msg` when it throws an
  error with message `msg`, `none` when it returns; a call beyond the end of the script
  returns. -/
  faults : List (Option String)
  effects : List (Effect P)

/-- A value returned by `JSON.parse`. -/
inductive Json where
  | null
  | bool (b : Bool)
  | num (n : ℚ)
  | str (s : String)
  | arr (items : List Json)
  | obj (fields : List (String × Json))

/-- JavaScript truthiness: `!v` is `true` exactly for `null`, `false`, `0` and `""`. -/
def Json.truthy : Json → Bool
  | Json.null => false
  | Json.bool b => b
  | Json.num n => decide (n ≠ 0)
  | Json.str s => decide (s ≠ "")
  | Json.arr _ => true
  | Json.obj _ => true

/-- The test `typeof v === 'object'`: true for `null`, arrays and objects. -/
def Json.typeofObject : Json → Bool
  | Json.null => true
  | Json.arr _ => true
  | Json.obj _ => true
  | _ => false

/-- The test `typeof v === 'string'`. -/
def Json.typeofString : Json → Bool
  | Json.str _ => true
  | _ => false

/-- The expression `v.type` for an array or object `v`: the value stored under the key
`type` (the last one when the text repeats the key), `none` for `undefined`. -/
def Json.typeField : Json → Option Json
  | Json.obj fields => fields.reverse.lookup "type"
  | _ => none

/-- In the words of the specification: a non-null object (an object or an array). -/
def Json.isObject : Json → Bool
  | Json.arr _ => true
  | Json.obj _ => true
  | _ => false

/-- The platform functions the listener of the socket's `message` event calls. -/
structure Platform where
  /-- The call `JSON.parse(text)`: the value, or the message of the error it throws. -/
  parse : String → Except String Json
  /-- The value a throwing application callback throws, by callback. -/
  thrown : Nat → Thrown

/-- The properties every object literal inherits from `Object.prototype`, which the
expression `this.listeners[key]` finds when nothing is stored under `key` and the
prototype has not been replaced: `some false`
for a function that returns when called as in line 60, `some true` when that call throws
(`__proto__` is not a function; `__defineGetter__` and `__defineSetter__` reject the
missing second argument), `none` for every other key. -/
def objectPrototype (key : String) : Option Bool :=
  if key = "constructor" ∨ key = "toString" ∨ key = "toLocaleString" ∨ key = "valueOf" ∨
      key = "hasOwnProperty" ∨ key = "isPrototypeOf" ∨ key = "propertyIsEnumerable" ∨
      key = "__lookupGetter__" ∨ key = "__lookupSetter__" then some false
  else if key = "__proto__" ∨ key = "__defineGetter__" ∨ key = "__defineSetter__" then
    some true
  else none

/-- The rational that stands for `Infinity`: the least power of two beyond the finite
doubles. A JavaScript number is a rational here: a finite double is itself, `Infinity` and
`-Infinity` are `infinity` and `-infinity`; `NaN` is not represented. -/
def infinity : ℚ := 2 ^ (1024 : ℕ)

/-- Rounding to the nearest integer, a tie going to the even one. -/
def roundHalfEven (x : ℚ) : ℤ :=
  if x - ⌊x⌋ < 1 / 2 then ⌊x⌋
  else if 1 / 2 < x - ⌊x⌋ then ⌊x⌋ + 1
  else if ⌊x⌋ % 2 = 0 then ⌊x⌋ else ⌊x⌋ + 1

/-- The exponent of the unit in the last place of the doubles around `a > 0`: 52 binary
places below the leading bit of `a`, and not below `2 ^ (-1074)`, the spacing of the
subnormal doubles. -/
def ulpExponent (a : ℚ) : ℤ :=
  max (Int.log 2 a - 52) (-1074)

/-- The multiple of the unit in the last place nearest to `a ≥ 0`, a tie going to the even
multiple. -/
def roundMagnitude (a : ℚ) : ℚ :=
  (roundHalfEven (a / (2 : ℚ) ^ ulpExponent a) : ℚ) * (2 : ℚ) ^ ulpExponent a

/-- The result of an arithmetic operation of the source whose exact value is `q`: IEEE 754
binary64 rounding to nearest, ties to even; a magnitude that rounds to `2 ^ 1024` or more
overflows to `Infinity`. -/
def roundDouble (q : ℚ) : ℚ :=
  if 0 ≤ q then min (roundMagnitude q) infinity else -min (roundMagnitude (-q)) infinity

/-- In the words of IEEE 754: `q` is a non-negative number with at most 53 significant
bits, in units not below `2 ^ (-1074)`: a double, when it is below `2 ^ 1024`. -/
def IsDouble (q : ℚ) : Prop :=
  ∃ (m : ℕ) (e : ℤ), m < 2 ^ 53 ∧ -1074 ≤ e ∧ q = (m : ℚ) * (2 : ℚ) ^ e

namespace WSClient

variable {P : Type}

/-- Lines 291-293: `this.ws && this.ws.readyState === WebSocket.OPEN`. -/
def isConnected (c : WSClient P) : Bool :=
  match c.ws with
  | none => false
  | some w => decide (w.readyState = ReadyState.OPEN)

/-- What the expression `this.listeners[key]` yields when it is truthy: a callback stored
by `on` / `onAny` (or, under the key `__proto__`, the callback that is the prototype), or
an inherited property, with what calling it throws, if it does. -/
inductive Callable where
  | registered (h : Handler)
  | inherited (thrown : Option Thrown)
  deriving DecidableEq, Repr

/-- The expression `this.listeners[key]` (lines 59-62 and 126-128): the callback stored
under `key`; else what the object inherits under `key`, from `Object.prototype` or, once
`on('__proto__', callback)` has replaced the prototype, from the callback (under the key
`__proto__` the callback itself); else `none` for `undefined`. -/
def lookupListener (c : WSClient P) (key : String) : Option Callable :=
  match c.listeners key with
  | some h => some (Callable.registered h)
  | none =>
      match c.listenersPrototype with
      | none =>
          (objectPrototype key).map fun throws =>
            Callable.inherited
              (if throws then some (Thrown.value "this.listeners[data.type] is not a function")
               else none)
      | some callback =>
          if key = "__proto__" then some (Callable.registered callback)
          else (callback.properties.lookup key).map Callable.inherited

/-- Lines 125-133: call what is found under `eventType`, if anything is; what it throws is
caught. -/
def emit (c : WSClient P) (eventType : String) (data : EventData) : WSClient P :=
  match lookupListener c eventType with
  | some (Callable.registered h) =>
      { c with effects := c.effects ++
          [Effect.emit eventType data, Effect.listenerCall h.id eventType data] }
  | some (Callable.inherited _) =>
      { c with effects := c.effects ++
          [Effect.emit eventType data, Effect.inheritedEventCall eventType data] }
  | none => { c with effects := c.effects ++ [Effect.emit eventType data] }

/-- Lines 135-148: call every callback registered for `errorType`, then every callback
registered for `"*"`; what a callback throws is caught. -/
def emitError (c : WSClient P) (errorType : String) (errorData : ErrorData P) : WSClient P :=
  let listeners := c.errorListeners errorType
  let globalListeners := c.errorListeners "*"
  let calls : List (Effect P) :=
    List.map (fun h => Effect.errorListenerCall h.id errorType errorData)
      (listeners ++ globalListeners)
  { c with effects := c.effects ++ (Effect.emitError errorType errorData :: calls) }

/-- The expression `this.ws.send(frame)`: the client after the call, or the message of the
error thrown. With no socket the property access throws a `TypeError`; a socket that is
CONNECTING throws `InvalidStateError`; a socket that is CLOSING or CLOSED discards the
frame and returns; an open socket consumes one entry of the script `faults` and either
throws as the entry says or writes the frame. -/
def socketSend (c : WSClient P) (frame : String) : Except String (WSClient P) :=
  match c.ws with
  | none => Except.error "Cannot read properties of null (reading 'send')"
  | some w =>
      match w.readyState with
      | ReadyState.CONNECTING => Except.error "InvalidStateError"
      | ReadyState.OPEN =>
          match c.faults with
          | some msg :: _ => Except.error msg
          | none :: rest =>
              Except.ok { c with faults := rest, effects := c.effects ++ [Effect.wsSend frame] }
          | [] => Except.ok { c with effects := c.effects ++ [Effect.wsSend frame] }
      | ReadyState.CLOSING => Except.ok c
      | ReadyState.CLOSED => Except.ok c

/-- The state after a call of `this.ws.send` that threw: on an open socket one script entry
is consumed. -/
def socketSendThrew (c : WSClient P) : WSClient P :=
  if c.isConnected then { c with faults := c.faults.tail } else c

/-- Lines 176-193: returns `false` when not connected; otherwise serialises and writes the
frame and returns `true`, or, when `JSON.stringify` or `ws.send` throws, emits
`send_error` and returns `false`. -/
def sendImmediately (env : Env P) (c : WSClient P) (data : P) : Bool × WSClient P :=
  if !c.isConnected then (false, c)
  else
    match env.stringify data with
    | Except.error msg => (false, c.emitError "send_error" (ErrorData.sendError msg data))
    | Except.ok jsonData =>
        match c.socketSend jsonData with
        | Except.ok c1 => (true, c1)
        | Except.error msg =>
            (false, c.socketSendThrew.emitError "send_error" (ErrorData.sendError msg data))

/-- What `send` returns: the boolean of `sendImmediately`, or the promise of the queued
message. -/
inductive SendResult where
  | sent (ok : Bool)
  | queued (promise : Nat)
  deriving DecidableEq, Repr

/-- Lines 150-174: transmit at once when connected, otherwise append a queued message with
`attempts: 0` and return its promise. -/
def send (env : Env P) (c : WSClient P) (data : P) : SendResult × WSClient P :=
  if c.isConnected then
    let r := sendImmediately env c data
    (SendResult.sent r.1, r.2)
  else
    let messageId := c.now
    let queuedMessage : QueuedMessage P :=
      { id := messageId, data := data, timestamp := c.now, attempts := 0,
        promise := c.nextPromise }
    (SendResult.queued c.nextPromise,
      { c with messageQueue := c.messageQueue ++ [queuedMessage],
               nextPromise := c.nextPromise + 1 })

/-- The body of the `forEach` callback of lines 211-235, for one queued message:
`remaining` is the local array of the same name. -/
def flushStep (env : Env P) (st : WSClient P × List (QueuedMessage P))
    (queuedMessage : QueuedMessage P) : WSClient P × List (QueuedMessage P) :=
  let r := sendImmediately env st.1 queuedMessage.data
  if r.1 then
    ({ r.2 with effects := r.2.effects ++
        [Effect.resolve queuedMessage.promise queuedMessage.data] }, st.2)
  else
    let queuedMessage := { queuedMessage with attempts := queuedMessage.attempts + 1 }
    if queuedMessage.attempts < 3 then
      (r.2, st.2 ++ [queuedMessage])
    else
      ({ r.2 with effects := r.2.effects ++
          [Effect.reject queuedMessage.promise
            (Rejection.retriesExceeded queuedMessage.data)] }, st.2)

/-- Lines 204-238: try to transmit every queued message in order; the queue becomes the
array `remaining`. -/
def flushMessageQueue (env : Env P) (c : WSClient P) : WSClient P :=
  if c.messageQueue.length = 0 then c
  else
    let st := c.messageQueue.foldl (flushStep env) (c, [])
    { st.1 with messageQueue := st.2 }

/-- Lines 98-104, the method `on` (a reserved word here, hence the name): store the
callback under `type`, replacing the one stored there. For the type `__proto__` the
assignment of line 102 stores nothing: it makes the callback the prototype of
`this.listeners`. Only callbacks that are functions are modelled (the method throws for
anything else). -/
def onType (c : WSClient P) (type : String) (callback : Handler) : WSClient P :=
  if type = "__proto__" then { c with listenersPrototype := some callback }
  else { c with listeners := fun k => if k = type then some callback else c.listeners k }

/-- Lines 106-112: store the callback under the key `"*"`. -/
def onAny (c : WSClient P) (callback : Handler) : WSClient P :=
  { c with listeners := fun k => if k = "*" then some callback else c.listeners k }

/-- Lines 114-123: append the callback to the array stored under `type`. -/
def onError (c : WSClient P) (type : String) (callback : Handler) : WSClient P :=
  { c with errorListeners :=
      fun k => if k = type then c.errorListeners type ++ [callback] else c.errorListeners k }

/-- Lines 21-29: create the socket (ready state CONNECTING) and attach the four
listeners; when `new WebSocket` throws, emit `connect_error` and keep `this.ws`. -/
def connect (env : Env P) (c : WSClient P) : WSClient P :=
  if env.urlOk c.url then
    { c with ws := some { url := c.url, readyState := ReadyState.CONNECTING },
             effects := c.effects ++ [Effect.newWebSocket c.url] }
  else c.emitError "connect_error" ErrorData.connectError

/-- Lines 240-250: start the keepalive timer and keep its handle. -/
def startPing (c : WSClient P) (interval : ℚ) : WSClient P :=
  { c with pingInterval := some c.nextTimer, nextTimer := c.nextTimer + 1,
           effects := c.effects ++ [Effect.setInterval c.nextTimer interval] }

/-- Lines 241-249, the callback of the keepalive timer: when connected, write the frame
`__ping__`; what `ws.send` throws is caught. -/
def pingCallback (c : WSClient P) : WSClient P :=
  if c.isConnected then
    match c.socketSend "__ping__" with
    | Except.ok c1 => c1
    | Except.error _ => c.socketSendThrew
  else c

/-- Lines 252-257: stop the keepalive timer if there is one. -/
def stopPing (c : WSClient P) : WSClient P :=
  match c.pingInterval with
  | some t => { c with pingInterval := none, effects := c.effects ++ [Effect.clearInterval t] }
  | none => c

/-- Lines 285-289: `false` for the close codes 1000 and 1001, `true` for every other. -/
def shouldReconnect (code : Nat) : Bool :=
  let dontReconnectCodes : List Nat := [1000, 1001]
  !dontReconnectCodes.contains code

/-- Line 270-273: `Math.min(reconnectDelay * Math.pow(1.5, reconnectAttempts - 1), 30000)`,
with `reconnectAttempts` the counter after its increment, in double arithmetic. `power` is
`Math.pow(1.5, reconnectAttempts - 1)`, taken as the double nearest to the exact power (it
is the exact power up to the exponent 33). `product` is `reconnectDelay * power`: rounded,
and infinite when `power` is `Infinity` (a base delay is never 0, line 10). `Math.min` of
two numbers is exact. -/
def reconnectBackoff (reconnectDelay : ℚ) (reconnectAttempts : Nat) : ℚ :=
  let power := roundDouble ((3 / 2 : ℚ) ^ (reconnectAttempts - 1))
  let product :=
    if power = infinity then (if 0 < reconnectDelay then infinity else -infinity)
    else roundDouble (reconnectDelay * power)
  min product 30000

/-- Lines 259-276: at the maximum emit `max_reconnect_attempts` and return; otherwise
increment the counter and start the reconnect timer with the backoff delay. -/
def scheduleReconnect (c : WSClient P) : WSClient P :=
  if c.maxReconnectAttempts ≤ (c.reconnectAttempts : ℚ) then
    c.emitError "max_reconnect_attempts"
      (ErrorData.maxReconnectAttempts c.reconnectAttempts c.maxReconnectAttempts)
  else
    let c1 := { c with reconnectAttempts := c.reconnectAttempts + 1 }
    let delay := reconnectBackoff c1.reconnectDelay c1.reconnectAttempts
    { c1 with effects := c1.effects ++ [Effect.setTimeout delay] }

/-- Lines 277-282, the callback of the reconnect timer: the condition is
`!this.isConnected() && !this.ws || this.ws.readyState === WebSocket.CLOSED`. -/
def reconnectTimerCallback (env : Env P) (c : WSClient P) : WSClient P :=
  if (!c.isConnected && c.ws.isNone) ||
      (match c.ws with
       | some w => decide (w.readyState = ReadyState.CLOSED)
       | none => false) then
    connect env c
  else c

/-- Lines 32-37, the listener of the socket's `open` event. -/
def openListener (env : Env P) (c : WSClient P) : WSClient P :=
  let c1 := { c with reconnectAttempts := 0 }
  let c2 := c1.emit "open" EventData.opened
  flushMessageQueue env c2

/-- Lines 79-82, the listener of the socket's `error` event. -/
def errorListener (c : WSClient P) : WSClient P :=
  c.emitError "ws_error" ErrorData.wsError

/-- Lines 84-95, the listener of the socket's `close` event; `code` and `eventReason`
are `event.code` and `event.reason`. -/
def closeListener (c : WSClient P) (code : Nat) (eventReason : String) : WSClient P :=
  let reason := if eventReason = "" then "Unknown reason" else eventReason
  let c1 := c.emit "close" (EventData.closed code reason)
  let c2 := c1.emitError "ws_close" (ErrorData.wsClose code reason)
  if c2.autoReconnect && shouldReconnect code then c2.scheduleReconnect else c2

/-- The platform's check of the arguments of `ws.close(code, reason)`, made before anything
else: the name of the exception it throws, if any. The code must be 1000 or lie in
3000..4999 (`InvalidAccessError` otherwise) and the reason must not be longer than 123
bytes in UTF-8 (`SyntaxError` otherwise). -/
def closeArguments (code : Nat) (reason : String) : Option String :=
  if !(code = 1000 || (3000 ≤ code && code ≤ 4999)) then some "InvalidAccessError"
  else if 123 < reason.utf8ByteSize then some "SyntaxError"
  else none

/-- The platform call `ws.close(code, reason)` when it returns: a socket that is neither
closing nor closed starts closing. -/
def socketClose (w : WebSocket) : WebSocket :=
  match w.readyState with
  | ReadyState.CLOSING => w
  | ReadyState.CLOSED => w
  | _ => { w with readyState := ReadyState.CLOSING }

/-- Lines 321-341 (the source's defaults are `code = 1000`, `reason = ''`): switch
auto-reconnect off, stop the keepalive timer, ask the socket to close, reject every queued
message and empty the queue. When `ws.close` throws (line 326), the exception leaves the
method there: lines 330-340 do not run. -/
def close (c : WSClient P) (code : Nat) (reason : String) : WSClient P :=
  let c1 := { c with autoReconnect := false }
  let c2 := c1.stopPing
  let rejectQueued := fun (c3 : WSClient P) =>
    let rejections : List (Effect P) :=
      c3.messageQueue.map
        (fun msg => Effect.reject msg.promise (Rejection.connectionClosed code reason))
    { c3 with effects := c3.effects ++ rejections, messageQueue := [] }
  match c2.ws with
  | some w =>
      match closeArguments code reason with
      | some error => { c2 with effects := c2.effects ++ [Effect.exception error] }
      | none =>
          rejectQueued { c2 with ws := some (socketClose w),
                                 effects := c2.effects ++ [Effect.wsClose code reason] }
  | none => rejectQueued c2

/-- Lines 343-349: `url` is the argument when one is passed; an absent or empty
argument keeps `this.url`. The call `this.close(1000, 'Reconnecting')` always returns: the
platform accepts these arguments. -/
def reconnect (env : Env P) (c : WSClient P) (url : Option String) : WSClient P :=
  let arg := url.getD c.url
  let c1 := c.close 1000 "Reconnecting"
  let c2 := { c1 with url := if arg = "" then c1.url else arg }
  let c3 := { c2 with reconnectAttempts := 0 }
  connect env c3

/-- Lines 352-354. -/
def getQueueSize (c : WSClient P) : Nat :=
  c.messageQueue.length

/-- Lines 356-360: empty the queue and return how many entries it held. -/
def clearQueue (c : WSClient P) : Nat × WSClient P :=
  let cleared := c.messageQueue.length
  (cleared, { c with messageQueue := [] })

/-- Lines 363-367: close with the default arguments, which the platform accepts, and drop
every registered callback. -/
def destroy (c : WSClient P) : WSClient P :=
  let c1 := c.close 1000 ""
  { c1 with listeners := fun _ => none, listenersPrototype := none,
            errorListeners := fun _ => [] }

/-- The recognised fields of the constructor's `options` argument; `none` is an
absent field. -/
structure Options where
  maxReconnectAttempts : Option ℚ
  reconnectDelay : Option ℚ
  autoReconnect : Option Bool
  enablePing : Option Bool
  pingInterval : Option ℚ

/-- The expression `v || d` for a numeric option: `d` when the field is absent or zero. -/
def orDefault (v : Option ℚ) (d : ℚ) : ℚ :=
  match v with
  | some x => if x = 0 then d else x
  | none => d

/-- Lines 2-19. The clock `now` and the script `faults` are the platform's part of the
initial state. -/
def constructor (env : Env P) (url : String) (options : Options) (now : Nat)
    (faults : List (Option String)) : WSClient P :=
  let c0 : WSClient P :=
    { url := url, ws := none, listeners := fun _ => none, listenersPrototype := none,
      errorListeners := fun _ => [],
      messageQueue := [], reconnectAttempts := 0,
      maxReconnectAttempts := orDefault options.maxReconnectAttempts 5,
      reconnectDelay := orDefault options.reconnectDelay 3000,
      autoReconnect := decide (options.autoReconnect ≠ some false),
      pingInterval := none, now := now, nextPromise := 0, nextTimer := 1,
      faults := faults, effects := [] }
  let c1 := connect env c0
  if options.enablePing ≠ some false then c1.startPing (orDefault options.pingInterval 30000)
  else c1

/-- The platform gives the socket in `this.ws` the ready state `r`. -/
def setReadyState (c : WSClient P) (r : ReadyState) : WSClient P :=
  { c with ws := c.ws.map (fun w => { w with readyState := r }) }

/-- What can happen to a client: a call of one of its public methods, an event of the
socket held in `this.ws` (the platform sets the ready state, then runs the listener), a
timer firing, or the clock advancing. The open, error and close events of a socket that
`connect` has replaced are not modelled. -/
inductive Action (P : Type) where
  | send (data : P)
  | sendImmediately (data : P)
  | flushMessageQueue
  | clearQueue
  | close (code : Nat) (reason : String)
  | reconnect (url : Option String)
  | destroy
  | connect
  | scheduleReconnect
  | startPing (interval : ℚ)
  | stopPing
  | onType (type : String) (callback : Handler)
  | onAny (callback : Handler)
  | onError (type : String) (callback : Handler)
  | socketOpen
  | socketError
  | socketClose (code : Nat) (reason : String)
  | reconnectTimer
  | pingTimer
  | clock (now : Nat)

/-- The client after one action. -/
def step (env : Env P) (c : WSClient P) : Action P → WSClient P
  | Action.send data => (send env c data).2
  | Action.sendImmediately data => (sendImmediately env c data).2
  | Action.flushMessageQueue => flushMessageQueue env c
  | Action.clearQueue => c.clearQueue.2
  | Action.close code reason => c.close code reason
  | Action.reconnect url => reconnect env c url
  | Action.destroy => c.destroy
  | Action.connect => connect env c
  | Action.scheduleReconnect => c.scheduleReconnect
  | Action.startPing interval => c.startPing interval
  | Action.stopPing => c.stopPing
  | Action.onType type callback => c.onType type callback
  | Action.onAny callback => c.onAny callback
  | Action.onError type callback => c.onError type callback
  | Action.socketOpen => openListener env (c.setReadyState ReadyState.OPEN)
  | Action.socketError => c.errorListener
  | Action.socketClose code reason =>
      (c.setReadyState ReadyState.CLOSED).closeListener code reason
  | Action.reconnectTimer => reconnectTimerCallback env c
  | Action.pingTimer => c.pingCallback
  | Action.clock now => { c with now := now }

/-- The client after a sequence of actions, first to last. -/
def run (env : Env P) (c : WSClient P) (actions : List (Action P)) : WSClient P :=
  actions.foldl (step env) c

/-- The promise settlements recorded in a list of effects, in order. -/
def settlements (effects : List (Effect P)) : List (Effect P) :=
  effects.filter fun e =>
    match e with
    | Effect.resolve _ _ => true
    | Effect.reject _ _ => true
    | _ => false

/-- The settlements of the promise `p` recorded in a list of effects, in order. -/
def settlementsOf (p : Nat) (effects : List (Effect P)) : List (Effect P) :=
  effects.filter fun e =>
    match e with
    | Effect.resolve q _ => decide (q = p)
    | Effect.reject q _ => decide (q = p)
    | _ => false

/-- The frames written to the socket recorded in a list of effects, in order. -/
def sentFrames (effects : List (Effect P)) : List String :=
  effects.filterMap fun e =>
    match e with
    | Effect.wsSend frame => some frame
    | _ => none

/-- The delays of the reconnect timers recorded in a list of effects, in order. -/
def timerDelays (effects : List (Effect P)) : List ℚ :=
  effects.filterMap fun e =>
    match e with
    | Effect.setTimeout delay => some delay
    | _ => none

/-- The `max_reconnect_attempts` events recorded in a list of effects: counter and
maximum carried by each. -/
def maxAttemptsEvents (effects : List (Effect P)) : List (Nat × ℚ) :=
  effects.filterMap fun e =>
    match e with
    | Effect.emitError errorType (ErrorData.maxReconnectAttempts attempts maxAttempts) =>
        if errorType = "max_reconnect_attempts" then some (attempts, maxAttempts) else none
    | _ => none

/-- The sockets created recorded in a list of effects: the url of each. -/
def connectAttempts (effects : List (Effect P)) : List String :=
  effects.filterMap fun e =>
    match e with
    | Effect.newWebSocket url => some url
    | _ => none

/-- The outcome of each transmission a flush makes for the queue `q`, in order: the
booleans returned by the successive calls of `sendImmediately`. -/
def transmissions (env : Env P) : WSClient P → List (QueuedMessage P) → List Bool
  | _, [] => []
  | c, m :: rest =>
      let r := sendImmediately env c m.data
      r.1 :: transmissions env r.2 rest

/-- The queue a flush must leave, in the words of the specification: the messages whose
transmission failed and whose incremented attempt counter is below 3, in their original
order, each with its counter incremented. `results` holds the outcome of each
transmission. -/
def flushRetained (q : List (QueuedMessage P)) (results : List Bool) :
    List (QueuedMessage P) :=
  ((q.zip results).filter fun x => !x.2 && decide (x.1.attempts + 1 < 3)).map
    fun x => { x.1 with attempts := x.1.attempts + 1 }

/-- The settlements a flush must make, in the words of the specification: a message whose
transmission succeeded is resolved with its payload; one whose transmission failed with
the incremented counter reaching 3 is rejected with its payload; the others are left
pending. -/
def flushSettled (q : List (QueuedMessage P)) (results : List Bool) : List (Effect P) :=
  (q.zip results).filterMap fun x =>
    if x.2 then some (Effect.resolve x.1.promise x.1.data)
    else if x.1.attempts + 1 < 3 then none
    else some (Effect.reject x.1.promise (Rejection.retriesExceeded x.1.data))

/-- The frames a flush must write, in the words of the specification: the serialisation
of each message whose transmission succeeded, in queue order. -/
def flushFrames (env : Env P) (q : List (QueuedMessage P)) (results : List Bool) :
    List String :=
  (q.zip results).filterMap fun x =>
    if x.2 then (env.stringify x.1.data).toOption else none

/-- The promises of the queued messages, in queue order. -/
def queuedPromises (c : WSClient P) : List Nat :=
  c.messageQueue.map fun m => m.promise

/-- Whether, among the messages `q` paired with the outcomes `results` of their
transmissions, the message with promise `p` has the outcome `ok`. -/
def outcomeIs (q : List (QueuedMessage P)) (results : List Bool) (p : Nat) (ok : Bool) :
    Bool :=
  (q.zip results).any fun x => x.1.promise == p && x.2 == ok

/-- Whether the transmission that a flush started in the state `c` makes for the queued
message with promise `p` has the outcome `ok` (`true`: `sendImmediately` returned `true`
for it; `false`: it returned `false`). -/
def transmitted (env : Env P) (c : WSClient P) (p : Nat) (ok : Bool) : Bool :=
  outcomeIs c.messageQueue (transmissions env c c.messageQueue) p ok

/-- Whether an action sets the reconnect attempt counter back to 0: the socket's open
event (line 34) and an explicit `reconnect()` (line 347) do, nothing else does. -/
def Action.resetsCounter : Action P → Bool
  | Action.socketOpen => true
  | Action.reconnect _ => true
  | _ => false

/-- The client `c'` has the reconnect configuration and counter of `c` and has started no
reconnect timer since `c`. -/
def Quiet (c c' : WSClient P) : Prop :=
  c'.reconnectDelay = c.reconnectDelay ∧ c'.maxReconnectAttempts = c.maxReconnectAttempts ∧
    c'.reconnectAttempts = c.reconnectAttempts ∧
    timerDelays c'.effects = timerDelays c.effects

/-- The client `c'` has the reconnect configuration of `c`, its counter is one higher, and
it has started exactly one reconnect timer since `c`, with the backoff delay of the
incremented counter. -/
def Advances (c c' : WSClient P) : Prop :=
  c'.reconnectDelay = c.reconnectDelay ∧ c'.maxReconnectAttempts = c.maxReconnectAttempts ∧
    c'.reconnectAttempts = c.reconnectAttempts + 1 ∧
    timerDelays c'.effects =
      timerDelays c.effects ++ [reconnectBackoff c.reconnectDelay (c.reconnectAttempts + 1)]

/-- The settlement invariant of the specification's data model, for the promises handed
out so far (those below `nextPromise`): the queued promises are distinct and pending; a
promise that is no longer queued has been settled exactly once; no other promise has been
settled. -/
def Settled (c : WSClient P) : Prop :=
  (queuedPromises c).Nodup ∧
    (∀ p ∈ queuedPromises c, p < c.nextPromise ∧ settlementsOf p c.effects = []) ∧
    (∀ p, p < c.nextPromise → p ∉ queuedPromises c →
      ∃ e, settlementsOf p c.effects = [e]) ∧
    (∀ p, c.nextPromise ≤ p → settlementsOf p c.effects = [])

/-- The client `c'` has the queue and the promise counter of `c` and has settled nothing
since `c`. -/
def Inert (c c' : WSClient P) : Prop :=
  c'.messageQueue = c.messageQueue ∧ c'.nextPromise = c.nextPromise ∧
    settlements c'.effects = settlements c.effects

/-- A platform for payloads that are texts: a payload serialises to itself, except the
payload `"cyclic"`, for which `JSON.stringify` throws; every url is accepted. -/
def demoEnv : Env String :=
  { stringify := fun p => if p = "cyclic" then Except.error "circular structure" else Except.ok p,
    urlOk := fun _ => true }

/-- No option set: every default applies. -/
def demoOptions : Options :=
  { maxReconnectAttempts := none, reconnectDelay := none, autoReconnect := none,
    enablePing := none, pingInterval := none }

/-- A client just constructed with the default options: socket CONNECTING, queue empty;
the socket will accept every frame. -/
def demoClient : WSClient String :=
  WSClient.constructor demoEnv "ws://localhost:3000" demoOptions 0 []

/-- The client at line 36, where the listener of the socket's `open` event is about to
flush the queue: the socket is open, the counter is reset and `open` has been emitted. -/
def beforeOpenFlush (c : WSClient P) : WSClient P :=
  ({ c.setReadyState ReadyState.OPEN with reconnectAttempts := 0 }).emit "open"
    EventData.opened

/-- The fresh client, its socket still CONNECTING, after `send("A")` and `send("B")`: two
queued messages, promises 0 and 1. -/
def demoQueued : WSClient String :=
  run demoEnv demoClient [Action.send "A", Action.send "B"]

/-- The fresh client, its socket still CONNECTING, after `send("A")`: one queued message,
promise 0. -/
def demoAlone : WSClient String :=
  run demoEnv demoClient [Action.send "A"]

/-- The fresh client after two reconnect attempts. -/
def demoRetrying : WSClient String :=
  { demoClient with reconnectAttempts := 2 }

/-- The fresh client after as many reconnect attempts as the default maximum allows. -/
def demoExhausted : WSClient String :=
  { demoClient with reconnectAttempts := 5 }

/-- Lines 68-76, the catch block of the message listener: emit `parse_error` with the
message of the caught value and the raw frame. When the caught value is `null` or
`undefined`, reading `error.message` (line 72) throws a `TypeError`, which leaves the
listener: nothing is emitted. -/
def catchBlock (c : WSClient P) (error : Thrown) (frame : String) : WSClient P :=
  match error with
  | Thrown.value message => c.emitError "parse_error" (ErrorData.parseError message frame)
  | Thrown.nullish =>
      { c with effects := c.effects ++
          [Effect.exception "Cannot read properties of null (reading 'message')"] }

/-- The call `this.listeners[key](data)` of lines 60 and 62: the client after the call and,
when the call throws, the value thrown. -/
def callListener (pf : Platform) (c : WSClient P) (key frame : String) (target : Callable) :
    WSClient P × Option Thrown :=
  match target with
  | Callable.registered h =>
      ({ c with effects := c.effects ++
          [Effect.listenerCall h.id key (EventData.message frame)] },
        if h.throws then some (pf.thrown h.id) else none)
  | Callable.inherited thrown =>
      ({ c with effects := c.effects ++ [Effect.inheritedCall key frame] }, thrown)

/-- Lines 58-66 inside the try block, for a validated message of type `type`: the handler
found under the type, else the one found under `"*"`, else the `unhandled` event; an error
thrown by the handler is caught by the catch block. -/
def dispatch (pf : Platform) (c : WSClient P) (type frame : String) : WSClient P :=
  match lookupListener c type with
  | some target =>
      let r := callListener pf c type frame target
      match r.2 with
      | some error => catchBlock r.1 error frame
      | none => r.1
  | none =>
      match lookupListener c "*" with
      | some target =>
          let r := callListener pf c "*" frame target
          match r.2 with
          | some error => catchBlock r.1 error frame
          | none => r.1
      | none => c.emit "unhandled" (EventData.unhandled type frame)

/-- Lines 39-77, the listener of the socket's `message` event; `frame` is `event.data`.
A frame `__ping__` is answered with `__pong__`; any other frame is parsed, validated
(lines 50-56) and dispatched; whatever is thrown on the way is caught by the catch
block. -/
def messageListener (pf : Platform) (c : WSClient P) (frame : String) : WSClient P :=
  if frame = "__ping__" then
    match c.socketSend "__pong__" with
    | Except.ok c1 => c1
    | Except.error message => catchBlock c.socketSendThrew (Thrown.value message) frame
  else
    match pf.parse frame with
    | Except.error message => catchBlock c (Thrown.value message) frame
    | Except.ok data =>
        if !data.truthy || !data.typeofObject then
          catchBlock c (Thrown.value "Некорректный формат данных") frame
        else
          match data.typeField with
          | none => catchBlock c (Thrown.value "Отсутствует поле type в сообщении") frame
          | some type =>
              if !type.truthy || !type.typeofString then
                catchBlock c (Thrown.value "Отсутствует поле type в сообщении") frame
              else
                match type with
                | Json.str t => dispatch pf c t frame
                | _ => catchBlock c (Thrown.value "Отсутствует поле type в сообщении") frame

/-- What can happen to a client: an action, or a frame arriving on a socket the client has
created (the one in `this.ws`, or an earlier one that is still open). -/
inductive Event (P : Type) where
  | action (a : Action P)
  | socketMessage (frame : String)

/-- The client after one event. -/
def stepEvent (env : Env P) (pf : Platform) (c : WSClient P) : Event P → WSClient P
  | Event.action a => step env c a
  | Event.socketMessage frame => messageListener pf c frame

/-- The client after a sequence of events, first to last. -/
def runEvents (env : Env P) (pf : Platform) (c : WSClient P) (events : List (Event P)) :
    WSClient P :=
  events.foldl (stepEvent env pf) c

/-- The `parse_error` events recorded in a list of effects: failure detail and raw frame
carried by each. -/
def parseErrorEvents (effects : List (Effect P)) : List (String × String) :=
  effects.filterMap fun e =>
    match e with
    | Effect.emitError errorType (ErrorData.parseError error rawData) =>
        if errorType = "parse_error" then some (error, rawData) else none
    | _ => none

/-- The calls of message handlers recorded in a list of effects: the callback, the key it
was found under and the frame whose value it received. -/
def handlerCalls (effects : List (Effect P)) : List (Nat × String × String) :=
  effects.filterMap fun e =>
    match e with
    | Effect.listenerCall handler key (EventData.message frame) => some (handler, key, frame)
    | _ => none

/-- The `unhandled` events recorded in a list of effects: type and frame of each. -/
def unhandledEvents (effects : List (Effect P)) : List (String × String) :=
  effects.filterMap fun e =>
    match e with
    | Effect.emit eventType (EventData.unhandled type frame) =>
        if eventType = "unhandled" then some (type, frame) else none
    | _ => none

/-- The exceptions that left a method or a listener recorded in a list of effects. -/
def escapedExceptions (effects : List (Effect P)) : List String :=
  effects.filterMap fun e =>
    match e with
    | Effect.exception error => some error
    | _ => none

/-- The calls of error callbacks recorded in a list of effects: the callback and the error
category of each. -/
def errorListenerCalls (effects : List (Effect P)) : List (Nat × String) :=
  effects.filterMap fun e =>
    match e with
    | Effect.errorListenerCall handler errorType _ => some (handler, errorType)
    | _ => none

/-- A `JSON.parse` for a handful of texts; every other text is a syntax error. The
throwing callback 4 throws `null`; every other throwing callback throws an error with the
message `"handler failed"`. -/
def demoPlatform : Platform :=
  { parse := fun text =>
      if text = "\x7b\"type\":\"chat\"\x7d" then
        Except.ok (Json.obj [("type", Json.str "chat")])
      else if text = "\x7b\"type\":\"constructor\"\x7d" then
        Except.ok (Json.obj [("type", Json.str "constructor")])
      else if text = "\x7b\"type\":\"call\"\x7d" then
        Except.ok (Json.obj [("type", Json.str "call")])
      else if text = "\x7b\"type\":\"\"\x7d" then
        Except.ok (Json.obj [("type", Json.str "")])
      else if text = "\x7b\"kind\":\"chat\"\x7d" then
        Except.ok (Json.obj [("kind", Json.str "chat")])
      else if text = "\x7b\"type\":7\x7d" then
        Except.ok (Json.obj [("type", Json.num 7)])
      else if text = "null" then Except.ok Json.null
      else if text = "42" then Except.ok (Json.num 42)
      else Except.error "Unexpected token",
    thrown := fun handler =>
      if handler = 4 then Thrown.nullish else Thrown.value "handler failed" }

/-- The truthy properties found on an anonymous function expression of non-strict code with
one parameter, own (`length`, `prototype`) and inherited from `Function.prototype` and
`Object.prototype`: used as lines 59-60 do, most of them throw a `TypeError` (a
`SyntaxError` for `constructor`, which is `Function`). -/
def functionExpression : List (String × Option Thrown) :=
  [("length", some (Thrown.value "this.listeners[data.type] is not a function")),
   ("prototype", some (Thrown.value "this.listeners[data.type] is not a function")),
   ("call", some (Thrown.value "this.listeners[data.type] is not a function")),
   ("apply", some (Thrown.value "this.listeners[data.type] is not a function")),
   ("bind", some (Thrown.value "Bind must be called on a function")),
   ("toString", some (Thrown.value "Function.prototype.toString requires a function")),
   ("toLocaleString", some (Thrown.value "Function.prototype.toString requires a function")),
   ("constructor", some (Thrown.value "Unexpected identifier")),
   ("valueOf", none), ("hasOwnProperty", none), ("isPrototypeOf", none),
   ("propertyIsEnumerable", none), ("__lookupGetter__", none), ("__lookupSetter__", none),
   ("__defineGetter__", some (Thrown.value "Expecting function")),
   ("__defineSetter__", some (Thrown.value "Expecting function"))]

/-- The fresh client with its socket open. -/
def demoOpen : WSClient String :=
  demoClient.setReadyState ReadyState.OPEN

/-- The open client with only a wildcard handler (callback 7, which returns). -/
def demoWildcard : WSClient String :=
  demoOpen.onAny { id := 7, throws := false, properties := functionExpression }

/-- The open client with a handler for the type `chat` that throws (callback 3) and a
wildcard handler (callback 7, which returns). -/
def demoThrowing : WSClient String :=
  demoWildcard.onType "chat" { id := 3, throws := true, properties := functionExpression }

/-- The open client with a handler for the type `chat` that throws `null` (callback 4) and
a wildcard handler (callback 7, which returns). -/
def demoThrowingNull : WSClient String :=
  demoWildcard.onType "chat" { id := 4, throws := true, properties := functionExpression }

/-- The open client with a wildcard handler (callback 7) after `on('__proto__', callback)`
with the callback 9: the callback is now the prototype of `this.listeners`. -/
def demoPrototype : WSClient String :=
  demoWildcard.onType "__proto__" { id := 9, throws := false, properties := functionExpression }

/-- A series of `onError` calls, first to last: each pair is the category and the callback
of one call. -/
def registerErrors (c : WSClient P) (registrations : List (String × Handler)) : WSClient P :=
  registrations.foldl (fun s r => s.onError r.1 r.2) c

/-- In the words of the specification: the callbacks registered for a category by a series
of `onError` calls, in registration order. -/
def registeredFor (registrations : List (String × Handler)) (category : String) :
    List Handler :=
  (registrations.filter fun r => decide (r.1 = category)).map fun r => r.2

/-- The double written `0.1` in the source of an application: the double nearest to one
tenth. -/
def tenth : ℚ := 7205759403792794 / 2 ^ (56 : ℕ)

/-- Options that set only `reconnectDelay`, to `0.1`. -/
def tenthOptions : Options :=
  { maxReconnectAttempts := none, reconnectDelay := some tenth, autoReconnect := none,
    enablePing := none, pingInterval := none }

/-- A client constructed with `reconnectDelay: 0.1`, after one reconnect attempt. -/
def tenthRetrying : WSClient String :=
  { WSClient.constructor demoEnv "ws://localhost:3000" tenthOptions 0 [] with
    reconnectAttempts := 1 }

/-- Options that set only `maxReconnectAttempts`, to the positive number 2.5. -/
def fractionalOptions : Options :=
  { maxReconnectAttempts := some (5 / 2), reconnectDelay := none, autoReconnect := none,
    enablePing := none, pingInterval := none }

/-- A client just constructed with `maxReconnectAttempts: 2.5`. -/
def fractionalClient : WSClient String :=
  WSClient.constructor demoEnv "ws://localhost:3000" fractionalOptions 0 []

/-! ## Theorems -/

section Basic

theorem settlements_append (l₁ l₂ : List (Effect P)) :
    settlements (l₁ ++ l₂) = settlements l₁ ++ settlements l₂ := by
  simp [settlements]

theorem emitError_settlements (c : WSClient P) (t : String) (d : ErrorData P) :
    settlements (c.emitError t d).effects = settlements c.effects := by
  simp [emitError, settlements, List.filter_map, Function.comp_def]

theorem socketSend_connected (c : WSClient P) (frame : String) (h : c.isConnected = true) :
    c.socketSend frame =
      (match c.faults with
       | some msg :: _ => Except.error msg
       | none :: rest =>
           Except.ok { c with faults := rest, effects := c.effects ++ [Effect.wsSend frame] }
       | [] => Except.ok { c with effects := c.effects ++ [Effect.wsSend frame] }) := by
  unfold socketSend
  unfold isConnected at h
  cases hw : c.ws with
  | none => simp [hw] at h
  | some w =>
      simp only [hw, decide_eq_true_eq] at h
      simp only [h]

theorem socketSendThrew_connected (c : WSClient P) (h : c.isConnected = true) :
    c.socketSendThrew = { c with faults := c.faults.tail } := by
  simp [socketSendThrew, h]

/-- What a call of `this.ws.send(frame)` that returns changes: it writes the frame (open
socket) or nothing (closing or closed socket). -/
theorem socketSend_ok_shape (c c1 : WSClient P) (frame : String)
    (h : c.socketSend frame = Except.ok c1) :
    ∃ f e, c1 = { c with faults := f, effects := c.effects ++ e } ∧
      (e = [] ∨ e = [Effect.wsSend frame]) := by
  have hnil : c = { c with faults := c.faults, effects := c.effects ++ [] } := by
    cases c
    simp
  unfold socketSend at h
  split at h
  · cases h
  · split at h
    · cases h
    · split at h
      · cases h
      · injection h with h
        exact ⟨_, [Effect.wsSend frame], h.symm, Or.inr rfl⟩
      · injection h with h
        exact ⟨c.faults, [Effect.wsSend frame], h.symm, Or.inr rfl⟩
    · injection h with h
      exact ⟨c.faults, [], h ▸ hnil, Or.inl rfl⟩
    · injection h with h
      exact ⟨c.faults, [], h ▸ hnil, Or.inl rfl⟩

theorem socketSendThrew_shape (c : WSClient P) :
    ∃ f, c.socketSendThrew = { c with faults := f } := by
  unfold socketSendThrew
  split
  · exact ⟨_, rfl⟩
  · exact ⟨c.faults, rfl⟩

/-- What the keepalive callback changes: the script, and the effects by at most the frame
`__ping__`. -/
theorem pingCallback_shape (c : WSClient P) :
    ∃ f e, c.pingCallback = { c with faults := f, effects := c.effects ++ e } ∧
      (e = [] ∨ e = [Effect.wsSend "__ping__"]) := by
  unfold pingCallback
  split
  · cases h : c.socketSend "__ping__" with
    | ok c1 => exact socketSend_ok_shape c c1 _ h
    | error msg =>
        obtain ⟨f, hf⟩ := socketSendThrew_shape c
        exact ⟨f, [], by simp [hf], Or.inl rfl⟩
  · exact ⟨c.faults, [], by simp, Or.inl rfl⟩

theorem sendImmediately_ws (env : Env P) (c : WSClient P) (data : P) :
    (sendImmediately env c data).2.ws = c.ws := by
  unfold sendImmediately
  by_cases hc : c.isConnected
  · simp only [hc, Bool.not_true, Bool.false_eq_true, if_false]
    cases env.stringify data with
    | error msg => rfl
    | ok frame =>
        simp only [socketSend_connected c _ hc, socketSendThrew_connected c hc]
        cases c.faults with
        | nil => rfl
        | cons x rest => cases x <;> rfl
  · simp [hc]

/-- The effects of one call `emitError(t, d)`: the call itself, then the calls of the
callbacks. -/
theorem emitError_eq (c : WSClient P) (t : String) (d : ErrorData P) :
    c.emitError t d = { c with effects := c.effects ++ (Effect.emitError t d ::
      List.map (fun h => Effect.errorListenerCall h.id t d)
        (c.errorListeners t ++ c.errorListeners "*")) } := rfl

theorem emit_shape (c : WSClient P) (t : String) (d : EventData) :
    ∃ e, c.emit t d = { c with effects := c.effects ++ e } ∧
      settlements e = [] ∧ sentFrames e = [] ∧ timerDelays e = [] ∧
      connectAttempts e = [] ∧ maxAttemptsEvents e = [] := by
  unfold emit
  cases lookupListener c t with
  | none => exact ⟨_, rfl, rfl, rfl, rfl, rfl, rfl⟩
  | some target =>
      cases target with
      | registered h => exact ⟨_, rfl, rfl, rfl, rfl, rfl, rfl⟩
      | inherited thrown => exact ⟨_, rfl, rfl, rfl, rfl, rfl, rfl⟩

theorem emitError_shape (c : WSClient P) (t : String) (d : ErrorData P) :
    ∃ e, c.emitError t d = { c with effects := c.effects ++ e } ∧
      settlements e = [] ∧ sentFrames e = [] ∧ timerDelays e = [] ∧
      connectAttempts e = [] := by
  refine ⟨_, emitError_eq c t d, ?_, ?_, ?_, ?_⟩ <;>
    simp [settlements, sentFrames, timerDelays, connectAttempts, List.filter_map,
      List.filterMap_map, Function.comp_def]

theorem sendImmediately_shape (env : Env P) (c : WSClient P) (data : P) :
    ∃ f e, (sendImmediately env c data).2 = { c with faults := f, effects := c.effects ++ e } ∧
      settlements e = [] ∧ timerDelays e = [] ∧ connectAttempts e = [] ∧
      maxAttemptsEvents e = [] ∧
      ((sendImmediately env c data).1 = true → ∃ frame, env.stringify data = Except.ok frame ∧
        sentFrames e = [frame]) ∧
      ((sendImmediately env c data).1 = false → sentFrames e = []) := by
  unfold sendImmediately
  by_cases hc : c.isConnected
  · simp only [hc, Bool.not_true, Bool.false_eq_true, if_false]
    cases hs : env.stringify data with
    | error msg =>
        refine ⟨c.faults, _, rfl, ?_, ?_, ?_, ?_, ?_, ?_⟩ <;>
          simp [settlements, timerDelays, connectAttempts, maxAttemptsEvents, sentFrames,
            List.filter_map, List.filterMap_map, Function.comp_def]
    | ok frame =>
        cases hf : c.faults with
        | nil =>
            refine ⟨c.faults, [Effect.wsSend frame], ?_, ?_, ?_, ?_, ?_, ?_, ?_⟩ <;>
              simp [socketSend_connected c _ hc, hf, settlements, timerDelays, connectAttempts,
                maxAttemptsEvents, sentFrames]
        | cons x rest =>
            cases x with
            | none =>
                refine ⟨rest, [Effect.wsSend frame], ?_, ?_, ?_, ?_, ?_, ?_, ?_⟩ <;>
                  simp [socketSend_connected c _ hc, hf, settlements, timerDelays, connectAttempts,
                    maxAttemptsEvents, sentFrames]
            | some msg =>
                refine ⟨rest, Effect.emitError "send_error" (ErrorData.sendError msg data) ::
                  List.map (fun h => Effect.errorListenerCall h.id "send_error"
                      (ErrorData.sendError msg data))
                    (c.errorListeners "send_error" ++ c.errorListeners "*"),
                  ?_, ?_, ?_, ?_, ?_, ?_, ?_⟩
                · simp only [socketSend_connected c _ hc, hf, socketSendThrew_connected c hc, emitError,
                    List.tail_cons]
                all_goals
                  simp [socketSend_connected c _ hc, hf, settlements, timerDelays, connectAttempts,
                    maxAttemptsEvents, sentFrames, List.filter_map, List.filterMap_map,
                    Function.comp_def]
  · refine ⟨c.faults, [], ?_, ?_, ?_, ?_, ?_, ?_, ?_⟩ <;>
      simp [hc, settlements, timerDelays, connectAttempts, maxAttemptsEvents, sentFrames]

theorem sendImmediately_congr (env : Env P) (c c' : WSClient P) (data : P)
    (hws : c.ws = c'.ws) (hf : c.faults = c'.faults) :
    (sendImmediately env c data).1 = (sendImmediately env c' data).1 ∧
      (sendImmediately env c data).2.ws = (sendImmediately env c' data).2.ws ∧
      (sendImmediately env c data).2.faults = (sendImmediately env c' data).2.faults := by
  have hc : c.isConnected = c'.isConnected := by simp [isConnected, hws]
  unfold sendImmediately
  rw [← hc]
  by_cases h : c.isConnected
  · simp only [h, Bool.not_true, Bool.false_eq_true, if_false]
    cases env.stringify data with
    | error msg => simp [emitError, hws, hf]
    | ok frame =>
        simp only [socketSend_connected c _ h, socketSend_connected c' _ (hc ▸ h),
          socketSendThrew_connected c h, socketSendThrew_connected c' (hc ▸ h), ← hf]
        cases c.faults with
        | nil => simp [hws]
        | cons x rest => cases x <;> simp [emitError, hws]
  · simp [h, hws, hf]

theorem transmissions_congr (env : Env P) (q : List (QueuedMessage P)) :
    ∀ c c' : WSClient P, c.ws = c'.ws → c.faults = c'.faults →
      transmissions env c q = transmissions env c' q := by
  induction q with
  | nil => intro c c' _ _; rfl
  | cons m rest ih =>
      intro c c' hws hf
      obtain ⟨h1, h2, h3⟩ := sendImmediately_congr env c c' m.data hws hf
      simp only [transmissions, h1]
      rw [ih _ _ h2 h3]

theorem flushRetained_cons (m : QueuedMessage P) (rest : List (QueuedMessage P)) (b : Bool)
    (bs : List Bool) :
    flushRetained (m :: rest) (b :: bs) =
      (if b = false ∧ m.attempts + 1 < 3 then [{ m with attempts := m.attempts + 1 }] else [])
        ++ flushRetained rest bs := by
  by_cases h : b = false ∧ m.attempts + 1 < 3
  · simp [flushRetained, List.filter_cons, h.1, h.2]
  · simp only [flushRetained, List.zip_cons_cons, List.filter_cons, if_neg h]
    have : (!b && decide (m.attempts + 1 < 3)) = false := by
      cases b <;> simp_all
    simp [this]

theorem flushSettled_cons (m : QueuedMessage P) (rest : List (QueuedMessage P)) (b : Bool)
    (bs : List Bool) :
    flushSettled (m :: rest) (b :: bs) =
      (if b = true then [Effect.resolve m.promise m.data]
        else if m.attempts + 1 < 3 then []
        else [Effect.reject m.promise (Rejection.retriesExceeded m.data)])
        ++ flushSettled rest bs := by
  cases b
  · by_cases h : m.attempts + 1 < 3 <;> simp [flushSettled, List.filterMap_cons, h]
  · simp [flushSettled, List.filterMap_cons]

theorem flushFrames_cons (env : Env P) (m : QueuedMessage P) (rest : List (QueuedMessage P))
    (b : Bool) (bs : List Bool) :
    flushFrames env (m :: rest) (b :: bs) =
      (if b = true then (env.stringify m.data).toOption.toList else [])
        ++ flushFrames env rest bs := by
  cases b
  · simp [flushFrames, List.filterMap_cons]
  · cases h : (env.stringify m.data).toOption <;>
      simp [flushFrames, List.filterMap_cons, h]

theorem sentFrames_append (l₁ l₂ : List (Effect P)) :
    sentFrames (l₁ ++ l₂) = sentFrames l₁ ++ sentFrames l₂ := by
  simp [sentFrames]

theorem timerDelays_append (l₁ l₂ : List (Effect P)) :
    timerDelays (l₁ ++ l₂) = timerDelays l₁ ++ timerDelays l₂ := by
  simp [timerDelays]

theorem connectAttempts_append (l₁ l₂ : List (Effect P)) :
    connectAttempts (l₁ ++ l₂) = connectAttempts l₁ ++ connectAttempts l₂ := by
  simp [connectAttempts]

theorem maxAttemptsEvents_append (l₁ l₂ : List (Effect P)) :
    maxAttemptsEvents (l₁ ++ l₂) = maxAttemptsEvents l₁ ++ maxAttemptsEvents l₂ := by
  simp [maxAttemptsEvents]

/-- The loop of `flushMessageQueue`, started with the client `c` and the array
`remaining = acc`: only `faults` and `effects` of the client change; `remaining` grows by
the retained messages; the settlements and frames are those of the specification. -/
theorem foldl_flushStep (env : Env P) (q : List (QueuedMessage P)) :
    ∀ (c : WSClient P) (acc : List (QueuedMessage P)),
      ∃ f e, (q.foldl (flushStep env) (c, acc)).1 =
          { c with faults := f, effects := c.effects ++ e } ∧
        (q.foldl (flushStep env) (c, acc)).2 =
          acc ++ flushRetained q (transmissions env c q) ∧
        settlements e = flushSettled q (transmissions env c q) ∧
        sentFrames e = flushFrames env q (transmissions env c q) ∧
        timerDelays e = [] ∧ connectAttempts e = [] ∧ maxAttemptsEvents e = [] := by
  induction q with
  | nil =>
      intro c acc
      exact ⟨c.faults, [], by simp, by simp [flushRetained, transmissions],
        by simp [settlements, flushSettled, transmissions],
        by simp [sentFrames, flushFrames, transmissions],
        by simp [timerDelays], by simp [connectAttempts], by simp [maxAttemptsEvents]⟩
  | cons m rest ih =>
      intro c acc
      obtain ⟨f1, e1, hr, hs1, ht1, hc1, hm1, hok, hko⟩ := sendImmediately_shape env c m.data
      simp only [List.foldl_cons, transmissions, flushRetained_cons, flushSettled_cons,
        flushFrames_cons]
      cases hb : (sendImmediately env c m.data).1 with
      | true =>
          obtain ⟨frame, hfr, hsf⟩ := hok hb
          have hstep : flushStep env (c, acc) m =
              ({ c with faults := f1,
                        effects := c.effects ++ (e1 ++ [Effect.resolve m.promise m.data]) },
                acc) := by
            simp [flushStep, hb, hr]
          obtain ⟨f2, e2, h1, h2, h3, h4, h5, h6, h7⟩ := ih
            { c with faults := f1,
                     effects := c.effects ++ (e1 ++ [Effect.resolve m.promise m.data]) } acc
          have htr : transmissions env
              { c with faults := f1,
                       effects := c.effects ++ (e1 ++ [Effect.resolve m.promise m.data]) } rest
              = transmissions env (sendImmediately env c m.data).2 rest := by
            apply transmissions_congr <;> simp [hr]
          rw [htr] at h2 h3 h4
          refine ⟨f2, (e1 ++ [Effect.resolve m.promise m.data]) ++ e2, ?_, ?_, ?_, ?_, ?_, ?_, ?_⟩
          · rw [hstep, h1]; simp
          · rw [hstep, h2]; simp
          · rw [settlements_append, settlements_append, hs1, h3]; simp [settlements]
          · rw [sentFrames_append, sentFrames_append, hsf, h4]
            simp [sentFrames, hfr, Except.toOption]
          · rw [timerDelays_append, timerDelays_append, ht1, h5]; simp [timerDelays]
          · rw [connectAttempts_append, connectAttempts_append, hc1, h6]
            simp [connectAttempts]
          · rw [maxAttemptsEvents_append, maxAttemptsEvents_append, hm1, h7]
            simp [maxAttemptsEvents]
      | false =>
          have hsf := hko hb
          by_cases hlt : m.attempts + 1 < 3
          · have hstep : flushStep env (c, acc) m =
                ({ c with faults := f1, effects := c.effects ++ e1 },
                  acc ++ [{ m with attempts := m.attempts + 1 }]) := by
              simp [flushStep, hb, hr, hlt]
            obtain ⟨f2, e2, h1, h2, h3, h4, h5, h6, h7⟩ := ih
              { c with faults := f1, effects := c.effects ++ e1 }
              (acc ++ [{ m with attempts := m.attempts + 1 }])
            have htr : transmissions env
                { c with faults := f1, effects := c.effects ++ e1 } rest
                = transmissions env (sendImmediately env c m.data).2 rest := by
              apply transmissions_congr <;> simp [hr]
            rw [htr] at h2 h3 h4
            refine ⟨f2, e1 ++ e2, ?_, ?_, ?_, ?_, ?_, ?_, ?_⟩
            · rw [hstep, h1]; simp
            · rw [hstep, h2]; simp [hlt]
            · simp [settlements_append, hs1, h3, hlt]
            · simp [sentFrames_append, hsf, h4]
            · simp [timerDelays_append, ht1, h5]
            · simp [connectAttempts_append, hc1, h6]
            · simp [maxAttemptsEvents_append, hm1, h7]
          · have hstep : flushStep env (c, acc) m =
                ({ c with faults := f1,
                          effects := c.effects ++ (e1 ++
                            [Effect.reject m.promise (Rejection.retriesExceeded m.data)]) },
                  acc) := by
              simp [flushStep, hb, hr, hlt]
            obtain ⟨f2, e2, h1, h2, h3, h4, h5, h6, h7⟩ := ih
              { c with faults := f1,
                       effects := c.effects ++ (e1 ++
                         [Effect.reject m.promise (Rejection.retriesExceeded m.data)]) } acc
            have htr : transmissions env
                { c with faults := f1,
                         effects := c.effects ++ (e1 ++
                           [Effect.reject m.promise (Rejection.retriesExceeded m.data)]) } rest
                = transmissions env (sendImmediately env c m.data).2 rest := by
              apply transmissions_congr <;> simp [hr]
            rw [htr] at h2 h3 h4
            refine ⟨f2, (e1 ++ [Effect.reject m.promise (Rejection.retriesExceeded m.data)])
              ++ e2, ?_, ?_, ?_, ?_, ?_, ?_, ?_⟩
            · rw [hstep, h1]; simp
            · rw [hstep, h2]; simp [hlt]
            · rw [settlements_append, settlements_append, hs1, h3]; simp [settlements, hlt]
            · rw [sentFrames_append, sentFrames_append, hsf, h4]; simp [sentFrames]
            · rw [timerDelays_append, timerDelays_append, ht1, h5]; simp [timerDelays]
            · rw [connectAttempts_append, connectAttempts_append, hc1, h6]
              simp [connectAttempts]
            · rw [maxAttemptsEvents_append, maxAttemptsEvents_append, hm1, h7]
              simp [maxAttemptsEvents]

/-- A flush changes only `faults`, `effects` and `messageQueue`. -/
theorem flushMessageQueue_shape (env : Env P) (c : WSClient P) :
    ∃ f e, flushMessageQueue env c =
        { c with faults := f, effects := c.effects ++ e,
                 messageQueue :=
                   flushRetained c.messageQueue (transmissions env c c.messageQueue) } ∧
      settlements e = flushSettled c.messageQueue (transmissions env c c.messageQueue) ∧
      sentFrames e = flushFrames env c.messageQueue (transmissions env c c.messageQueue) ∧
      timerDelays e = [] ∧ connectAttempts e = [] ∧ maxAttemptsEvents e = [] := by
  by_cases h : c.messageQueue.length = 0
  · have hq : c.messageQueue = [] := List.length_eq_zero.mp h
    refine ⟨c.faults, [], ?_, ?_, ?_, ?_, ?_, ?_⟩
    · cases c
      simp_all [flushMessageQueue, flushRetained, transmissions]
    all_goals
      simp [hq, settlements, sentFrames, timerDelays, connectAttempts, maxAttemptsEvents,
        flushSettled, flushFrames, transmissions]
  · obtain ⟨f, e, h1, h2, h3, h4, h5, h6, h7⟩ := foldl_flushStep env c.messageQueue c []
    refine ⟨f, e, ?_, h3, h4, h5, h6, h7⟩
    simp only [flushMessageQueue, h, if_false, h1, h2, List.nil_append]

end Basic

section Flush

/-- C1. After `flushMessageQueue` the queue holds exactly the messages whose transmission
failed in this flush and whose incremented attempt counter is below 3, in their original
order (with the counter incremented); the promises settled by the flush are, in queue
order, those of the messages whose transmission succeeded (resolved with the message's
payload) and of the messages whose transmission failed with the incremented counter
reaching 3 (rejected with the message's payload). The outcome of each transmission is the
boolean `sendImmediately` returned for it. This holds in every state, in particular on an
open connection. -/
theorem flushMessageQueue_outcome (env : Env P) (c : WSClient P) :
    (flushMessageQueue env c).messageQueue =
        flushRetained c.messageQueue (transmissions env c c.messageQueue) ∧
      settlements (flushMessageQueue env c).effects =
        settlements c.effects ++
          flushSettled c.messageQueue (transmissions env c c.messageQueue) := by
  obtain ⟨f, e, h, hs, -⟩ := flushMessageQueue_shape env c
  rw [h]
  exact ⟨rfl, by simp [settlements_append, hs]⟩

/-- One `send` on a client that is not connected: nothing but the queue and the promise
counter changes. -/
theorem send_disconnected (env : Env P) (c : WSClient P) (data : P)
    (hclosed : c.isConnected = false) :
    send env c data =
      (SendResult.queued c.nextPromise,
        { c with
          messageQueue := c.messageQueue ++
            [{ id := c.now, data := data, timestamp := c.now, attempts := 0,
               promise := c.nextPromise }],
          nextPromise := c.nextPromise + 1 }) := by
  simp [send, hclosed]

/-- A series of `send` calls on a client that is not connected. -/
theorem run_send_disconnected (env : Env P) (payloads : List P) :
    ∀ c : WSClient P, c.isConnected = false →
      ∃ entries : List (QueuedMessage P),
        run env c (payloads.map Action.send) =
          { c with messageQueue := c.messageQueue ++ entries,
                   nextPromise := c.nextPromise + payloads.length } ∧
        entries.map (fun m => m.data) = payloads ∧
        (∀ m ∈ entries, m.attempts = 0) := by
  induction payloads with
  | nil =>
      intro c _
      exact ⟨[], by simp [run], rfl, by simp⟩
  | cons p rest ih =>
      intro c hclosed
      have hstep : step env c (Action.send p) =
          { c with
            messageQueue := c.messageQueue ++
              [{ id := c.now, data := p, timestamp := c.now, attempts := 0,
                 promise := c.nextPromise }],
            nextPromise := c.nextPromise + 1 } := by
        simp [step, send_disconnected env c p hclosed]
      have hclosed1 : (step env c (Action.send p)).isConnected = false := by
        rw [hstep]; simpa [isConnected] using hclosed
      obtain ⟨entries, h1, h2, h3⟩ := ih (step env c (Action.send p)) hclosed1
      refine ⟨{ id := c.now, data := p, timestamp := c.now, attempts := 0,
                promise := c.nextPromise } :: entries, ?_, ?_, ?_⟩
      · simp only [run, List.map_cons, List.foldl_cons] at h1 ⊢
        rw [h1, hstep]
        simp [Nat.add_assoc, Nat.add_comm 1]
      · simp [h2]
      · intro m hm
        rcases List.mem_cons.mp hm with h | h
        · rw [h]
        · exact h3 m h

/-- On an open connection whose socket accepts every frame, every transmission of
serialisable payloads succeeds. -/
theorem transmissions_all_ok (env : Env P) (ser : P → String) (q : List (QueuedMessage P)) :
    ∀ c : WSClient P, c.isConnected = true → (∀ f ∈ c.faults, f = none) →
      (∀ m ∈ q, env.stringify m.data = Except.ok (ser m.data)) →
      transmissions env c q = q.map (fun _ => true) := by
  induction q with
  | nil => intro c _ _ _; rfl
  | cons m rest ih =>
      intro c hc hf hs
      have hm : env.stringify m.data = Except.ok (ser m.data) := hs m (List.mem_cons_self _ _)
      have hr : (sendImmediately env c m.data).1 = true ∧
          (sendImmediately env c m.data).2.isConnected = true ∧
          (∀ f ∈ (sendImmediately env c m.data).2.faults, f = none) := by
        unfold sendImmediately
        simp only [hc, Bool.not_true, Bool.false_eq_true, if_false, hm,
          socketSend_connected c _ hc]
        cases hfl : c.faults with
        | nil => exact ⟨rfl, hc, by simp [hfl]⟩
        | cons x xs =>
            have hx : x = none := hf x (by simp [hfl])
            subst hx
            refine ⟨rfl, hc, ?_⟩
            intro f hfm
            exact hf f (by simp [hfl, hfm])
      simp only [transmissions, hr.1, List.map_cons]
      rw [ih _ hr.2.1 hr.2.2 (fun m' hm' => hs m' (List.mem_cons_of_mem _ hm'))]

theorem flushFrames_all_ok (env : Env P) (ser : P → String) (q : List (QueuedMessage P))
    (hs : ∀ m ∈ q, env.stringify m.data = Except.ok (ser m.data)) :
    flushFrames env q (q.map (fun _ => true)) = q.map (fun m => ser m.data) := by
  induction q with
  | nil => rfl
  | cons m rest ih =>
      have hm := hs m (List.mem_cons_self _ _)
      simp only [List.map_cons, flushFrames_cons, if_true, hm, Except.toOption,
        Option.toList, List.singleton_append]
      rw [ih (fun m' hm' => hs m' (List.mem_cons_of_mem _ hm'))]

/-- C2. Payloads sent with `send` while the connection is not open are written to the
socket, when the connection then opens and every transmission succeeds (every payload
serialises and the socket accepts every frame), as their serialisations in exactly the
order of the `send` calls, after those of the messages already queued. -/
theorem flush_transmits_in_send_order (env : Env P) (c : WSClient P) (payloads : List P)
    (ser : P → String) (hclosed : c.isConnected = false) (hsock : c.ws.isSome = true)
    (hser : ∀ p ∈ c.messageQueue.map (fun m => m.data) ++ payloads,
      env.stringify p = Except.ok (ser p))
    (hacc : ∀ f ∈ c.faults, f = none) :
    sentFrames (step env (run env c (payloads.map Action.send)) Action.socketOpen).effects =
      sentFrames c.effects ++
        (c.messageQueue.map (fun m => m.data) ++ payloads).map ser := by
  obtain ⟨entries, hrun, hdata, -⟩ := run_send_disconnected env payloads c hclosed
  obtain ⟨w, hw⟩ := Option.isSome_iff_exists.mp hsock
  rw [hrun]
  simp only [step, openListener, setReadyState]
  obtain ⟨e1, he1, -, hf1, -⟩ := emit_shape
    ({ ({ c with messageQueue := c.messageQueue ++ entries,
                 nextPromise := c.nextPromise + payloads.length } : WSClient P) with
        ws := Option.map (fun w => { w with readyState := ReadyState.OPEN }) c.ws,
        reconnectAttempts := 0 }) "open" EventData.opened
  rw [he1]
  obtain ⟨f, e2, h2, -, hf2, -⟩ := flushMessageQueue_shape env
    ({ ({ ({ c with messageQueue := c.messageQueue ++ entries,
                    nextPromise := c.nextPromise + payloads.length } : WSClient P) with
          ws := Option.map (fun w => { w with readyState := ReadyState.OPEN }) c.ws,
          reconnectAttempts := 0 } : WSClient P) with
        effects := c.effects ++ e1 })
  rw [h2]
  have hq : ∀ m ∈ c.messageQueue ++ entries, env.stringify m.data = Except.ok (ser m.data) := by
    intro m hm
    apply hser
    rcases List.mem_append.mp hm with h | h
    · exact List.mem_append_left _ (List.mem_map_of_mem _ h)
    · apply List.mem_append_right
      rw [← hdata]
      exact List.mem_map_of_mem _ h
  have htx := transmissions_all_ok env ser (c.messageQueue ++ entries)
    ({ ({ ({ c with messageQueue := c.messageQueue ++ entries,
                    nextPromise := c.nextPromise + payloads.length } : WSClient P) with
          ws := Option.map (fun w => { w with readyState := ReadyState.OPEN }) c.ws,
          reconnectAttempts := 0 } : WSClient P) with
        effects := c.effects ++ e1 })
    (by simp [isConnected, hw]) hacc hq
  simp only [htx] at hf2
  rw [flushFrames_all_ok env ser _ hq] at hf2
  simp only [sentFrames_append, hf1, hf2, List.append_nil, List.nil_append, List.map_append,
    ← hdata, List.map_map, Function.comp_def, List.append_assoc]

/-- Witness of C2: three payloads sent before the socket of a fresh client opens. -/
theorem flush_transmits_in_send_order_witness :
    demoClient.isConnected = false ∧
      sentFrames (step demoEnv (run demoEnv demoClient
        (["A", "B", "C"].map Action.send)) Action.socketOpen).effects = ["A", "B", "C"] :=
  ⟨rfl, flush_transmits_in_send_order demoEnv demoClient ["A", "B", "C"] id rfl rfl
    (by
      intro p hp
      have h : p = "A" ∨ p = "B" ∨ p = "C" := by
        simpa [demoClient, WSClient.constructor, connect, startPing, demoEnv, demoOptions]
          using hp
      rcases h with h | h | h <;> subst h <;> simp [demoEnv])
    (by decide)⟩

/-- C6. On a client whose connection is not open, `send` writes nothing to the socket (it
has no effect on the outside world at all), returns the promise of a new queued message
and appends that message, holding the payload and `attempts = 0`, at the tail of the
queue, the earlier entries unchanged. Hence a series of `send` calls appends one message
per call, in call order: the queue size grows by the number of calls (from an empty queue
it is that number) and the payloads appear in call order. -/
theorem send_while_disconnected_queues (env : Env P) (c : WSClient P) (data : P)
    (payloads : List P) (hclosed : c.isConnected = false) :
    (send env c data).2.effects = c.effects ∧
      (send env c data).1 = SendResult.queued c.nextPromise ∧
      (∃ m : QueuedMessage P, (send env c data).2.messageQueue = c.messageQueue ++ [m] ∧
        m.data = data ∧ m.attempts = 0 ∧ m.promise = c.nextPromise) ∧
      (run env c (payloads.map Action.send)).effects = c.effects ∧
      (∃ entries : List (QueuedMessage P),
        (run env c (payloads.map Action.send)).messageQueue = c.messageQueue ++ entries ∧
        entries.map (fun m => m.data) = payloads ∧
        (∀ m ∈ entries, m.attempts = 0)) ∧
      (run env c (payloads.map Action.send)).getQueueSize =
        c.getQueueSize + payloads.length := by
  obtain ⟨entries, hrun, hdata, hatt⟩ := run_send_disconnected env payloads c hclosed
  rw [send_disconnected env c data hclosed, hrun]
  refine ⟨rfl, rfl, ⟨_, rfl, rfl, rfl, rfl⟩, rfl, ⟨entries, rfl, hdata, hatt⟩, ?_⟩
  have hlen : entries.length = payloads.length := by rw [← hdata, List.length_map]
  simp [getQueueSize, hlen]

/-- Witness of C6: three sends on a fresh client, whose queue is empty, leave a queue of
size 3 holding the payloads in call order. -/
theorem send_while_disconnected_queues_witness :
    demoClient.isConnected = false ∧ demoClient.messageQueue = [] ∧
      (run demoEnv demoClient (["A", "B", "C"].map Action.send)).getQueueSize = 3 ∧
      (run demoEnv demoClient (["A", "B", "C"].map Action.send)).messageQueue.map
        (fun m => m.data) = ["A", "B", "C"] := by
  obtain ⟨-, -, -, -, ⟨entries, h1, h2, -⟩, h3⟩ :=
    send_while_disconnected_queues demoEnv demoClient "A" ["A", "B", "C"] rfl
  refine ⟨rfl, rfl, h3, ?_⟩
  rw [h1]
  simpa using h2

theorem settlementsOf_append (p : Nat) (l₁ l₂ : List (Effect P)) :
    settlementsOf p (l₁ ++ l₂) = settlementsOf p l₁ ++ settlementsOf p l₂ := by
  simp [settlementsOf]

/-- The settlements of one promise among effects are those among their settlements. -/
theorem settlementsOf_settlements (p : Nat) (l : List (Effect P)) :
    settlementsOf p (settlements l) = settlementsOf p l := by
  induction l with
  | nil => rfl
  | cons e rest ih =>
      cases e <;> simp_all [settlementsOf, settlements, List.filter_cons]

theorem transmissions_length (env : Env P) (q : List (QueuedMessage P)) :
    ∀ c : WSClient P, (transmissions env c q).length = q.length := by
  induction q with
  | nil => intro c; rfl
  | cons m rest ih => intro c; simp [transmissions, ih]

/-- A message that is not queued is not affected by a flush. -/
theorem flush_lists_absent (p : Nat) (q : List (QueuedMessage P)) :
    ∀ rs : List Bool, rs.length = q.length → p ∉ q.map (fun m => m.promise) →
      (∀ ok, outcomeIs q rs p ok = false) ∧
      settlementsOf p (flushSettled q rs) = [] ∧
      p ∉ (flushRetained q rs).map (fun m => m.promise) := by
  induction q with
  | nil =>
      intro rs _ _
      simp [outcomeIs, flushSettled, flushRetained, settlementsOf]
  | cons x rest ih =>
      intro rs hlen hp
      cases rs with
      | nil => simp at hlen
      | cons r rs' =>
          have hlen' : rs'.length = rest.length := by simpa using hlen
          have hx : ¬ x.promise = p := fun h => hp (by simp [h])
          have hrest : p ∉ rest.map (fun m => m.promise) := fun h => hp (by simp [h])
          obtain ⟨h1, h2, h3⟩ := ih rs' hlen' hrest
          refine ⟨?_, ?_, ?_⟩
          · intro ok
            have := h1 ok
            simp only [outcomeIs, List.zip_cons_cons, List.any_cons] at this ⊢
            simp [this, hx]
          · rw [flushSettled_cons, settlementsOf_append, h2]
            cases r <;> by_cases hlt : x.attempts + 1 < 3 <;>
              simp [settlementsOf, hlt, hx]
          · rw [flushRetained_cons]
            by_cases hk : r = false ∧ x.attempts + 1 < 3
            · simp only [if_pos hk, List.map_append, List.mem_append, not_or]
              exact ⟨by simpa using Ne.symm hx, h3⟩
            · simpa [if_neg hk] using h3

/-- What a flush does with one queued message, from the outcome `b` of its transmission. -/
theorem flush_lists_present (q : List (QueuedMessage P)) :
    ∀ rs : List Bool, rs.length = q.length → (q.map (fun m => m.promise)).Nodup →
      ∀ m ∈ q, ∃ b : Bool,
        outcomeIs q rs m.promise b = true ∧ outcomeIs q rs m.promise (!b) = false ∧
        settlementsOf m.promise (flushSettled q rs) =
          (if b = true then [Effect.resolve m.promise m.data]
            else if m.attempts + 1 < 3 then []
            else [Effect.reject m.promise (Rejection.retriesExceeded m.data)]) ∧
        (b = false ∧ m.attempts + 1 < 3 →
          ({ m with attempts := m.attempts + 1 } : QueuedMessage P) ∈ flushRetained q rs) ∧
        (¬(b = false ∧ m.attempts + 1 < 3) →
          m.promise ∉ (flushRetained q rs).map (fun m => m.promise)) := by
  induction q with
  | nil => intro rs _ _ m hm; simp at hm
  | cons x rest ih =>
      intro rs hlen hnd m hm
      cases rs with
      | nil => simp at hlen
      | cons r rs' =>
          have hlen' : rs'.length = rest.length := by simpa using hlen
          have hnd' : (rest.map (fun m => m.promise)).Nodup := (List.nodup_cons.mp hnd).2
          have hxn : x.promise ∉ rest.map (fun m => m.promise) := (List.nodup_cons.mp hnd).1
          rcases List.mem_cons.mp hm with hmx | hmr
          · subst hmx
            obtain ⟨h1, h2, h3⟩ := flush_lists_absent m.promise rest rs' hlen' hxn
            refine ⟨r, ?_, ?_, ?_, ?_, ?_⟩
            · simp [outcomeIs]
            · have := h1 (!r)
              simp only [outcomeIs, List.zip_cons_cons, List.any_cons] at this ⊢
              simp [this]
            · rw [flushSettled_cons, settlementsOf_append, h2]
              cases r <;> by_cases hlt : m.attempts + 1 < 3 <;> simp [settlementsOf, hlt]
            · intro hk
              rw [flushRetained_cons, if_pos hk]
              simp
            · intro hk
              rw [flushRetained_cons, if_neg hk]
              simpa using h3
          · have hne : ¬ x.promise = m.promise := by
              intro h
              exact hxn (h ▸ List.mem_map_of_mem _ hmr)
            obtain ⟨b, h1, h2, h3, h4, h5⟩ := ih rs' hlen' hnd' m hmr
            refine ⟨b, ?_, ?_, ?_, ?_, ?_⟩
            · simp only [outcomeIs, List.zip_cons_cons, List.any_cons] at h1 ⊢
              simp [h1]
            · simp only [outcomeIs, List.zip_cons_cons, List.any_cons] at h2 ⊢
              simp [h2, hne]
            · rw [flushSettled_cons, settlementsOf_append, h3]
              cases r <;> by_cases hlt : x.attempts + 1 < 3 <;>
                simp [settlementsOf, hlt, hne]
            · intro hk
              rw [flushRetained_cons]
              exact List.mem_append_right _ (h4 hk)
            · intro hk
              rw [flushRetained_cons]
              by_cases hkx : r = false ∧ x.attempts + 1 < 3
              · simp only [if_pos hkx, List.map_append, List.mem_append, not_or]
                exact ⟨by simpa using Ne.symm hne, h5 hk⟩
              · simpa [if_neg hkx] using h5 hk

/-- A flush keeps a sub-sequence of the queued promises. -/
theorem flushRetained_promises_sublist (q : List (QueuedMessage P)) :
    ∀ rs : List Bool, ((flushRetained q rs).map (fun m => m.promise)).Sublist
      (q.map (fun m => m.promise)) := by
  induction q with
  | nil => intro rs; simp [flushRetained]
  | cons x rest ih =>
      intro rs
      cases rs with
      | nil => simp [flushRetained]
      | cons r rs' =>
          rw [flushRetained_cons]
          by_cases hk : r = false ∧ x.attempts + 1 < 3
          · simp only [if_pos hk, List.map_append, List.map_cons, List.map_nil,
              List.singleton_append]
            exact (ih rs').cons₂ _
          · simp only [if_neg hk, List.nil_append, List.map_cons]
            exact (ih rs').cons _

/-- What one flush does with one queued message, from the outcome `b` of its
transmission; distinct promises stay distinct. -/
theorem flush_one (env : Env P) (c : WSClient P) (m : QueuedMessage P)
    (hm : m ∈ c.messageQueue) (hnd : (queuedPromises c).Nodup) :
    (queuedPromises (flushMessageQueue env c)).Nodup ∧
      ∃ b : Bool, transmitted env c m.promise b = true ∧
        transmitted env c m.promise (!b) = false ∧
        settlementsOf m.promise (flushMessageQueue env c).effects =
          settlementsOf m.promise c.effects ++
            (if b = true then [Effect.resolve m.promise m.data]
              else if m.attempts + 1 < 3 then []
              else [Effect.reject m.promise (Rejection.retriesExceeded m.data)]) ∧
        (b = false ∧ m.attempts + 1 < 3 →
          ({ m with attempts := m.attempts + 1 } : QueuedMessage P) ∈
            (flushMessageQueue env c).messageQueue) ∧
        (¬(b = false ∧ m.attempts + 1 < 3) →
          m.promise ∉ queuedPromises (flushMessageQueue env c)) := by
  obtain ⟨f, e, h, hs, -⟩ := flushMessageQueue_shape env c
  have hlen := transmissions_length env c.messageQueue c
  obtain ⟨b, h1, h2, h3, h4, h5⟩ :=
    flush_lists_present c.messageQueue (transmissions env c c.messageQueue) hlen hnd m hm
  rw [h]
  refine ⟨?_, b, h1, h2, ?_, h4, h5⟩
  · exact List.Nodup.sublist (flushRetained_promises_sublist _ _) hnd
  · show settlementsOf m.promise (c.effects ++ e) = _
    rw [settlementsOf_append, ← settlementsOf_settlements m.promise e, hs, h3]

/-- A flush never lengthens the queue; when exactly the message with promise `p` leaves
it (every other queued message is still queued afterwards), the queue is shorter by 1. -/
theorem flush_length (env : Env P) (c : WSClient P) (p : Nat)
    (hnd : (queuedPromises c).Nodup) (hin : p ∈ queuedPromises c)
    (hout : p ∉ queuedPromises (flushMessageQueue env c)) :
    (flushMessageQueue env c).messageQueue.length + 1 ≤ c.messageQueue.length ∧
      ((∀ x ∈ c.messageQueue, x.promise ≠ p →
          x.promise ∈ queuedPromises (flushMessageQueue env c)) →
        (flushMessageQueue env c).messageQueue.length + 1 = c.messageQueue.length) := by
  obtain ⟨f, e, h, -⟩ := flushMessageQueue_shape env c
  have hsub : (queuedPromises (flushMessageQueue env c)).Sublist (queuedPromises c) := by
    rw [h]
    exact flushRetained_promises_sublist _ _
  have hnd' : (queuedPromises (flushMessageQueue env c)).Nodup := List.Nodup.sublist hsub hnd
  have hl1 : (queuedPromises (flushMessageQueue env c)).length =
      (flushMessageQueue env c).messageQueue.length := by simp [queuedPromises]
  have hl2 : (queuedPromises c).length = c.messageQueue.length := by simp [queuedPromises]
  have hsub' : (queuedPromises (flushMessageQueue env c)).Subperm
      ((queuedPromises c).erase p) := by
    apply List.Nodup.subperm hnd'
    intro a ha
    apply (List.Nodup.mem_erase_iff hnd).mpr
    exact ⟨fun hap => hout (hap ▸ ha), hsub.subset ha⟩
  have hle := hsub'.length_le
  rw [List.length_erase_of_mem hin, hl1, hl2] at hle
  have hpos : 0 < c.messageQueue.length := by
    rw [← hl2]
    exact List.length_pos_of_mem hin
  refine ⟨by omega, ?_⟩
  intro hall
  have hperm : (queuedPromises (flushMessageQueue env c)).Perm ((queuedPromises c).erase p) := by
    apply (List.perm_ext_iff_of_nodup hnd' (List.Nodup.erase p hnd)).mpr
    intro a
    constructor
    · intro ha
      exact (List.Nodup.mem_erase_iff hnd).mpr ⟨fun hap => hout (hap ▸ ha), hsub.subset ha⟩
    · intro ha
      obtain ⟨hne, hmem⟩ := (List.Nodup.mem_erase_iff hnd).mp ha
      obtain ⟨x, hx, hxp⟩ := List.mem_map.mp hmem
      have := hall x hx (by rw [hxp]; exact hne)
      rw [hxp] at this
      exact this
  have := hperm.length_eq
  rw [List.length_erase_of_mem hin, hl1, hl2] at this
  omega

/-- The outcome of a transmission is unique. -/
theorem outcome_unique (env : Env P) (c : WSClient P) (p : Nat) (b ok : Bool)
    (h1 : transmitted env c p b = true) (h2 : transmitted env c p (!b) = false)
    (h : transmitted env c p ok = true) : b = ok := by
  cases b <;> cases ok <;> simp_all

/-- C3, the counterexample: `send("A")` and `send("B")` while the socket is CONNECTING, two
calls of `flushMessageQueue()` before the socket opens (both transmissions fail, both
messages stay queued), then the socket opens and its flush transmits both. The message
`"A"` failed on two flushes and succeeded on the third, and the third flush took the queue
from 2 entries to 0: its size did not decrease by exactly 1. -/
theorem third_flush_shortens_queue_by_two :
    transmitted demoEnv demoQueued 0 false = true ∧
      transmitted demoEnv (flushMessageQueue demoEnv demoQueued) 0 false = true ∧
      transmitted demoEnv
        (beforeOpenFlush (flushMessageQueue demoEnv (flushMessageQueue demoEnv demoQueued)))
        0 true = true ∧
      step demoEnv (flushMessageQueue demoEnv (flushMessageQueue demoEnv demoQueued))
          Action.socketOpen =
        flushMessageQueue demoEnv
          (beforeOpenFlush (flushMessageQueue demoEnv (flushMessageQueue demoEnv demoQueued))) ∧
      (beforeOpenFlush (flushMessageQueue demoEnv
        (flushMessageQueue demoEnv demoQueued))).messageQueue.length = 2 ∧
      (step demoEnv (flushMessageQueue demoEnv (flushMessageQueue demoEnv demoQueued))
        Action.socketOpen).messageQueue.length = 0 ∧
      settlementsOf 0
        (step demoEnv (flushMessageQueue demoEnv (flushMessageQueue demoEnv demoQueued))
          Action.socketOpen).effects = [Effect.resolve 0 "A"] := by
  refine ⟨by decide, by decide, by decide, rfl, by decide, by decide, by decide⟩

/-- C3, as amended. A queued message (attempt counter 0, promise not yet settled, promises
in the queue distinct) goes through three flushes, started in the states `c`, `c2` and
`c3`; between two flushes anything may happen that leaves the queue and the settlements
alone (the socket opening, for one). If its transmission fails in the first two flushes, it
is still queued and unsettled after each of them. If its transmission fails in the third
flush too, it is no longer queued afterwards and its promise has been rejected (once, with
the retries-exceeded object carrying its payload). If its transmission succeeds in the
third flush, it is no longer queued afterwards, its promise has been resolved (once, with
its payload), and the queue has lost exactly the one entry of this message (it held one
entry with this promise before the third flush and holds none after it); the queue as a
whole is shorter, by exactly 1 when every other message queued before the third flush is
still queued after it (in particular when the message is alone). -/
theorem retry_over_three_flushes (env : Env P) (c c2 c3 : WSClient P) (m : QueuedMessage P)
    (hm : m ∈ c.messageQueue) (h0 : m.attempts = 0) (hnd : (queuedPromises c).Nodup)
    (hpend : settlementsOf m.promise c.effects = [])
    (hbetween1 : Inert (flushMessageQueue env c) c2)
    (hbetween2 : Inert (flushMessageQueue env c2) c3)
    (hfail1 : transmitted env c m.promise false = true)
    (hfail2 : transmitted env c2 m.promise false = true) :
    m.promise ∈ queuedPromises (flushMessageQueue env c) ∧
      settlementsOf m.promise (flushMessageQueue env c).effects = [] ∧
      m.promise ∈ queuedPromises (flushMessageQueue env c2) ∧
      settlementsOf m.promise (flushMessageQueue env c2).effects = [] ∧
      (transmitted env c3 m.promise false = true →
        m.promise ∉ queuedPromises (flushMessageQueue env c3) ∧
        settlementsOf m.promise (flushMessageQueue env c3).effects =
          [Effect.reject m.promise (Rejection.retriesExceeded m.data)]) ∧
      (transmitted env c3 m.promise true = true →
        m.promise ∉ queuedPromises (flushMessageQueue env c3) ∧
        settlementsOf m.promise (flushMessageQueue env c3).effects =
          [Effect.resolve m.promise m.data] ∧
        (queuedPromises c3).count m.promise = 1 ∧
        (queuedPromises (flushMessageQueue env c3)).count m.promise = 0 ∧
        (flushMessageQueue env c3).messageQueue.length + 1 ≤ c3.messageQueue.length ∧
        ((∀ x ∈ c3.messageQueue, x.promise ≠ m.promise →
            x.promise ∈ queuedPromises (flushMessageQueue env c3)) →
          (flushMessageQueue env c3).messageQueue.length + 1 = c3.messageQueue.length)) := by
  have transfer : ∀ a b : WSClient P, Inert a b →
      queuedPromises b = queuedPromises a ∧
        ∀ p, settlementsOf p b.effects = settlementsOf p a.effects := by
    intro a b h
    refine ⟨by simp [queuedPromises, h.1], fun p => ?_⟩
    rw [← settlementsOf_settlements p b.effects, h.2.2, settlementsOf_settlements]
  obtain ⟨hq12, hs12⟩ := transfer _ _ hbetween1
  obtain ⟨hq23, hs23⟩ := transfer _ _ hbetween2
  -- first flush
  obtain ⟨nd1, b1, ha1, hb1, hs1, hk1, -⟩ := flush_one env c m hm hnd
  have e1 : b1 = false := outcome_unique env c m.promise b1 false ha1 hb1 hfail1
  subst e1
  have hm1 := hk1 ⟨rfl, by omega⟩
  have hq1 : m.promise ∈ queuedPromises (flushMessageQueue env c) :=
    List.mem_map.mpr ⟨_, hm1, rfl⟩
  have hp1 : settlementsOf m.promise (flushMessageQueue env c).effects = [] := by
    rw [hs1, hpend]
    simp [show m.attempts + 1 < 3 by omega]
  -- second flush
  rw [← hbetween1.1] at hm1
  rw [← hq12] at nd1
  obtain ⟨nd2, b2, ha2, hb2, hs2, hk2, -⟩ := flush_one env c2 _ hm1 nd1
  have e2 : b2 = false := outcome_unique env _ m.promise b2 false ha2 hb2 hfail2
  subst e2
  have hm2 := hk2 ⟨rfl, by simp only; omega⟩
  have hq2 : m.promise ∈ queuedPromises (flushMessageQueue env c2) :=
    List.mem_map.mpr ⟨_, hm2, rfl⟩
  have hp2 : settlementsOf m.promise (flushMessageQueue env c2).effects = [] := by
    rw [hs2]
    show settlementsOf m.promise c2.effects ++ _ = []
    rw [hs12, hp1]
    simp [show m.attempts + 1 + 1 < 3 by omega]
  -- third flush
  rw [← hbetween2.1] at hm2
  rw [← hq23] at nd2
  obtain ⟨-, b3, ha3, hb3, hs3, -, hd3⟩ := flush_one env c3 _ hm2 nd2
  have hq3 : m.promise ∈ queuedPromises c3 := by rw [hq23]; exact hq2
  have hp3 : settlementsOf m.promise c3.effects = [] := by rw [hs23, hp2]
  refine ⟨hq1, hp1, hq2, hp2, ?_, ?_⟩
  · intro hfail3
    have e3 : b3 = false := outcome_unique env _ m.promise b3 false ha3 hb3 hfail3
    subst e3
    refine ⟨hd3 (by simp only; omega), ?_⟩
    rw [hs3]
    show settlementsOf m.promise c3.effects ++ _ = _
    rw [hp3]
    simp [show ¬ (m.attempts + 1 + 1 + 1 < 3) by omega]
  · intro hok3
    have e3 : b3 = true := outcome_unique env _ m.promise b3 true ha3 hb3 hok3
    subst e3
    have hout := hd3 (by simp)
    refine ⟨hout, ?_, List.count_eq_one_of_mem nd2 hq3, List.count_eq_zero_of_not_mem hout, ?_⟩
    · rw [hs3]
      show settlementsOf m.promise c3.effects ++ _ = _
      rw [hp3]
      simp
    · exact flush_length env _ m.promise nd2 hq3 hout

/-- Witness of C3 as amended: `send("A")` while the socket is CONNECTING, two calls of
`flushMessageQueue()` before the socket opens, then the socket opens: the flush of the
`open` listener transmits `"A"`, resolves its promise and shortens the queue by exactly 1. -/
theorem retry_over_three_flushes_witness :
    step demoEnv (flushMessageQueue demoEnv (flushMessageQueue demoEnv demoAlone))
        Action.socketOpen =
      flushMessageQueue demoEnv
        (beforeOpenFlush (flushMessageQueue demoEnv (flushMessageQueue demoEnv demoAlone))) ∧
      settlementsOf 0
        (flushMessageQueue demoEnv
          (beforeOpenFlush (flushMessageQueue demoEnv
            (flushMessageQueue demoEnv demoAlone)))).effects = [Effect.resolve 0 "A"] ∧
      (flushMessageQueue demoEnv
        (beforeOpenFlush (flushMessageQueue demoEnv
          (flushMessageQueue demoEnv demoAlone)))).messageQueue.length + 1 =
        (beforeOpenFlush (flushMessageQueue demoEnv
          (flushMessageQueue demoEnv demoAlone))).messageQueue.length := by
  have hS := retry_over_three_flushes demoEnv demoAlone (flushMessageQueue demoEnv demoAlone)
    (beforeOpenFlush (flushMessageQueue demoEnv (flushMessageQueue demoEnv demoAlone)))
    { id := 0, data := "A", timestamp := 0, attempts := 0, promise := 0 }
    (by decide) rfl (by decide) (by decide) ⟨rfl, rfl, rfl⟩ ⟨by decide, by decide, by decide⟩
    (by decide) (by decide)
  exact ⟨rfl, (hS.2.2.2.2.2 (by decide)).2.1, (hS.2.2.2.2.2 (by decide)).2.2.2.2.2 (by decide)⟩

end Flush

section Close

/-- The platform accepts the arguments of the two calls of `close` the class itself makes:
`close(1000, 'Reconnecting')` in `reconnect` and `close()` in `destroy`. -/
theorem closeArguments_own :
    closeArguments 1000 "Reconnecting" = none ∧ closeArguments 1000 "" = none := by
  decide

/-- What `close` changes when `ws.close` returns or there is no socket: auto-reconnect, the
keepalive handle, the socket's ready state, the queue and the effects. -/
theorem close_shape (c : WSClient P) (code : Nat) (reason : String)
    (hok : c.ws = none ∨ closeArguments code reason = none) :
    ∃ e, c.close code reason =
        { c with autoReconnect := false, pingInterval := none,
                 ws := c.ws.map socketClose, messageQueue := [],
                 effects := c.effects ++ e } ∧
      settlements e = c.messageQueue.map
        (fun m => Effect.reject m.promise (Rejection.connectionClosed code reason)) ∧
      sentFrames e = [] ∧ timerDelays e = [] ∧ connectAttempts e = [] ∧
      maxAttemptsEvents e = [] := by
  have hrej : ∀ q : List (QueuedMessage P),
      settlements (q.map
        (fun m => (Effect.reject m.promise (Rejection.connectionClosed code reason) :
          Effect P))) =
      q.map (fun m => Effect.reject m.promise (Rejection.connectionClosed code reason)) := by
    intro q
    simp [settlements, List.filter_map, Function.comp_def]
  cases hp : c.pingInterval with
  | none =>
      cases hw : c.ws with
      | none =>
          refine ⟨_, ?_, hrej c.messageQueue, ?_, ?_, ?_, ?_⟩
          · simp [close, stopPing, hp, hw]
          all_goals
            simp [sentFrames, timerDelays, connectAttempts, maxAttemptsEvents,
              List.filterMap_map, Function.comp_def]
      | some w =>
          have ha : closeArguments code reason = none := by
            rcases hok with h | h
            · rw [hw] at h; cases h
            · exact h
          refine ⟨Effect.wsClose code reason :: c.messageQueue.map
            (fun m => Effect.reject m.promise (Rejection.connectionClosed code reason)),
            ?_, ?_, ?_, ?_, ?_, ?_⟩
          · simp [close, stopPing, hp, hw, ha]
          · simp [settlements, List.filter_cons, List.filter_map, Function.comp_def]
          all_goals
            simp [sentFrames, timerDelays, connectAttempts, maxAttemptsEvents,
              List.filterMap_map, Function.comp_def, List.filterMap_cons]
  | some t =>
      cases hw : c.ws with
      | none =>
          refine ⟨Effect.clearInterval t :: c.messageQueue.map
            (fun m => Effect.reject m.promise (Rejection.connectionClosed code reason)),
            ?_, ?_, ?_, ?_, ?_, ?_⟩
          · simp [close, stopPing, hp, hw]
          · simp [settlements, List.filter_cons, List.filter_map, Function.comp_def]
          all_goals
            simp [sentFrames, timerDelays, connectAttempts, maxAttemptsEvents,
              List.filterMap_map, Function.comp_def, List.filterMap_cons]
      | some w =>
          have ha : closeArguments code reason = none := by
            rcases hok with h | h
            · rw [hw] at h; cases h
            · exact h
          refine ⟨Effect.clearInterval t :: Effect.wsClose code reason :: c.messageQueue.map
            (fun m => Effect.reject m.promise (Rejection.connectionClosed code reason)),
            ?_, ?_, ?_, ?_, ?_, ?_⟩
          · simp [close, stopPing, hp, hw, ha]
          · simp [settlements, List.filter_cons, List.filter_map, Function.comp_def]
          all_goals
            simp [sentFrames, timerDelays, connectAttempts, maxAttemptsEvents,
              List.filterMap_map, Function.comp_def, List.filterMap_cons]

/-- What `close` changes when `ws.close` throws: auto-reconnect, the keepalive handle and
the effects; the socket and the queue are as before and nothing is settled. -/
theorem close_throws_shape (c : WSClient P) (code : Nat) (reason : String) (w : WebSocket)
    (error : String) (hw : c.ws = some w) (ha : closeArguments code reason = some error) :
    ∃ e, c.close code reason =
        { c with autoReconnect := false, pingInterval := none,
                 effects := c.effects ++ e } ∧
      settlements e = [] ∧ sentFrames e = [] ∧ timerDelays e = [] ∧ connectAttempts e = [] ∧
      maxAttemptsEvents e = [] ∧ Effect.exception error ∈ e := by
  cases hp : c.pingInterval with
  | none =>
      refine ⟨[Effect.exception error], ?_, rfl, rfl, rfl, rfl, rfl, by simp⟩
      simp [close, stopPing, hp, hw, ha]
  | some t =>
      refine ⟨[Effect.clearInterval t, Effect.exception error], ?_, rfl, rfl, rfl, rfl, rfl,
        by simp⟩
      simp [close, stopPing, hp, hw, ha]

/-- C4, the counterexample: `send("A")` while the socket is CONNECTING, then
`close(1001, "going away")`. The platform's `ws.close` does not accept the code 1001 and
throws before line 330 is reached: the message is still queued and its promise is still
pending after the call; only auto-reconnect has been switched off. -/
theorem close_with_refused_code_leaves_queue :
    closeArguments 1001 "going away" = some "InvalidAccessError" ∧
      (demoAlone.close 1001 "going away").messageQueue = demoAlone.messageQueue ∧
      (demoAlone.close 1001 "going away").getQueueSize = 1 ∧
      settlements (demoAlone.close 1001 "going away").effects = [] ∧
      (demoAlone.close 1001 "going away").effects =
        demoAlone.effects ++ [Effect.clearInterval 1, Effect.exception "InvalidAccessError"] ∧
      (demoAlone.close 1001 "going away").autoReconnect = false := by
  decide

/-- C4, as amended. In every state, when the platform accepts the arguments of `ws.close`
(the code is 1000 or lies in 3000..4999 and the reason is at most 123 bytes long) or there
is no socket, after `close(code, reason)` the outbound queue is empty and the settlements
made by the call are exactly one rejection, with the connection-closed object carrying
`code` and `reason`, for each message that was queued, in queue order; the attempt counters
and the socket's ready state play no part. -/
theorem close_rejects_every_queued_message (c : WSClient P) (code : Nat) (reason : String)
    (hok : c.ws = none ∨ closeArguments code reason = none) :
    (c.close code reason).messageQueue = [] ∧
      (c.close code reason).getQueueSize = 0 ∧
      settlements (c.close code reason).effects =
        settlements c.effects ++ c.messageQueue.map
          (fun m => Effect.reject m.promise (Rejection.connectionClosed code reason)) := by
  obtain ⟨e, h, hs, -⟩ := close_shape c code reason hok
  rw [h]
  exact ⟨rfl, rfl, by simp [settlements_append, hs]⟩

/-- Witness of C4 as amended: `close(3000, "bye")` on the client with two queued messages
rejects both and empties the queue. -/
theorem close_rejects_every_queued_message_witness :
    closeArguments 3000 "bye" = none ∧
      (demoQueued.close 3000 "bye").messageQueue = [] ∧
      settlements (demoQueued.close 3000 "bye").effects =
        [Effect.reject 0 (Rejection.connectionClosed 3000 "bye"),
         Effect.reject 1 (Rejection.connectionClosed 3000 "bye")] :=
  ⟨by decide, (close_rejects_every_queued_message demoQueued 3000 "bye"
      (Or.inr (by decide))).1,
    (close_rejects_every_queued_message demoQueued 3000 "bye" (Or.inr (by decide))).2.2⟩

end Close

section Doubles

theorem roundHalfEven_intCast (z : ℤ) : roundHalfEven (z : ℚ) = z := by
  simp [roundHalfEven]

theorem roundHalfEven_floor_or (x : ℚ) :
    roundHalfEven x = ⌊x⌋ ∨ roundHalfEven x = ⌊x⌋ + 1 := by
  unfold roundHalfEven
  split
  · exact Or.inl rfl
  · split
    · exact Or.inr rfl
    · split
      · exact Or.inl rfl
      · exact Or.inr rfl

theorem roundHalfEven_mono {x y : ℚ} (h : x ≤ y) : roundHalfEven x ≤ roundHalfEven y := by
  have hfl : ⌊x⌋ ≤ ⌊y⌋ := Int.floor_mono h
  rcases lt_or_eq_of_le hfl with hlt | heq
  · -- different floors
    have h1 : roundHalfEven x ≤ ⌊x⌋ + 1 := by
      rcases roundHalfEven_floor_or x with h | h <;> omega
    have h2 : ⌊y⌋ ≤ roundHalfEven y := by
      rcases roundHalfEven_floor_or y with h | h <;> omega
    omega
  · -- same floor
    have hfr : x - ⌊x⌋ ≤ y - ⌊y⌋ := by
      rw [heq]
      linarith
    unfold roundHalfEven
    rw [heq]
    by_cases hy1 : y - (⌊y⌋ : ℚ) < 1 / 2
    · have hx1 : x - (⌊y⌋ : ℚ) < 1 / 2 := by rw [heq] at hfr; linarith
      rw [if_pos hx1, if_pos hy1]
    · rw [if_neg hy1]
      by_cases hy2 : 1 / 2 < y - (⌊y⌋ : ℚ)
      · rw [if_pos hy2]
        split
        · omega
        · split
          · exact le_refl _
          · split
            · omega
            · exact le_refl _
      · rw [if_neg hy2]
        have hyeq : y - (⌊y⌋ : ℚ) = 1 / 2 := le_antisymm (not_lt.mp hy2) (not_lt.mp hy1)
        have hx2 : ¬ (1 / 2 < x - (⌊y⌋ : ℚ)) := by
          rw [heq] at hfr
          intro hc
          linarith
        rw [if_neg hx2]
        split
        · split <;> omega
        · exact le_refl _

theorem two_zpow_pos (e : ℤ) : (0 : ℚ) < (2 : ℚ) ^ e := zpow_pos (by norm_num) e

theorem log_bounds {a : ℚ} (ha : 0 < a) :
    (2 : ℚ) ^ (Int.log 2 a) ≤ a ∧ a < (2 : ℚ) ^ (Int.log 2 a + 1) := by
  have h1 := Int.zpow_log_le_self (b := 2) (r := a) (by norm_num) ha
  have h2 := Int.lt_zpow_succ_log_self (b := 2) (by norm_num) a
  simp only [Nat.cast_ofNat] at h1 h2
  exact ⟨h1, h2⟩

theorem ulpExponent_mono {a b : ℚ} (ha : 0 < a) (h : a ≤ b) : ulpExponent a ≤ ulpExponent b := by
  unfold ulpExponent
  have := Int.log_mono_right (b := 2) ha h
  omega

/-- A positive number is at most `2 ^ 53` units in its last place. -/
theorem le_ulp {a : ℚ} (ha : 0 < a) : a ≤ (2 : ℚ) ^ (ulpExponent a + 53) := by
  have h := (log_bounds ha).2
  have he : Int.log 2 a + 1 ≤ ulpExponent a + 53 := by
    unfold ulpExponent
    omega
  exact le_trans (le_of_lt h) (zpow_le_zpow_right₀ (by norm_num) he)

theorem roundMagnitude_nonneg {a : ℚ} (ha : 0 ≤ a) : 0 ≤ roundMagnitude a := by
  unfold roundMagnitude
  apply mul_nonneg _ (le_of_lt (two_zpow_pos _))
  have h0 : (0 : ℚ) ≤ a / (2 : ℚ) ^ ulpExponent a := div_nonneg ha (le_of_lt (two_zpow_pos _))
  have := roundHalfEven_mono h0
  have h00 : roundHalfEven (0 : ℚ) = 0 := by
    have := roundHalfEven_intCast 0
    simpa using this
  rw [h00] at this
  exact_mod_cast this

theorem roundMagnitude_le {a : ℚ} (ha : 0 < a) :
    roundMagnitude a ≤ (2 : ℚ) ^ (ulpExponent a + 53) := by
  unfold roundMagnitude
  have hu := two_zpow_pos (ulpExponent a)
  have h1 : a / (2 : ℚ) ^ ulpExponent a ≤ (((2 : ℤ) ^ (53 : ℕ) : ℤ) : ℚ) := by
    rw [div_le_iff₀ hu]
    have := le_ulp ha
    rw [zpow_add₀ (by norm_num : (2 : ℚ) ≠ 0)] at this
    calc a ≤ (2 : ℚ) ^ ulpExponent a * (2 : ℚ) ^ (53 : ℤ) := this
      _ = _ := by push_cast; ring
  have h2 := roundHalfEven_mono h1
  rw [roundHalfEven_intCast] at h2
  have h3 : (roundHalfEven (a / (2 : ℚ) ^ ulpExponent a) : ℚ) ≤ (2 : ℚ) ^ (53 : ℤ) := by
    have : ((roundHalfEven (a / (2 : ℚ) ^ ulpExponent a) : ℤ) : ℚ) ≤ (((2 : ℤ) ^ (53 : ℕ) : ℤ) : ℚ) :=
      by exact_mod_cast h2
    calc _ ≤ (((2 : ℤ) ^ (53 : ℕ) : ℤ) : ℚ) := this
      _ = _ := by push_cast; norm_num
  rw [zpow_add₀ (by norm_num : (2 : ℚ) ≠ 0), mul_comm ((2 : ℚ) ^ ulpExponent a)]
  exact mul_le_mul_of_nonneg_right h3 (le_of_lt hu)

/-- A normal number rounds to at least the power of two below it. -/
theorem le_roundMagnitude {a : ℚ} (ha : 0 < a) (hn : ulpExponent a = Int.log 2 a - 52) :
    (2 : ℚ) ^ (ulpExponent a + 52) ≤ roundMagnitude a := by
  unfold roundMagnitude
  have hu := two_zpow_pos (ulpExponent a)
  have h1 : (((2 : ℤ) ^ (52 : ℕ) : ℤ) : ℚ) ≤ a / (2 : ℚ) ^ ulpExponent a := by
    rw [le_div_iff₀ hu]
    have := (log_bounds ha).1
    have he : Int.log 2 a = ulpExponent a + 52 := by omega
    rw [he, zpow_add₀ (by norm_num : (2 : ℚ) ≠ 0)] at this
    calc _ = (2 : ℚ) ^ ulpExponent a * (2 : ℚ) ^ (52 : ℤ) := by push_cast; ring
      _ ≤ a := this
  have h2 := roundHalfEven_mono h1
  rw [roundHalfEven_intCast] at h2
  have h3 : (2 : ℚ) ^ (52 : ℤ) ≤ (roundHalfEven (a / (2 : ℚ) ^ ulpExponent a) : ℚ) := by
    have : (((2 : ℤ) ^ (52 : ℕ) : ℤ) : ℚ) ≤ ((roundHalfEven (a / (2 : ℚ) ^ ulpExponent a) : ℤ) : ℚ) :=
      by exact_mod_cast h2
    calc _ = (((2 : ℤ) ^ (52 : ℕ) : ℤ) : ℚ) := by push_cast; norm_num
      _ ≤ _ := this
  rw [zpow_add₀ (by norm_num : (2 : ℚ) ≠ 0), mul_comm ((2 : ℚ) ^ ulpExponent a)]
  exact mul_le_mul_of_nonneg_right h3 (le_of_lt hu)

theorem roundMagnitude_mono {a b : ℚ} (ha : 0 < a) (h : a ≤ b) :
    roundMagnitude a ≤ roundMagnitude b := by
  have hb : 0 < b := lt_of_lt_of_le ha h
  have he := ulpExponent_mono ha h
  rcases lt_or_eq_of_le he with hlt | heq
  · have hn : ulpExponent b = Int.log 2 b - 52 := by
      have h1 : -1074 ≤ ulpExponent a := le_max_right _ _
      unfold ulpExponent at hlt h1 ⊢
      omega
    have h1 := roundMagnitude_le ha
    have h2 := le_roundMagnitude hb hn
    have h3 : (2 : ℚ) ^ (ulpExponent a + 53) ≤ (2 : ℚ) ^ (ulpExponent b + 52) :=
      zpow_le_zpow_right₀ (by norm_num) (by omega)
    exact le_trans h1 (le_trans h3 h2)
  · unfold roundMagnitude
    rw [heq]
    have hu := two_zpow_pos (ulpExponent b)
    apply mul_le_mul_of_nonneg_right _ (le_of_lt hu)
    have : a / (2 : ℚ) ^ ulpExponent b ≤ b / (2 : ℚ) ^ ulpExponent b :=
      div_le_div_of_nonneg_right h (le_of_lt hu)
    exact_mod_cast roundHalfEven_mono this

theorem roundMagnitude_zero : roundMagnitude 0 = 0 := by
  unfold roundMagnitude
  have h00 : roundHalfEven (0 : ℚ) = 0 := by
    have := roundHalfEven_intCast 0
    simpa using this
  simp [h00]

theorem roundDouble_mono {q r : ℚ} (hq : 0 ≤ q) (h : q ≤ r) : roundDouble q ≤ roundDouble r := by
  have hr : 0 ≤ r := le_trans hq h
  unfold roundDouble
  rw [if_pos hq, if_pos hr]
  apply min_le_min_right
  rcases eq_or_lt_of_le hq with h0 | hpos
  · rw [← h0, roundMagnitude_zero]
    exact roundMagnitude_nonneg hr
  · exact roundMagnitude_mono hpos h

theorem roundDouble_le_infinity (q : ℚ) (hq : 0 ≤ q) : roundDouble q ≤ infinity := by
  unfold roundDouble
  rw [if_pos hq]
  exact min_le_right _ _

theorem roundDouble_nonneg {q : ℚ} (hq : 0 ≤ q) : 0 ≤ roundDouble q := by
  unfold roundDouble
  rw [if_pos hq]
  exact le_min (roundMagnitude_nonneg hq) (by unfold infinity; positivity)

/-- A number with at most 53 significant bits, in units not below `2 ^ (-1074)`, is its own
rounding. -/
theorem roundMagnitude_exact (m : ℕ) (e : ℤ) (hm : m < 2 ^ 53) (he : -1074 ≤ e) :
    roundMagnitude ((m : ℚ) * (2 : ℚ) ^ e) = (m : ℚ) * (2 : ℚ) ^ e := by
  rcases Nat.eq_zero_or_pos m with h0 | hpos
  · subst h0
    simp [roundMagnitude_zero]
  have ha : (0 : ℚ) < (m : ℚ) * (2 : ℚ) ^ e :=
    mul_pos (by exact_mod_cast hpos) (two_zpow_pos e)
  have hue : ulpExponent ((m : ℚ) * (2 : ℚ) ^ e) ≤ e := by
    have h1 := (log_bounds ha).1
    have h2 : (m : ℚ) * (2 : ℚ) ^ e < (2 : ℚ) ^ (e + 53) := by
      rw [zpow_add₀ (by norm_num : (2 : ℚ) ≠ 0), mul_comm ((2 : ℚ) ^ e)]
      apply mul_lt_mul_of_pos_right _ (two_zpow_pos e)
      have : ((m : ℕ) : ℚ) < ((2 ^ 53 : ℕ) : ℚ) := by exact_mod_cast hm
      calc (m : ℚ) < ((2 ^ 53 : ℕ) : ℚ) := this
        _ = _ := by push_cast; norm_num
    have h3 : (2 : ℚ) ^ (Int.log 2 ((m : ℚ) * (2 : ℚ) ^ e)) < (2 : ℚ) ^ (e + 53) :=
      lt_of_le_of_lt h1 h2
    have h4 : Int.log 2 ((m : ℚ) * (2 : ℚ) ^ e) < e + 53 :=
      (zpow_lt_zpow_iff_right₀ (by norm_num : (1 : ℚ) < 2)).mp h3
    unfold ulpExponent
    omega
  obtain ⟨d, hd⟩ : ∃ d : ℕ, e = ulpExponent ((m : ℚ) * (2 : ℚ) ^ e) + d :=
    ⟨(e - ulpExponent ((m : ℚ) * (2 : ℚ) ^ e)).toNat, by omega⟩
  unfold roundMagnitude
  have hu := two_zpow_pos (ulpExponent ((m : ℚ) * (2 : ℚ) ^ e))
  have hdiv : (m : ℚ) * (2 : ℚ) ^ e / (2 : ℚ) ^ ulpExponent ((m : ℚ) * (2 : ℚ) ^ e) =
      (((m * 2 ^ d : ℕ) : ℤ) : ℚ) := by
    rw [div_eq_iff (ne_of_gt hu)]
    conv_lhs => rw [hd]
    rw [zpow_add₀ (by norm_num : (2 : ℚ) ≠ 0), zpow_natCast]
    push_cast
    ring
  rw [hdiv, roundHalfEven_intCast, ← hdiv]
  exact div_mul_cancel₀ _ (ne_of_gt hu)

theorem roundDouble_exact (m : ℕ) (e : ℤ) (hm : m < 2 ^ 53) (he : -1074 ≤ e)
    (hfin : (m : ℚ) * (2 : ℚ) ^ e ≤ infinity) :
    roundDouble ((m : ℚ) * (2 : ℚ) ^ e) = (m : ℚ) * (2 : ℚ) ^ e := by
  have h0 : (0 : ℚ) ≤ (m : ℚ) * (2 : ℚ) ^ e :=
    mul_nonneg (Nat.cast_nonneg m) (le_of_lt (two_zpow_pos e))
  unfold roundDouble
  rw [if_pos h0, roundMagnitude_exact m e hm he]
  exact min_eq_left hfin

theorem log_eq {a : ℚ} (k : ℤ) (ha : 0 < a) (hlo : (2 : ℚ) ^ k ≤ a)
    (hhi : a < (2 : ℚ) ^ (k + 1)) : Int.log 2 a = k := by
  have h1 : k ≤ Int.log 2 a := by
    have := (Int.zpow_le_iff_le_log (b := 2) (by norm_num) (x := k) ha).mp
      (by simpa using hlo)
    exact this
  have h2 : Int.log 2 a < k + 1 := by
    have := (Int.lt_zpow_iff_log_lt (b := 2) (by norm_num) (x := k + 1) ha).mp
      (by simpa using hhi)
    exact this
  omega

/-- In double arithmetic `0.1 * 1.5` is `0.15000000000000002`: the exact product lies half
way between two doubles and goes to the one with the even last bit. -/
theorem tenth_times : roundDouble (tenth * (3 / 2)) = 5404319552844596 / 2 ^ (55 : ℕ) := by
  have hq : tenth * (3 / 2) = 10808639105689191 / 2 ^ (56 : ℕ) := by
    unfold tenth; norm_num
  have hpos : (0 : ℚ) < tenth * (3 / 2) := by rw [hq]; norm_num
  have hlog : Int.log 2 (tenth * (3 / 2)) = -3 := by
    apply log_eq _ hpos
    · rw [hq]; norm_num
    · rw [hq]; norm_num
  have hulp : ulpExponent (tenth * (3 / 2)) = -55 := by
    unfold ulpExponent
    rw [hlog]
    rfl
  have hx : tenth * (3 / 2) / (2 : ℚ) ^ (-55 : ℤ) = 10808639105689191 / 2 := by
    rw [hq]; norm_num
  have hfloor : ⌊(10808639105689191 / 2 : ℚ)⌋ = 5404319552844595 := by
    rw [Int.floor_eq_iff]
    constructor <;> norm_num
  have hround : roundHalfEven (10808639105689191 / 2 : ℚ) = 5404319552844596 := by
    unfold roundHalfEven
    rw [hfloor]
    norm_num
  unfold roundDouble
  rw [if_pos (le_of_lt hpos)]
  unfold roundMagnitude
  rw [hulp, hx, hround]
  unfold infinity
  norm_num

theorem three_halves_lt_infinity (a : ℕ) (ha : a ≤ 33) : (3 / 2 : ℚ) ^ a < infinity := by
  have h1 : (3 / 2 : ℚ) ^ a ≤ (2 : ℚ) ^ a :=
    pow_le_pow_left₀ (by norm_num) (by norm_num) a
  have h2 : (2 : ℚ) ^ a ≤ (2 : ℚ) ^ 33 := pow_le_pow_right₀ (by norm_num) ha
  have h3 : (2 : ℚ) ^ 33 < infinity := by
    unfold infinity
    norm_num
  exact lt_of_le_of_lt (le_trans h1 h2) h3

/-- `Math.pow(1.5, a)` is exact up to the exponent 33. -/
theorem roundDouble_three_halves (a : ℕ) (ha : a ≤ 33) :
    roundDouble ((3 / 2 : ℚ) ^ a) = (3 / 2 : ℚ) ^ a := by
  have hrep : (3 / 2 : ℚ) ^ a = ((3 ^ a : ℕ) : ℚ) * (2 : ℚ) ^ (-(a : ℤ)) := by
    rw [div_pow, zpow_neg, zpow_natCast]
    push_cast
    rw [div_eq_mul_inv]
  have hm : 3 ^ a < 2 ^ 53 :=
    calc 3 ^ a ≤ 3 ^ 33 := Nat.pow_le_pow_right (by norm_num) ha
      _ < 2 ^ 53 := by norm_num
  have hfin := three_halves_lt_infinity a ha
  rw [hrep] at hfin ⊢
  exact roundDouble_exact (3 ^ a) (-(a : ℤ)) hm (by omega) (le_of_lt hfin)

theorem roundDouble_cap : roundDouble 30000 = 30000 := by
  have h := roundDouble_exact 30000 0 (by norm_num) (by norm_num)
    (by unfold infinity; norm_num)
  simpa using h

theorem cap_le_infinity : (30000 : ℚ) ≤ infinity := by
  unfold infinity
  norm_num

theorem reconnectBackoff_eq (b : ℚ) (n : ℕ) :
    reconnectBackoff b n =
      min (if roundDouble ((3 / 2 : ℚ) ^ (n - 1)) = infinity then
          (if 0 < b then infinity else -infinity)
        else roundDouble (b * roundDouble ((3 / 2 : ℚ) ^ (n - 1)))) 30000 := rfl

/-- Where the double arithmetic of lines 270-273 is exact. -/
theorem reconnectBackoff_exact (b : ℚ) (a : ℕ)
    (h : (a ≤ 33 ∧ IsDouble (b * (3 / 2 : ℚ) ^ a)) ∨ 30000 ≤ b * (3 / 2 : ℚ) ^ (min a 33)) :
    reconnectBackoff b (a + 1) = min (b * (3 / 2 : ℚ) ^ a) 30000 := by
  rw [reconnectBackoff_eq, Nat.add_sub_cancel]
  rcases h with ⟨ha, m, e, hm, he, hrep⟩ | hcap
  · rw [roundDouble_three_halves a ha, if_neg (ne_of_lt (three_halves_lt_infinity a ha))]
    have h0 : (0 : ℚ) ≤ b * (3 / 2 : ℚ) ^ a := by
      rw [hrep]
      exact mul_nonneg (Nat.cast_nonneg m) (le_of_lt (two_zpow_pos e))
    have hr : roundDouble (b * (3 / 2 : ℚ) ^ a) = min (b * (3 / 2 : ℚ) ^ a) infinity := by
      unfold roundDouble
      rw [if_pos h0]
      conv_lhs => rw [hrep, roundMagnitude_exact m e hm he, ← hrep]
    rw [hr, min_assoc, min_eq_right cap_le_infinity]
  · have hpos33 : (0 : ℚ) < (3 / 2 : ℚ) ^ (min a 33) := by positivity
    have hb : 0 < b := by
      by_contra hb
      have : b * (3 / 2 : ℚ) ^ (min a 33) ≤ 0 :=
        mul_nonpos_of_nonpos_of_nonneg (not_lt.mp hb) (le_of_lt hpos33)
      linarith
    have hle : (3 / 2 : ℚ) ^ (min a 33) ≤ (3 / 2 : ℚ) ^ a :=
      pow_le_pow_right₀ (by norm_num) (min_le_left a 33)
    have hexact : b * (3 / 2 : ℚ) ^ a ≥ 30000 :=
      le_trans hcap (mul_le_mul_of_nonneg_left hle (le_of_lt hb))
    rw [min_eq_right hexact]
    have hpow : (3 / 2 : ℚ) ^ (min a 33) ≤ roundDouble ((3 / 2 : ℚ) ^ a) := by
      have := roundDouble_mono (le_of_lt hpos33) hle
      rwa [roundDouble_three_halves _ (min_le_right a 33)] at this
    apply min_eq_right
    by_cases hinf : roundDouble ((3 / 2 : ℚ) ^ a) = infinity
    · rw [if_pos hinf, if_pos hb]
      exact cap_le_infinity
    · rw [if_neg hinf]
      have h1 : (30000 : ℚ) ≤ b * roundDouble ((3 / 2 : ℚ) ^ a) :=
        le_trans hcap (mul_le_mul_of_nonneg_left hpow (le_of_lt hb))
      have := roundDouble_mono (by norm_num : (0 : ℚ) ≤ 30000) h1
      rwa [roundDouble_cap] at this

/-- With the default base delay 3000 the double arithmetic is exact at every counter. -/
theorem reconnectBackoff_default (a : ℕ) :
    reconnectBackoff 3000 (a + 1) = min (3000 * (3 / 2 : ℚ) ^ a) 30000 := by
  apply reconnectBackoff_exact
  by_cases ha : a ≤ 5
  · left
    refine ⟨by omega, ?_⟩
    interval_cases a
    · exact ⟨3000, 0, by norm_num, by norm_num, by norm_num⟩
    · exact ⟨4500, 0, by norm_num, by norm_num, by norm_num⟩
    · exact ⟨6750, 0, by norm_num, by norm_num, by norm_num⟩
    · exact ⟨10125, 0, by norm_num, by norm_num, by norm_num⟩
    · exact ⟨30375, -1, by norm_num, by norm_num, by norm_num⟩
    · exact ⟨91125, -2, by norm_num, by norm_num, by norm_num⟩
  · right
    have h6 : (3 / 2 : ℚ) ^ 6 ≤ (3 / 2 : ℚ) ^ (min a 33) :=
      pow_le_pow_right₀ (by norm_num) (by omega)
    have : (30000 : ℚ) ≤ 3000 * (3 / 2 : ℚ) ^ 6 := by norm_num
    linarith

/-- With the base delay `0.1` the second delay is `0.15000000000000002`, not
`0.1 * 1.5`. -/
theorem tenth_backoff :
    reconnectBackoff tenth 2 = 5404319552844596 / 2 ^ (55 : ℕ) ∧
      reconnectBackoff tenth 2 ≠ min (tenth * (3 / 2 : ℚ) ^ 1) 30000 := by
  have h : reconnectBackoff tenth 2 = 5404319552844596 / 2 ^ (55 : ℕ) := by
    rw [reconnectBackoff_eq]
    have hp : roundDouble ((3 / 2 : ℚ) ^ (2 - 1)) = 3 / 2 := by
      have := roundDouble_three_halves 1 (by norm_num)
      simpa using this
    have hne : (3 / 2 : ℚ) ≠ infinity := by
      have := three_halves_lt_infinity 1 (by norm_num)
      simpa using ne_of_lt this
    simp only [hp, if_neg hne, tenth_times]
    norm_num
  refine ⟨h, ?_⟩
  rw [h]
  unfold tenth
  norm_num

end Doubles

section Reconnect

theorem shouldReconnect_eq_false_iff (code : Nat) :
    shouldReconnect code = false ↔ code = 1000 ∨ code = 1001 := by
  simp only [shouldReconnect, List.contains_cons, List.contains_nil, Bool.or_false,
    Bool.not_eq_false', Bool.or_eq_true, beq_iff_eq]

theorem scheduleReconnect_below (c : WSClient P)
    (h : (c.reconnectAttempts : ℚ) < c.maxReconnectAttempts) :
    c.scheduleReconnect =
      { c with reconnectAttempts := c.reconnectAttempts + 1,
               effects := c.effects ++ [Effect.setTimeout
                 (reconnectBackoff c.reconnectDelay (c.reconnectAttempts + 1))] } := by
  simp [scheduleReconnect, not_le.mpr h]

theorem scheduleReconnect_at_max (c : WSClient P)
    (h : c.maxReconnectAttempts ≤ (c.reconnectAttempts : ℚ)) :
    c.scheduleReconnect = c.emitError "max_reconnect_attempts"
      (ErrorData.maxReconnectAttempts c.reconnectAttempts c.maxReconnectAttempts) := by
  simp [scheduleReconnect, h]

/-- C8, the counterexample: with the base delay `0.1` and one earlier attempt,
`scheduleReconnect` starts the timer with the delay 0.15000000000000002 (the double
5404319552844596 / 2^55), which the source obtains by rounding the product; it is not
`min(0.1 * 1.5^1, 30000)`. -/
theorem backoff_of_a_tenth_is_rounded :
    tenthRetrying.reconnectDelay = tenth ∧ tenthRetrying.reconnectAttempts = 1 ∧
      (tenthRetrying.reconnectAttempts : ℚ) < tenthRetrying.maxReconnectAttempts ∧
      timerDelays tenthRetrying.scheduleReconnect.effects =
        timerDelays tenthRetrying.effects ++ [5404319552844596 / 2 ^ (55 : ℕ)] ∧
      (5404319552844596 / 2 ^ (55 : ℕ) : ℚ) ≠
        min (tenthRetrying.reconnectDelay * (3 / 2 : ℚ) ^ tenthRetrying.reconnectAttempts)
          30000 := by
  have hd : tenthRetrying.reconnectDelay = tenth := by
    show orDefault (some tenth) 3000 = tenth
    unfold orDefault tenth
    norm_num
  have hlt : (tenthRetrying.reconnectAttempts : ℚ) < tenthRetrying.maxReconnectAttempts := by
    show ((1 : ℕ) : ℚ) < orDefault none 5
    unfold orDefault
    norm_num
  refine ⟨hd, rfl, hlt, ?_, ?_⟩
  · rw [scheduleReconnect_below tenthRetrying hlt, hd]
    show timerDelays (tenthRetrying.effects ++ [Effect.setTimeout (reconnectBackoff tenth 2)]) =
      _
    rw [tenth_backoff.1, timerDelays_append]
    rfl
  · rw [hd]
    have h := tenth_backoff.2
    rw [tenth_backoff.1] at h
    exact h

/-- C8, as amended. Below the maximum, `scheduleReconnect` increments the attempt counter
from `a` to `a + 1` and starts exactly one timer, with the delay
`Math.min(b * Math.pow(1.5, a), 30000)` of the source's double arithmetic. That delay is
exactly `min(b * 1.5^a, 30000)` (1.5 is the rational 3/2), which is
`min(b * 1.5^(attempts - 1), 30000)` for the incremented counter, whenever the arithmetic
does not round: `a` is at most 33 and `b * 1.5^a` is a double, or `b * 1.5^a` has reached
30000 by the counter 33 at the latest. -/
theorem scheduleReconnect_backoff (c : WSClient P)
    (h : (c.reconnectAttempts : ℚ) < c.maxReconnectAttempts)
    (hexact : (c.reconnectAttempts ≤ 33 ∧
        IsDouble (c.reconnectDelay * (3 / 2 : ℚ) ^ c.reconnectAttempts)) ∨
      30000 ≤ c.reconnectDelay * (3 / 2 : ℚ) ^ (min c.reconnectAttempts 33)) :
    c.scheduleReconnect.reconnectAttempts = c.reconnectAttempts + 1 ∧
      c.scheduleReconnect.effects = c.effects ++
        [Effect.setTimeout (min (c.reconnectDelay * (3 / 2 : ℚ) ^ c.reconnectAttempts) 30000)] ∧
      min (c.reconnectDelay * (3 / 2 : ℚ) ^ c.reconnectAttempts) 30000 =
        min (c.reconnectDelay * (3 / 2 : ℚ) ^ (c.scheduleReconnect.reconnectAttempts - 1))
          30000 := by
  rw [scheduleReconnect_below c h, reconnectBackoff_exact c.reconnectDelay c.reconnectAttempts
    hexact]
  exact ⟨rfl, rfl, rfl⟩

/-- C10. At or above the maximum, `scheduleReconnect` leaves the counter (and the socket)
unchanged, starts no timer and no connection attempt, and emits exactly one
`max_reconnect_attempts` error event, carrying the counter and the maximum; below the
maximum it emits no such event. -/
theorem scheduleReconnect_maximum (c : WSClient P) :
    (c.maxReconnectAttempts ≤ (c.reconnectAttempts : ℚ) →
        c.scheduleReconnect.reconnectAttempts = c.reconnectAttempts ∧
        c.scheduleReconnect.ws = c.ws ∧
        timerDelays c.scheduleReconnect.effects = timerDelays c.effects ∧
        connectAttempts c.scheduleReconnect.effects = connectAttempts c.effects ∧
        maxAttemptsEvents c.scheduleReconnect.effects =
          maxAttemptsEvents c.effects ++ [(c.reconnectAttempts, c.maxReconnectAttempts)]) ∧
      ((c.reconnectAttempts : ℚ) < c.maxReconnectAttempts →
        maxAttemptsEvents c.scheduleReconnect.effects = maxAttemptsEvents c.effects) := by
  constructor
  · intro h
    rw [scheduleReconnect_at_max c h, emitError_eq]
    refine ⟨rfl, rfl, ?_, ?_, ?_⟩
    · simp [timerDelays, List.filterMap_map, Function.comp_def]
    · simp [connectAttempts, List.filterMap_map, Function.comp_def]
    · simp [maxAttemptsEvents, List.filterMap_map, Function.comp_def, List.filterMap_cons]
  · intro h
    rw [scheduleReconnect_below c h]
    simp [maxAttemptsEvents]

/-- The listener of the socket's close event: it emits `close` and `ws_close`, which
start no timer, and then calls `scheduleReconnect` exactly when auto-reconnect is on and
`shouldReconnect` says so. -/
theorem closeListener_eq (c : WSClient P) (code : Nat) (reason : String) :
    ∃ e, timerDelays e = [] ∧ connectAttempts e = [] ∧ settlements e = [] ∧
      sentFrames e = [] ∧
      c.closeListener code reason =
        if c.autoReconnect && shouldReconnect code then
          ({ c with effects := c.effects ++ e } : WSClient P).scheduleReconnect
        else { c with effects := c.effects ++ e } := by
  unfold closeListener
  obtain ⟨e1, h1, hs1, hf1, ht1, hc1, -⟩ :=
    emit_shape c "close" (EventData.closed code (if reason = "" then "Unknown reason" else reason))
  obtain ⟨e2, h2, hs2, hf2, ht2, hc2⟩ :=
    emitError_shape ({ c with effects := c.effects ++ e1 } : WSClient P) "ws_close"
      (ErrorData.wsClose code (if reason = "" then "Unknown reason" else reason))
  refine ⟨e1 ++ e2, ?_, ?_, ?_, ?_, ?_⟩
  · simp [timerDelays_append, ht1, ht2]
  · simp [connectAttempts_append, hc1, hc2]
  · simp [settlements_append, hs1, hs2]
  · simp [sentFrames_append, hf1, hf2]
  · simp only [h1, h2, List.append_assoc]

/-- C7. `shouldReconnect` returns `false` exactly for the codes 1000 and 1001; and when the
socket's close event with code `code` is handled while auto-reconnect is on, a reconnect
timer is started if and only if the code is neither 1000 nor 1001 and the attempt counter
is below `maxReconnectAttempts` (exactly one timer then, none otherwise). -/
theorem close_event_schedules_reconnect (env : Env P) (c : WSClient P) (code : Nat)
    (reason : String) (hauto : c.autoReconnect = true) :
    (shouldReconnect code = false ↔ code = 1000 ∨ code = 1001) ∧
      timerDelays (step env c (Action.socketClose code reason)).effects =
        timerDelays c.effects ++
          (if code ≠ 1000 ∧ code ≠ 1001 ∧ (c.reconnectAttempts : ℚ) < c.maxReconnectAttempts
            then [reconnectBackoff c.reconnectDelay (c.reconnectAttempts + 1)]
            else []) := by
  refine ⟨shouldReconnect_eq_false_iff code, ?_⟩
  obtain ⟨e, ht, -, -, -, h⟩ := closeListener_eq (c.setReadyState ReadyState.CLOSED) code reason
  simp only [step, h]
  have hauto1 : (c.setReadyState ReadyState.CLOSED).autoReconnect = true := hauto
  rw [hauto1]
  by_cases hcode : code = 1000 ∨ code = 1001
  · have hs : shouldReconnect code = false := (shouldReconnect_eq_false_iff code).mpr hcode
    have hcond : ¬(code ≠ 1000 ∧ code ≠ 1001 ∧
        (c.reconnectAttempts : ℚ) < c.maxReconnectAttempts) := by
      rintro ⟨h1, h2, -⟩
      rcases hcode with h | h
      · exact h1 h
      · exact h2 h
    simp only [hs, Bool.and_false, Bool.false_eq_true, if_false, if_neg hcond]
    simp [setReadyState, timerDelays_append, ht]
  · have hs : shouldReconnect code = true := by
      cases hsr : shouldReconnect code
      · exact absurd ((shouldReconnect_eq_false_iff code).mp hsr) hcode
      · rfl
    have hne : code ≠ 1000 ∧ code ≠ 1001 := by
      constructor
      · intro h; exact hcode (Or.inl h)
      · intro h; exact hcode (Or.inr h)
    simp only [hs, Bool.and_true, if_true]
    by_cases hlt : (c.reconnectAttempts : ℚ) < c.maxReconnectAttempts
    · rw [scheduleReconnect_below _ (by simpa [setReadyState] using hlt)]
      rw [if_pos ⟨hne.1, hne.2, hlt⟩]
      simp only [setReadyState, timerDelays_append, ht, List.append_nil]
      rfl
    · rw [scheduleReconnect_at_max _ (by simpa [setReadyState] using not_lt.mp hlt)]
      rw [if_neg (fun h => hlt h.2.2), emitError_eq]
      simp only [setReadyState, timerDelays_append, ht, List.append_nil]
      simp [timerDelays, List.filterMap_map, Function.comp_def]

/-- Witness of C7: a fresh client (auto-reconnect on by default) starts a timer of 3000 ms
on an abnormal close (1006) and none on a normal close (1000). -/
theorem close_event_schedules_reconnect_witness :
    demoClient.autoReconnect = true ∧
      timerDelays (step demoEnv demoClient (Action.socketClose 1006 "")).effects = [3000] := by
  obtain ⟨-, h⟩ := close_event_schedules_reconnect demoEnv demoClient 1006 "" rfl
  refine ⟨rfl, ?_⟩
  rw [h]
  have hlt : (demoClient.reconnectAttempts : ℚ) < demoClient.maxReconnectAttempts := by
    show ((0 : ℕ) : ℚ) < 5
    norm_num
  rw [if_pos ⟨by decide, by decide, hlt⟩]
  show [] ++ [reconnectBackoff 3000 (0 + 1)] = [3000]
  rw [reconnectBackoff_default 0]
  norm_num

theorem quiet_of_effects (c : WSClient P) (f : List (Option String)) (e : List (Effect P))
    (ht : timerDelays e = []) :
    Quiet c { c with faults := f, effects := c.effects ++ e } :=
  ⟨rfl, rfl, rfl, by
    show timerDelays (c.effects ++ e) = timerDelays c.effects
    rw [timerDelays_append, ht, List.append_nil]⟩

theorem sendImmediately_quiet (env : Env P) (c : WSClient P) (data : P) :
    Quiet c (sendImmediately env c data).2 := by
  obtain ⟨f, e, h, -, ht, -⟩ := sendImmediately_shape env c data
  rw [h]
  exact quiet_of_effects c f e ht

theorem send_quiet (env : Env P) (c : WSClient P) (data : P) :
    Quiet c (send env c data).2 := by
  by_cases hc : c.isConnected
  · have : (send env c data).2 = (sendImmediately env c data).2 := by simp [send, hc]
    rw [this]
    exact sendImmediately_quiet env c data
  · rw [send_disconnected env c data (by simpa using hc)]
    exact ⟨rfl, rfl, rfl, rfl⟩

theorem flushMessageQueue_quiet (env : Env P) (c : WSClient P) :
    Quiet c (flushMessageQueue env c) := by
  obtain ⟨f, e, h, -, -, ht, -⟩ := flushMessageQueue_shape env c
  rw [h]
  exact ⟨rfl, rfl, rfl, by
    show timerDelays (c.effects ++ e) = timerDelays c.effects
    rw [timerDelays_append, ht, List.append_nil]⟩

theorem close_quiet (c : WSClient P) (code : Nat) (reason : String) :
    Quiet c (c.close code reason) := by
  have key : ∀ e, timerDelays e = [] →
      timerDelays (c.effects ++ e) = timerDelays c.effects := by
    intro e ht
    rw [timerDelays_append, ht, List.append_nil]
  cases hw : c.ws with
  | none =>
      obtain ⟨e, h, -, -, ht, -⟩ := close_shape c code reason (Or.inl hw)
      rw [h]
      exact ⟨rfl, rfl, rfl, key e ht⟩
  | some w =>
      cases ha : closeArguments code reason with
      | none =>
          obtain ⟨e, h, -, -, ht, -⟩ := close_shape c code reason (Or.inr ha)
          rw [h]
          exact ⟨rfl, rfl, rfl, key e ht⟩
      | some error =>
          obtain ⟨e, h, -, -, ht, -⟩ := close_throws_shape c code reason w error hw ha
          rw [h]
          exact ⟨rfl, rfl, rfl, key e ht⟩

theorem emitError_quiet (c : WSClient P) (t : String) (d : ErrorData P) :
    Quiet c (c.emitError t d) := by
  obtain ⟨e, h, -, -, ht, -⟩ := emitError_shape c t d
  rw [h]
  exact ⟨rfl, rfl, rfl, by
    show timerDelays (c.effects ++ e) = timerDelays c.effects
    rw [timerDelays_append, ht, List.append_nil]⟩

theorem connect_quiet (env : Env P) (c : WSClient P) : Quiet c (connect env c) := by
  unfold connect
  split
  · exact ⟨rfl, rfl, rfl, by simp [timerDelays]⟩
  · exact emitError_quiet c _ _

theorem pingCallback_quiet (c : WSClient P) : Quiet c c.pingCallback := by
  obtain ⟨f, e, h, he⟩ := pingCallback_shape c
  rw [h]
  apply quiet_of_effects
  rcases he with he | he <;> rw [he] <;> rfl

theorem scheduleReconnect_quiet_or_advances (c : WSClient P) :
    Quiet c c.scheduleReconnect ∨ Advances c c.scheduleReconnect := by
  by_cases h : (c.reconnectAttempts : ℚ) < c.maxReconnectAttempts
  · right
    rw [scheduleReconnect_below c h]
    exact ⟨rfl, rfl, rfl, by simp [timerDelays]⟩
  · left
    rw [scheduleReconnect_at_max c (not_lt.mp h)]
    exact emitError_quiet c _ _

theorem closeListener_quiet_or_advances (c : WSClient P) (code : Nat) (reason : String) :
    Quiet c (c.closeListener code reason) ∨ Advances c (c.closeListener code reason) := by
  obtain ⟨e, ht, -, -, -, h⟩ := closeListener_eq c code reason
  have hq : Quiet c ({ c with effects := c.effects ++ e } : WSClient P) :=
    ⟨rfl, rfl, rfl, by
      show timerDelays (c.effects ++ e) = timerDelays c.effects
      rw [timerDelays_append, ht, List.append_nil]⟩
  rw [h]
  split
  · rcases scheduleReconnect_quiet_or_advances
      ({ c with effects := c.effects ++ e } : WSClient P) with h1 | h1
    · left
      exact ⟨h1.1.trans hq.1, h1.2.1.trans hq.2.1, h1.2.2.1.trans hq.2.2.1,
        h1.2.2.2.trans hq.2.2.2⟩
    · right
      refine ⟨h1.1.trans hq.1, h1.2.1.trans hq.2.1, ?_, ?_⟩
      · rw [h1.2.2.1, hq.2.2.1]
      · rw [h1.2.2.2, hq.2.2.2, hq.1, hq.2.2.1]
  · left
    exact hq

/-- Every action other than the socket's open event and an explicit `reconnect()` either
leaves counter, configuration and timers alone, or increments the counter and starts one
timer with the backoff delay. -/
theorem step_quiet_or_advances (env : Env P) (c : WSClient P) (a : Action P)
    (h : a.resetsCounter = false) :
    Quiet c (step env c a) ∨ Advances c (step env c a) := by
  cases a with
  | send data => exact Or.inl (send_quiet env c data)
  | sendImmediately data => exact Or.inl (sendImmediately_quiet env c data)
  | flushMessageQueue => exact Or.inl (flushMessageQueue_quiet env c)
  | clearQueue => exact Or.inl ⟨rfl, rfl, rfl, rfl⟩
  | close code reason => exact Or.inl (close_quiet c code reason)
  | reconnect url => simp [Action.resetsCounter] at h
  | destroy =>
      left
      have hq := close_quiet c 1000 ""
      exact ⟨hq.1, hq.2.1, hq.2.2.1, hq.2.2.2⟩
  | connect => exact Or.inl (connect_quiet env c)
  | scheduleReconnect => exact scheduleReconnect_quiet_or_advances c
  | startPing interval => exact Or.inl ⟨rfl, rfl, rfl, by simp [step, startPing, timerDelays]⟩
  | stopPing =>
      left
      simp only [step, stopPing]
      split
      · exact ⟨rfl, rfl, rfl, by simp [timerDelays]⟩
      · exact ⟨rfl, rfl, rfl, rfl⟩
  | onType type callback =>
      left
      show Quiet c (c.onType type callback)
      unfold onType
      split <;> exact ⟨rfl, rfl, rfl, rfl⟩
  | onAny callback => exact Or.inl ⟨rfl, rfl, rfl, rfl⟩
  | onError type callback => exact Or.inl ⟨rfl, rfl, rfl, rfl⟩
  | socketOpen => simp [Action.resetsCounter] at h
  | socketError => exact Or.inl (emitError_quiet c _ _)
  | socketClose code reason =>
      exact closeListener_quiet_or_advances (c.setReadyState ReadyState.CLOSED) code reason
  | reconnectTimer =>
      left
      simp only [step, reconnectTimerCallback]
      split
      · exact connect_quiet env c
      · exact ⟨rfl, rfl, rfl, rfl⟩
  | pingTimer => exact Or.inl (pingCallback_quiet c)
  | clock now => exact Or.inl ⟨rfl, rfl, rfl, rfl⟩

theorem reconnectBackoff_le_cap (b : ℚ) (n : Nat) : reconnectBackoff b n ≤ 30000 :=
  min_le_right _ _

theorem reconnectBackoff_mono (b : ℚ) (hb : 0 < b) (n : Nat) :
    reconnectBackoff b (n + 1) ≤ reconnectBackoff b (n + 2) := by
  unfold reconnectBackoff
  apply min_le_min_right
  have hp1 : (0 : ℚ) ≤ (3 / 2 : ℚ) ^ (n + 1 - 1) := by positivity
  have h1 : (3 / 2 : ℚ) ^ (n + 1 - 1) ≤ (3 / 2 : ℚ) ^ (n + 2 - 1) := by
    apply pow_le_pow_right₀
    · norm_num
    · omega
  have hmono := roundDouble_mono hp1 h1
  have hle2 := roundDouble_le_infinity ((3 / 2 : ℚ) ^ (n + 2 - 1)) (le_trans hp1 h1)
  have hnn := roundDouble_nonneg hp1
  by_cases h2 : roundDouble ((3 / 2 : ℚ) ^ (n + 2 - 1)) = infinity
  · rw [if_pos h2, if_pos hb]
    split
    · exact le_refl _
    · exact roundDouble_le_infinity _ (mul_nonneg (le_of_lt hb) hnn)
  · rw [if_neg h2]
    have h1' : roundDouble ((3 / 2 : ℚ) ^ (n + 1 - 1)) ≠ infinity := by
      intro hc
      rw [hc] at hmono
      exact h2 (le_antisymm hle2 hmono)
    rw [if_neg h1']
    exact roundDouble_mono (mul_nonneg (le_of_lt hb) hnn)
      (mul_le_mul_of_nonneg_left hmono (le_of_lt hb))

/-- The reconnect timers started during a run without counter reset: their delays are
non-decreasing, none is below the backoff delay of the counter at the start, none exceeds
30000. -/
theorem run_timerDelays (env : Env P) (actions : List (Action P)) :
    ∀ c : WSClient P, 0 < c.reconnectDelay → (∀ a ∈ actions, a.resetsCounter = false) →
      ∃ ds, timerDelays (run env c actions).effects = timerDelays c.effects ++ ds ∧
        ds.Sorted (· ≤ ·) ∧
        ∀ d ∈ ds, reconnectBackoff c.reconnectDelay (c.reconnectAttempts + 1) ≤ d ∧
          d ≤ 30000 := by
  induction actions with
  | nil =>
      intro c _ _
      exact ⟨[], by simp [run], List.sorted_nil, by simp⟩
  | cons a rest ih =>
      intro c hpos hno
      have ha : a.resetsCounter = false := hno a (List.mem_cons_self _ _)
      have hrest : ∀ x ∈ rest, x.resetsCounter = false :=
        fun x hx => hno x (List.mem_cons_of_mem _ hx)
      have hrun : run env c (a :: rest) = run env (step env c a) rest := rfl
      rw [hrun]
      rcases step_quiet_or_advances env c a ha with hq | hadv
      · obtain ⟨hd, -, hcnt, ht⟩ := hq
        obtain ⟨ds, h1, h2, h3⟩ := ih (step env c a) (by rw [hd]; exact hpos) hrest
        refine ⟨ds, by rw [h1, ht], h2, ?_⟩
        intro d hdm
        have := h3 d hdm
        rw [hd, hcnt] at this
        exact this
      · obtain ⟨hd, -, hcnt, ht⟩ := hadv
        obtain ⟨ds, h1, h2, h3⟩ := ih (step env c a) (by rw [hd]; exact hpos) hrest
        refine ⟨reconnectBackoff c.reconnectDelay (c.reconnectAttempts + 1) :: ds, ?_, ?_, ?_⟩
        · rw [h1, ht]; simp
        · apply List.sorted_cons.mpr
          refine ⟨?_, h2⟩
          intro d hdm
          have := (h3 d hdm).1
          rw [hd, hcnt] at this
          exact le_trans (reconnectBackoff_mono _ hpos _) this
        · intro d hdm
          rcases List.mem_cons.mp hdm with h | h
          · rw [h]
            exact ⟨le_refl _, reconnectBackoff_le_cap _ _⟩
          · have := h3 d h
            rw [hd, hcnt] at this
            exact ⟨le_trans (reconnectBackoff_mono _ hpos _) this.1, this.2⟩

/-- C9. For a positive base delay, the delays of the reconnect timers started by
`scheduleReconnect` over any sequence of actions in which the attempt counter is not set
back (no socket open event, no explicit `reconnect()`), in particular by consecutive
`scheduleReconnect` calls, are non-decreasing, and none exceeds 30000 ms. -/
theorem backoff_delays_nondecreasing (env : Env P) (c : WSClient P)
    (actions : List (Action P)) (hpos : 0 < c.reconnectDelay)
    (hno : ∀ a ∈ actions, a.resetsCounter = false) :
    ∃ ds, timerDelays (run env c actions).effects = timerDelays c.effects ++ ds ∧
      ds.Sorted (· ≤ ·) ∧ ∀ d ∈ ds, d ≤ 30000 := by
  obtain ⟨ds, h1, h2, h3⟩ := run_timerDelays env actions c hpos hno
  exact ⟨ds, h1, h2, fun d hd => (h3 d hd).2⟩

/-- Witness of C9: a fresh client (base delay 3000) through three abnormal closes, each
followed by the reconnect timer firing. -/
theorem backoff_delays_nondecreasing_witness :
    0 < demoClient.reconnectDelay ∧
      ∃ ds, timerDelays (run demoEnv demoClient
          [Action.socketClose 1006 "", Action.reconnectTimer,
           Action.socketClose 1006 "", Action.reconnectTimer,
           Action.socketClose 1011 "", Action.scheduleReconnect]).effects =
          timerDelays demoClient.effects ++ ds ∧
        ds.Sorted (· ≤ ·) ∧ ∀ d ∈ ds, d ≤ 30000 := by
  have hpos : 0 < demoClient.reconnectDelay := by
    show (0 : ℚ) < 3000
    norm_num
  exact ⟨hpos, backoff_delays_nondecreasing demoEnv demoClient _ hpos (by decide)⟩

/-- Witness of C8 as amended: with the default base delay 3000 and two earlier attempts, the
third attempt is scheduled after 3000 * 1.5^2 = 6750 ms, a double. -/
theorem scheduleReconnect_backoff_witness :
    demoRetrying.scheduleReconnect.reconnectAttempts = 3 ∧
      demoRetrying.scheduleReconnect.effects =
        demoRetrying.effects ++ [Effect.setTimeout 6750] := by
  have hlt : (demoRetrying.reconnectAttempts : ℚ) < demoRetrying.maxReconnectAttempts := by
    show ((2 : ℕ) : ℚ) < 5
    norm_num
  have hdouble : IsDouble (demoRetrying.reconnectDelay *
      (3 / 2 : ℚ) ^ demoRetrying.reconnectAttempts) := by
    show IsDouble ((3000 : ℚ) * (3 / 2 : ℚ) ^ 2)
    exact ⟨6750, 0, by norm_num, by norm_num, by norm_num⟩
  obtain ⟨h1, h2, -⟩ := scheduleReconnect_backoff demoRetrying hlt
    (Or.inl ⟨by decide, hdouble⟩)
  refine ⟨h1, ?_⟩
  rw [h2]
  have hd : min (demoRetrying.reconnectDelay * (3 / 2 : ℚ) ^ demoRetrying.reconnectAttempts)
      30000 = 6750 := by
    show min ((3000 : ℚ) * (3 / 2 : ℚ) ^ 2) 30000 = 6750
    norm_num
  rw [hd]

/-- Witness of C10: at the default maximum 5 the event carries 5 and 5, and the counter
stays 5. -/
theorem scheduleReconnect_maximum_witness :
    demoExhausted.scheduleReconnect.reconnectAttempts = 5 ∧
      timerDelays demoExhausted.scheduleReconnect.effects = [] ∧
      maxAttemptsEvents demoExhausted.scheduleReconnect.effects = [(5, 5)] := by
  have hge : demoExhausted.maxReconnectAttempts ≤ (demoExhausted.reconnectAttempts : ℚ) := by
    show (5 : ℚ) ≤ ((5 : ℕ) : ℚ)
    norm_num
  obtain ⟨h1, -, h3, -, h5⟩ := (scheduleReconnect_maximum demoExhausted).1 hge
  exact ⟨h1, h3, h5⟩

end Reconnect

section Settlement

theorem Inert.settlementsOf_eq {c c' : WSClient P} (h : Inert c c') (p : Nat) :
    settlementsOf p c'.effects = settlementsOf p c.effects := by
  rw [← settlementsOf_settlements p c'.effects, h.2.2, settlementsOf_settlements]

theorem Inert.settled {c c' : WSClient P} (h : Inert c c') (hs : Settled c) : Settled c' := by
  obtain ⟨h1, h2, h3, h4⟩ := hs
  have hq : queuedPromises c' = queuedPromises c := by simp [queuedPromises, h.1]
  refine ⟨by rw [hq]; exact h1, ?_, ?_, ?_⟩
  · intro p hp
    rw [hq] at hp
    rw [h.2.1, h.settlementsOf_eq]
    exact h2 p hp
  · intro p hp hnp
    rw [hq] at hnp
    rw [h.2.1] at hp
    rw [h.settlementsOf_eq]
    exact h3 p hp hnp
  · intro p hp
    rw [h.2.1] at hp
    rw [h.settlementsOf_eq]
    exact h4 p hp

theorem Inert.trans {a b c : WSClient P} (h1 : Inert a b) (h2 : Inert b c) : Inert a c :=
  ⟨h2.1.trans h1.1, h2.2.1.trans h1.2.1, h2.2.2.trans h1.2.2⟩

theorem inert_of_effects (c : WSClient P) (f : List (Option String)) (e : List (Effect P))
    (hs : settlements e = []) :
    Inert c { c with faults := f, effects := c.effects ++ e } :=
  ⟨rfl, rfl, by
    show settlements (c.effects ++ e) = settlements c.effects
    rw [settlements_append, hs, List.append_nil]⟩

theorem sendImmediately_inert (env : Env P) (c : WSClient P) (data : P) :
    Inert c (sendImmediately env c data).2 := by
  obtain ⟨f, e, h, hs, -⟩ := sendImmediately_shape env c data
  rw [h]
  exact inert_of_effects c f e hs

theorem emitError_inert (c : WSClient P) (t : String) (d : ErrorData P) :
    Inert c (c.emitError t d) := by
  obtain ⟨e, h, hs, -⟩ := emitError_shape c t d
  rw [h]
  exact ⟨rfl, rfl, by
    show settlements (c.effects ++ e) = settlements c.effects
    rw [settlements_append, hs, List.append_nil]⟩

theorem emit_inert (c : WSClient P) (t : String) (d : EventData) : Inert c (c.emit t d) := by
  obtain ⟨e, h, hs, -⟩ := emit_shape c t d
  rw [h]
  exact ⟨rfl, rfl, by
    show settlements (c.effects ++ e) = settlements c.effects
    rw [settlements_append, hs, List.append_nil]⟩

theorem connect_inert (env : Env P) (c : WSClient P) : Inert c (connect env c) := by
  unfold connect
  split
  · exact ⟨rfl, rfl, by simp [settlements]⟩
  · exact emitError_inert c _ _

theorem scheduleReconnect_inert (c : WSClient P) : Inert c c.scheduleReconnect := by
  by_cases h : (c.reconnectAttempts : ℚ) < c.maxReconnectAttempts
  · rw [scheduleReconnect_below c h]
    exact ⟨rfl, rfl, by simp [settlements]⟩
  · rw [scheduleReconnect_at_max c (not_lt.mp h)]
    exact emitError_inert c _ _

theorem closeListener_inert (c : WSClient P) (code : Nat) (reason : String) :
    Inert c (c.closeListener code reason) := by
  obtain ⟨e, -, -, hs, -, h⟩ := closeListener_eq c code reason
  have hq : Inert c ({ c with effects := c.effects ++ e } : WSClient P) :=
    ⟨rfl, rfl, by
      show settlements (c.effects ++ e) = settlements c.effects
      rw [settlements_append, hs, List.append_nil]⟩
  rw [h]
  split
  · exact hq.trans (scheduleReconnect_inert _)
  · exact hq

theorem pingCallback_inert (c : WSClient P) : Inert c c.pingCallback := by
  obtain ⟨f, e, h, he⟩ := pingCallback_shape c
  rw [h]
  apply inert_of_effects
  rcases he with he | he <;> rw [he] <;> rfl

/-- A `send` keeps the invariant: at once it settles nothing; queued, the new message
carries a fresh promise. -/
theorem send_settled (env : Env P) (c : WSClient P) (data : P) (hs : Settled c) :
    Settled (send env c data).2 := by
  by_cases hc : c.isConnected
  · have : (send env c data).2 = (sendImmediately env c data).2 := by simp [send, hc]
    rw [this]
    exact (sendImmediately_inert env c data).settled hs
  · rw [send_disconnected env c data (by simpa using hc)]
    obtain ⟨h1, h2, h3, h4⟩ := hs
    have hfresh : c.nextPromise ∉ queuedPromises c :=
      fun h => absurd (h2 _ h).1 (lt_irrefl _)
    refine ⟨?_, ?_, ?_, ?_⟩
    · simp only [queuedPromises, List.map_append, List.map_cons, List.map_nil]
      apply List.Nodup.append h1 (List.nodup_singleton _)
      intro a ha hb
      rw [List.mem_singleton.mp hb] at ha
      exact hfresh ha
    · intro p hp
      simp only [queuedPromises, List.map_append, List.map_cons, List.map_nil,
        List.mem_append, List.mem_singleton] at hp
      rcases hp with hp | hp
      · exact ⟨Nat.lt_succ_of_lt (h2 p hp).1, (h2 p hp).2⟩
      · rw [hp]
        exact ⟨Nat.lt_succ_self _, h4 _ (le_refl _)⟩
    · intro p hp hnp
      simp only [queuedPromises, List.map_append, List.map_cons, List.map_nil,
        List.mem_append, List.mem_singleton, not_or] at hnp
      have hlt : p < c.nextPromise := by
        have : p < c.nextPromise + 1 := hp
        omega
      exact h3 p hlt hnp.1
    · intro p hp
      have : c.nextPromise + 1 ≤ p := hp
      exact h4 p (by omega)

/-- A flush settles no promise that is not queued. -/
theorem flush_absent (env : Env P) (c : WSClient P) (p : Nat)
    (hp : p ∉ queuedPromises c) :
    settlementsOf p (flushMessageQueue env c).effects = settlementsOf p c.effects := by
  obtain ⟨f, e, h, hs, -⟩ := flushMessageQueue_shape env c
  have hlen := transmissions_length env c.messageQueue c
  obtain ⟨-, h2, -⟩ :=
    flush_lists_absent p c.messageQueue (transmissions env c c.messageQueue) hlen hp
  rw [h]
  show settlementsOf p (c.effects ++ e) = _
  rw [settlementsOf_append, ← settlementsOf_settlements p e, hs, h2, List.append_nil]

/-- A flush keeps the invariant: a message it drops is settled, one it keeps is pending. -/
theorem flushMessageQueue_settled (env : Env P) (c : WSClient P) (hs : Settled c) :
    Settled (flushMessageQueue env c) := by
  obtain ⟨h1, h2, h3, h4⟩ := hs
  obtain ⟨f, e, hshape, -⟩ := flushMessageQueue_shape env c
  have hnext : (flushMessageQueue env c).nextPromise = c.nextPromise := by rw [hshape]
  have hsub : (queuedPromises (flushMessageQueue env c)).Sublist (queuedPromises c) := by
    rw [hshape]
    exact flushRetained_promises_sublist _ _
  refine ⟨List.Nodup.sublist hsub h1, ?_, ?_, ?_⟩
  · intro p hp
    have hpc := hsub.subset hp
    obtain ⟨m, hm, hmp⟩ := List.mem_map.mp hpc
    subst hmp
    obtain ⟨-, b, -, -, hset, -, hdrop⟩ := flush_one env c m hm h1
    rw [hnext]
    refine ⟨(h2 _ hpc).1, ?_⟩
    by_cases hk : b = false ∧ m.attempts + 1 < 3
    · rw [hset, (h2 _ hpc).2]
      simp [hk.1, hk.2]
    · exact absurd hp (hdrop hk)
  · intro p hp hnp
    rw [hnext] at hp
    by_cases hpc : p ∈ queuedPromises c
    · obtain ⟨m, hm, hmp⟩ := List.mem_map.mp hpc
      subst hmp
      obtain ⟨-, b, -, -, hset, hkeep, -⟩ := flush_one env c m hm h1
      by_cases hk : b = false ∧ m.attempts + 1 < 3
      · exact absurd (List.mem_map.mpr ⟨_, hkeep hk, rfl⟩) hnp
      · rw [hset, (h2 _ hpc).2]
        cases b
        · have hlt : ¬ m.attempts + 1 < 3 := fun h => hk ⟨rfl, h⟩
          exact ⟨Effect.reject m.promise (Rejection.retriesExceeded m.data), by simp [hlt]⟩
        · exact ⟨Effect.resolve m.promise m.data, by simp⟩
    · rw [flush_absent env c p hpc]
      exact h3 p hp hpc
  · intro p hp
    rw [hnext] at hp
    have hpc : p ∉ queuedPromises c := fun h => absurd (h2 p h).1 (by omega)
    rw [flush_absent env c p hpc]
    exact h4 p hp

/-- The rejections `close` makes, seen from one promise. -/
theorem settlementsOf_rejections (p code : Nat) (reason : String)
    (q : List (QueuedMessage P)) (hnd : (q.map (fun m => m.promise)).Nodup) :
    settlementsOf p (q.map (fun m =>
        (Effect.reject m.promise (Rejection.connectionClosed code reason) : Effect P))) =
      if p ∈ q.map (fun m => m.promise)
        then [Effect.reject p (Rejection.connectionClosed code reason)] else [] := by
  induction q with
  | nil => simp [settlementsOf]
  | cons x rest ih =>
      have hnd' := (List.nodup_cons.mp hnd).2
      have hx := (List.nodup_cons.mp hnd).1
      by_cases hxp : x.promise = p
      · subst hxp
        have := ih hnd'
        rw [if_neg hx] at this
        simp only [settlementsOf] at this
        simp [settlementsOf, List.filter_cons, this]
      · have := ih hnd'
        simp only [settlementsOf] at this
        by_cases hpr : p ∈ rest.map (fun m => m.promise)
        · rw [if_pos hpr] at this
          have hmem : p ∈ (x :: rest).map (fun m => m.promise) := List.mem_cons_of_mem _ hpr
          rw [if_pos hmem]
          simp [settlementsOf, List.filter_cons, hxp, this]
        · rw [if_neg hpr] at this
          have hmem : p ∉ (x :: rest).map (fun m => m.promise) := by
            simp only [List.map_cons, List.mem_cons, not_or]
            exact ⟨fun h => hxp h.symm, hpr⟩
          rw [if_neg hmem]
          simp [settlementsOf, List.filter_cons, hxp, this]

/-- A `close` whose `ws.close` throws leaves the queue and the settlements alone. -/
theorem close_throws_inert (c : WSClient P) (code : Nat) (reason : String) (w : WebSocket)
    (error : String) (hw : c.ws = some w) (ha : closeArguments code reason = some error) :
    Inert c (c.close code reason) := by
  obtain ⟨e, h, hs, -⟩ := close_throws_shape c code reason w error hw ha
  rw [h]
  exact ⟨rfl, rfl, by
    show settlements (c.effects ++ e) = settlements c.effects
    rw [settlements_append, hs, List.append_nil]⟩

/-- A `close` keeps the invariant: every queued message is rejected as it leaves, or, when
`ws.close` throws, stays queued. -/
theorem close_settled (c : WSClient P) (code : Nat) (reason : String) (hs : Settled c) :
    Settled (c.close code reason) := by
  by_cases hok : c.ws = none ∨ closeArguments code reason = none
  swap
  · cases hw : c.ws with
    | none => exact absurd (Or.inl hw) hok
    | some w =>
        cases ha : closeArguments code reason with
        | none => exact absurd (Or.inr ha) hok
        | some error => exact (close_throws_inert c code reason w error hw ha).settled hs
  obtain ⟨h1, h2, h3, h4⟩ := hs
  obtain ⟨e, hshape, hse, -⟩ := close_shape c code reason hok
  have hof : ∀ p, settlementsOf p (c.close code reason).effects =
      settlementsOf p c.effects ++
        (if p ∈ queuedPromises c
          then [Effect.reject p (Rejection.connectionClosed code reason)] else []) := by
    intro p
    rw [hshape]
    show settlementsOf p (c.effects ++ e) = _
    rw [settlementsOf_append, ← settlementsOf_settlements p e, hse,
      settlementsOf_rejections p code reason c.messageQueue h1]
    rfl
  have hq : queuedPromises (c.close code reason) = [] := by rw [hshape]; rfl
  have hnext : (c.close code reason).nextPromise = c.nextPromise := by rw [hshape]
  refine ⟨by rw [hq]; exact List.nodup_nil, ?_, ?_, ?_⟩
  · intro p hp
    rw [hq] at hp
    simp at hp
  · intro p hp _
    rw [hnext] at hp
    rw [hof]
    by_cases hpc : p ∈ queuedPromises c
    · rw [if_pos hpc, (h2 p hpc).2]
      exact ⟨_, rfl⟩
    · rw [if_neg hpc, List.append_nil]
      exact h3 p hp hpc
  · intro p hp
    rw [hnext] at hp
    have hpc : p ∉ queuedPromises c := fun h => absurd (h2 p h).1 (by omega)
    rw [hof, if_neg hpc, List.append_nil]
    exact h4 p hp

/-- Every action other than `clearQueue` keeps the settlement invariant. -/
theorem step_settled (env : Env P) (c : WSClient P) (a : Action P)
    (ha : a ≠ Action.clearQueue) (hs : Settled c) : Settled (step env c a) := by
  cases a with
  | send data => exact send_settled env c data hs
  | sendImmediately data => exact (sendImmediately_inert env c data).settled hs
  | flushMessageQueue => exact flushMessageQueue_settled env c hs
  | clearQueue => exact absurd rfl ha
  | close code reason => exact close_settled c code reason hs
  | reconnect url =>
      have h1 := close_settled c 1000 "Reconnecting" hs
      have h2 : Inert (c.close 1000 "Reconnecting")
          ({ ({ c.close 1000 "Reconnecting" with
                url := if url.getD c.url = "" then (c.close 1000 "Reconnecting").url
                       else url.getD c.url } : WSClient P) with reconnectAttempts := 0 }) :=
        ⟨rfl, rfl, rfl⟩
      exact (h2.trans (connect_inert env _)).settled h1
  | destroy =>
      have h1 := close_settled c 1000 "" hs
      have h2 : Inert (c.close 1000 "")
          ({ c.close 1000 "" with listeners := fun _ => none,
                                  errorListeners := fun _ => [] }) := ⟨rfl, rfl, rfl⟩
      exact h2.settled h1
  | connect => exact (connect_inert env c).settled hs
  | scheduleReconnect => exact (scheduleReconnect_inert c).settled hs
  | startPing interval =>
      have h : Inert c (c.startPing interval) := ⟨rfl, rfl, by simp [startPing, settlements]⟩
      exact h.settled hs
  | stopPing =>
      have h : Inert c c.stopPing := by
        unfold stopPing
        split
        · exact ⟨rfl, rfl, by simp [settlements]⟩
        · exact ⟨rfl, rfl, rfl⟩
      exact h.settled hs
  | onType type callback =>
      have h : Inert c (c.onType type callback) := by
        unfold onType
        split <;> exact ⟨rfl, rfl, rfl⟩
      exact h.settled hs
  | onAny callback =>
      have h : Inert c (c.onAny callback) := ⟨rfl, rfl, rfl⟩
      exact h.settled hs
  | onError type callback =>
      have h : Inert c (c.onError type callback) := ⟨rfl, rfl, rfl⟩
      exact h.settled hs
  | socketOpen =>
      have h1 : Inert c ({ c.setReadyState ReadyState.OPEN with reconnectAttempts := 0 }) :=
        ⟨rfl, rfl, rfl⟩
      have h2 := h1.trans (emit_inert _ "open" EventData.opened)
      exact flushMessageQueue_settled env _ (h2.settled hs)
  | socketError => exact (emitError_inert c _ _).settled hs
  | socketClose code reason =>
      have h1 : Inert c (c.setReadyState ReadyState.CLOSED) := ⟨rfl, rfl, rfl⟩
      exact (h1.trans (closeListener_inert _ code reason)).settled hs
  | reconnectTimer =>
      have h : Inert c (reconnectTimerCallback env c) := by
        unfold reconnectTimerCallback
        split
        · exact connect_inert env c
        · exact ⟨rfl, rfl, rfl⟩
      exact h.settled hs
  | pingTimer => exact (pingCallback_inert c).settled hs
  | clock now =>
      have h : Inert c ({ c with now := now }) := ⟨rfl, rfl, rfl⟩
      exact h.settled hs

/-- A client just constructed satisfies the settlement invariant. -/
theorem constructor_settled (env : Env P) (url : String) (options : Options) (now : Nat)
    (faults : List (Option String)) :
    Settled (WSClient.constructor env url options now faults) := by
  have h0 : ∀ c : WSClient P, c.messageQueue = [] → c.nextPromise = 0 → c.effects = [] →
      Settled c := by
    intro c hq hn he
    refine ⟨by simp [queuedPromises, hq], by simp [queuedPromises, hq], ?_, ?_⟩
    · intro p hp
      rw [hn] at hp
      omega
    · intro p _
      simp [settlementsOf, he]
  have key : ∀ c : WSClient P, Settled c →
      Settled (if options.enablePing ≠ some false
        then (connect env c).startPing (orDefault options.pingInterval 30000)
        else connect env c) := by
    intro c hs
    have h1 := (connect_inert env c).settled hs
    split
    · have h : Inert (connect env c)
          ((connect env c).startPing (orDefault options.pingInterval 30000)) :=
        ⟨rfl, rfl, by simp [startPing, settlements]⟩
      exact h.settled h1
    · exact h1
  unfold WSClient.constructor
  apply key
  apply h0 <;> rfl

/-- The settlement invariant of the data model holds in every state reached from
construction by actions other than `clearQueue`: every promise returned by `send` is
either still queued and pending, or no longer queued and settled exactly once. -/
theorem run_settled (env : Env P) (actions : List (Action P)) :
    ∀ c : WSClient P, Settled c → (∀ a ∈ actions, a ≠ Action.clearQueue) →
      Settled (run env c actions) := by
  induction actions with
  | nil => intro c hs _; exact hs
  | cons a rest ih =>
      intro c hs hno
      have hrun : run env c (a :: rest) = run env (step env c a) rest := rfl
      rw [hrun]
      exact ih _ (step_settled env c a (hno a (List.mem_cons_self _ _)) hs)
        (fun x hx => hno x (List.mem_cons_of_mem _ hx))

/-- C5, the code at the failing input. On a fresh client, `send("A")` queues a message
with promise 0; `clearQueue()` then removes it from the queue (the call returns 1) and no
settlement of promise 0 has been made: the message has left the queue with its outcome
pending, and the settlement invariant, which every other action keeps (`run_settled`), is
broken. `close()` on the same state rejects the message. -/
theorem clearQueue_drops_pending_promise :
    queuedPromises (run demoEnv demoClient [Action.send "A"]) = [0] ∧
      (run demoEnv demoClient [Action.send "A"]).clearQueue.1 = 1 ∧
      (run demoEnv demoClient [Action.send "A", Action.clearQueue]).messageQueue = [] ∧
      settlementsOf 0
        (run demoEnv demoClient [Action.send "A", Action.clearQueue]).effects = [] ∧
      ¬ Settled (run demoEnv demoClient [Action.send "A", Action.clearQueue]) ∧
      settlementsOf 0
        (run demoEnv demoClient [Action.send "A", Action.close 1000 ""]).effects =
        [Effect.reject 0 (Rejection.connectionClosed 1000 "")] := by
  refine ⟨by decide, by decide, by decide, by decide, ?_, by decide⟩
  intro h
  obtain ⟨e, he⟩ := h.2.2.1 0 (by decide) (by decide)
  have h0 : settlementsOf 0
      (run demoEnv demoClient [Action.send "A", Action.clearQueue]).effects = [] := by decide
  rw [h0] at he
  cases he

end Settlement

section Inbound

/-- The check of line 50 lets through exactly the non-null objects. -/
theorem validation_object (v : Json) :
    (!v.truthy || !v.typeofObject) = !v.isObject := by
  cases v <;> simp [Json.truthy, Json.typeofObject, Json.isObject]

/-- The check of line 54 lets through exactly the non-empty strings. -/
theorem validation_type (ty : Json) :
    (!ty.truthy || !ty.typeofString) = false ↔ ∃ t, ty = Json.str t ∧ t ≠ "" := by
  cases ty <;> simp [Json.truthy, Json.typeofString]

theorem observers_error_calls (t : String) (d : ErrorData P) (hs : List Handler) :
    handlerCalls (List.map (fun h => (Effect.errorListenerCall h.id t d : Effect P)) hs) = [] ∧
      unhandledEvents
        (List.map (fun h => (Effect.errorListenerCall h.id t d : Effect P)) hs) = [] ∧
      parseErrorEvents
        (List.map (fun h => (Effect.errorListenerCall h.id t d : Effect P)) hs) = [] ∧
      sentFrames
        (List.map (fun h => (Effect.errorListenerCall h.id t d : Effect P)) hs) = [] := by
  refine ⟨?_, ?_, ?_, ?_⟩ <;>
    simp [handlerCalls, unhandledEvents, parseErrorEvents, sentFrames, List.filterMap_map,
      Function.comp_def]

theorem handlerCalls_append (l₁ l₂ : List (Effect P)) :
    handlerCalls (l₁ ++ l₂) = handlerCalls l₁ ++ handlerCalls l₂ := by
  simp [handlerCalls]

theorem unhandledEvents_append (l₁ l₂ : List (Effect P)) :
    unhandledEvents (l₁ ++ l₂) = unhandledEvents l₁ ++ unhandledEvents l₂ := by
  simp [unhandledEvents]

theorem parseErrorEvents_append (l₁ l₂ : List (Effect P)) :
    parseErrorEvents (l₁ ++ l₂) = parseErrorEvents l₁ ++ parseErrorEvents l₂ := by
  simp [parseErrorEvents]

theorem escapedExceptions_append (l₁ l₂ : List (Effect P)) :
    escapedExceptions (l₁ ++ l₂) = escapedExceptions l₁ ++ escapedExceptions l₂ := by
  simp [escapedExceptions]

/-- The catch block, for a caught value that has a message, emits one `parse_error` event
and calls only error callbacks; nothing leaves it. -/
theorem catchBlock_observed (c : WSClient P) (message frame : String) :
    handlerCalls (catchBlock c (Thrown.value message) frame).effects = handlerCalls c.effects ∧
      unhandledEvents (catchBlock c (Thrown.value message) frame).effects =
        unhandledEvents c.effects ∧
      sentFrames (catchBlock c (Thrown.value message) frame).effects = sentFrames c.effects ∧
      parseErrorEvents (catchBlock c (Thrown.value message) frame).effects =
        parseErrorEvents c.effects ++ [(message, frame)] ∧
      escapedExceptions (catchBlock c (Thrown.value message) frame).effects =
        escapedExceptions c.effects := by
  obtain ⟨h1, h2, h3, h4⟩ := observers_error_calls (P := P) "parse_error"
    (ErrorData.parseError message frame)
    (c.errorListeners "parse_error" ++ c.errorListeners "*")
  have h5 : escapedExceptions
      (List.map (fun h => (Effect.errorListenerCall h.id "parse_error"
          (ErrorData.parseError message frame) : Effect P))
        (c.errorListeners "parse_error" ++ c.errorListeners "*")) = [] := by
    simp [escapedExceptions, List.filterMap_map, Function.comp_def]
  have heq : (catchBlock c (Thrown.value message) frame).effects = c.effects ++
      ([Effect.emitError "parse_error" (ErrorData.parseError message frame)] ++
        List.map (fun h => (Effect.errorListenerCall h.id "parse_error"
            (ErrorData.parseError message frame) : Effect P))
          (c.errorListeners "parse_error" ++ c.errorListeners "*")) := rfl
  rw [heq]
  refine ⟨?_, ?_, ?_, ?_, ?_⟩
  · rw [handlerCalls_append, handlerCalls_append, h1]
    simp [handlerCalls]
  · rw [unhandledEvents_append, unhandledEvents_append, h2]
    simp [unhandledEvents]
  · rw [sentFrames_append, sentFrames_append, h4]
    simp [sentFrames]
  · rw [parseErrorEvents_append, parseErrorEvents_append, h3]
    simp [parseErrorEvents]
  · rw [escapedExceptions_append, escapedExceptions_append, h5]
    simp [escapedExceptions]

/-- The catch block, for a caught `null` or `undefined`, emits nothing: the `TypeError` of
line 72 leaves the listener. -/
theorem catchBlock_nullish_observed (c : WSClient P) (frame : String) :
    handlerCalls (catchBlock c Thrown.nullish frame).effects = handlerCalls c.effects ∧
      unhandledEvents (catchBlock c Thrown.nullish frame).effects = unhandledEvents c.effects ∧
      parseErrorEvents (catchBlock c Thrown.nullish frame).effects =
        parseErrorEvents c.effects ∧
      escapedExceptions (catchBlock c Thrown.nullish frame).effects =
        escapedExceptions c.effects ++
          ["Cannot read properties of null (reading 'message')"] := by
  simp [catchBlock, handlerCalls, unhandledEvents, parseErrorEvents, escapedExceptions]

/-- A frame that passes the validation of lines 47-56 is dispatched under its type. -/
theorem messageListener_valid (pf : Platform) (c : WSClient P) (frame t : String) (v : Json)
    (hping : frame ≠ "__ping__") (hparse : pf.parse frame = Except.ok v)
    (hobj : v.isObject = true) (htype : v.typeField = some (Json.str t)) (ht : t ≠ "") :
    messageListener pf c frame = dispatch pf c t frame := by
  have h1 : (!v.truthy || !v.typeofObject) = false := by rw [validation_object, hobj]; rfl
  have h2 : (!(Json.str t).truthy || !(Json.str t).typeofString) = false :=
    (validation_type _).mpr ⟨t, rfl, ht⟩
  simp only [messageListener, if_neg hping, hparse, h1, htype, h2]
  simp

/-- A frame that fails the validation of lines 47-56 goes to the catch block, with an error
that has a message. -/
theorem messageListener_invalid (pf : Platform) (c : WSClient P) (frame : String)
    (hping : frame ≠ "__ping__")
    (hbad : (∃ message, pf.parse frame = Except.error message) ∨
      (∃ v, pf.parse frame = Except.ok v ∧ v.isObject = false) ∨
      (∃ v, pf.parse frame = Except.ok v ∧ v.isObject = true ∧
        (v.typeField = none ∨ ∃ ty, v.typeField = some ty ∧ ty.typeofString = false))) :
    ∃ detail, messageListener pf c frame = catchBlock c (Thrown.value detail) frame := by
  rcases hbad with ⟨message, hp⟩ | ⟨v, hp, hobj⟩ | ⟨v, hp, hobj, hty⟩
  · exact ⟨message, by simp only [messageListener, if_neg hping, hp]⟩
  · have h1 : (!v.truthy || !v.typeofObject) = true := by rw [validation_object, hobj]; rfl
    exact ⟨"Некорректный формат данных",
      by simp only [messageListener, if_neg hping, hp, h1, if_true]⟩
  · have h1 : (!v.truthy || !v.typeofObject) = false := by rw [validation_object, hobj]; rfl
    rcases hty with hnone | ⟨ty, hsome, hstr⟩
    · exact ⟨"Отсутствует поле type в сообщении",
        by simp [messageListener, if_neg hping, hp, h1, hnone]⟩
    · have h2 : (!ty.truthy || !ty.typeofString) = true := by simp [hstr]
      exact ⟨"Отсутствует поле type в сообщении",
        by simp [messageListener, if_neg hping, hp, h1, hsome, h2]⟩

/-- The lookup `this.listeners[key]` finds what is stored under the key. -/
theorem lookupListener_stored (c : WSClient P) (key : String) (h : Handler)
    (hreg : c.listeners key = some h) :
    lookupListener c key = some (Callable.registered h) := by
  simp [lookupListener, hreg]

/-- With the prototype of `this.listeners` untouched, the lookup of a key that names no
property of `Object.prototype` finds exactly what is stored under the key. -/
theorem lookupListener_plain (c : WSClient P) (key : String)
    (hproto : c.listenersPrototype = none) (hown : objectPrototype key = none) :
    lookupListener c key = (c.listeners key).map Callable.registered := by
  cases h : c.listeners key <;> simp [lookupListener, h, hproto, hown]

/-- The dispatch when a callback is found under the message's type. -/
theorem dispatch_registered (pf : Platform) (c : WSClient P) (t frame : String) (h : Handler)
    (hreg : lookupListener c t = some (Callable.registered h)) :
    dispatch pf c t frame =
      if h.throws = true then
        catchBlock ({ c with effects := c.effects ++
          [Effect.listenerCall h.id t (EventData.message frame)] }) (pf.thrown h.id) frame
      else { c with effects := c.effects ++
          [Effect.listenerCall h.id t (EventData.message frame)] } := by
  cases hth : h.throws <;> simp [dispatch, hreg, callListener, hth]

/-- The dispatch when nothing is found under the type and a callback is found under
`"*"`. -/
theorem dispatch_wildcard (pf : Platform) (c : WSClient P) (t frame : String) (h : Handler)
    (hnone : lookupListener c t = none)
    (hany : lookupListener c "*" = some (Callable.registered h)) :
    dispatch pf c t frame =
      if h.throws = true then
        catchBlock ({ c with effects := c.effects ++
          [Effect.listenerCall h.id "*" (EventData.message frame)] }) (pf.thrown h.id) frame
      else { c with effects := c.effects ++
          [Effect.listenerCall h.id "*" (EventData.message frame)] } := by
  cases hth : h.throws <;> simp [dispatch, hnone, hany, callListener, hth]

/-- The dispatch when nothing is found under the type nor under `"*"`. -/
theorem dispatch_unhandled (pf : Platform) (c : WSClient P) (t frame : String)
    (hnone : lookupListener c t = none) (hany : lookupListener c "*" = none) :
    dispatch pf c t frame = c.emit "unhandled" (EventData.unhandled t frame) := by
  simp [dispatch, hnone, hany]

/-- The dispatch when nothing is stored under the type but an inherited property is found
under it: that property is called; neither the wildcard handler nor the `unhandled` event
is reached. -/
theorem dispatch_inherited (pf : Platform) (c : WSClient P) (t frame : String)
    (thrown : Option Thrown) (hfound : lookupListener c t = some (Callable.inherited thrown)) :
    dispatch pf c t frame =
      match thrown with
      | some error =>
          catchBlock ({ c with effects := c.effects ++ [Effect.inheritedCall t frame] })
            error frame
      | none => { c with effects := c.effects ++ [Effect.inheritedCall t frame] } := by
  cases thrown <;> simp [dispatch, hfound, callListener]

/-- The `unhandled` event calls no message handler and reports no error. -/
theorem emit_unhandled_observed (c : WSClient P) (t frame : String) :
    handlerCalls (c.emit "unhandled" (EventData.unhandled t frame)).effects =
        handlerCalls c.effects ∧
      unhandledEvents (c.emit "unhandled" (EventData.unhandled t frame)).effects =
        unhandledEvents c.effects ++ [(t, frame)] ∧
      parseErrorEvents (c.emit "unhandled" (EventData.unhandled t frame)).effects =
        parseErrorEvents c.effects := by
  unfold emit
  cases lookupListener c "unhandled" with
  | none => simp [handlerCalls, unhandledEvents, parseErrorEvents]
  | some target =>
      cases target <;> simp [handlerCalls, unhandledEvents, parseErrorEvents]

/-- One call of a message handler, observed. -/
theorem handler_call_observed (c : WSClient P) (h : Handler) (key frame : String) :
    handlerCalls (c.effects ++ [Effect.listenerCall h.id key (EventData.message frame)]) =
        handlerCalls c.effects ++ [(h.id, key, frame)] ∧
      unhandledEvents
        (c.effects ++ [Effect.listenerCall h.id key (EventData.message frame)]) =
        unhandledEvents c.effects ∧
      parseErrorEvents
        (c.effects ++ [Effect.listenerCall h.id key (EventData.message frame)]) =
        parseErrorEvents c.effects ∧
      escapedExceptions
        (c.effects ++ [Effect.listenerCall h.id key (EventData.message frame)]) =
        escapedExceptions c.effects := by
  simp [handlerCalls, unhandledEvents, parseErrorEvents, escapedExceptions]

/-- The `parse_error` events a thrown value leads to: one, carrying its message, unless the
value is `null` or `undefined`. -/
theorem catchBlock_parse_errors (c : WSClient P) (error : Thrown) (frame : String) :
    handlerCalls (catchBlock c error frame).effects = handlerCalls c.effects ∧
      unhandledEvents (catchBlock c error frame).effects = unhandledEvents c.effects ∧
      parseErrorEvents (catchBlock c error frame).effects =
        parseErrorEvents c.effects ++
          (match error with
            | Thrown.value message => [(message, frame)]
            | Thrown.nullish => []) := by
  cases error with
  | nullish =>
      obtain ⟨k1, k2, k3, -⟩ := catchBlock_nullish_observed c frame
      exact ⟨k1, k2, by simp [k3]⟩
  | value message =>
      obtain ⟨k1, k2, -, k4, -⟩ := catchBlock_observed c message frame
      exact ⟨k1, k2, k4⟩

/-- One call of a message handler within the try block, with the catch block when it
throws, observed. -/
theorem call_outcome (pf : Platform) (c : WSClient P) (h : Handler) (key frame : String) :
    handlerCalls (if h.throws = true then
          catchBlock ({ c with effects := c.effects ++
            [Effect.listenerCall h.id key (EventData.message frame)] }) (pf.thrown h.id) frame
        else { c with effects := c.effects ++
            [Effect.listenerCall h.id key (EventData.message frame)] }).effects =
        handlerCalls c.effects ++ [(h.id, key, frame)] ∧
      unhandledEvents (if h.throws = true then
          catchBlock ({ c with effects := c.effects ++
            [Effect.listenerCall h.id key (EventData.message frame)] }) (pf.thrown h.id) frame
        else { c with effects := c.effects ++
            [Effect.listenerCall h.id key (EventData.message frame)] }).effects =
        unhandledEvents c.effects ∧
      parseErrorEvents (if h.throws = true then
          catchBlock ({ c with effects := c.effects ++
            [Effect.listenerCall h.id key (EventData.message frame)] }) (pf.thrown h.id) frame
        else { c with effects := c.effects ++
            [Effect.listenerCall h.id key (EventData.message frame)] }).effects =
        parseErrorEvents c.effects ++
          (if h.throws = true then
            (match pf.thrown h.id with
              | Thrown.value message => [(message, frame)]
              | Thrown.nullish => [])
           else []) := by
  obtain ⟨h1, h2, h3, -⟩ := handler_call_observed c h key frame
  by_cases hth : h.throws = true
  · obtain ⟨k1, k2, k4⟩ := catchBlock_parse_errors ({ c with effects := c.effects ++
      [Effect.listenerCall h.id key (EventData.message frame)] }) (pf.thrown h.id) frame
    simp only [if_pos hth]
    exact ⟨k1.trans h1, k2.trans h2, by rw [k4]; exact congrArg (· ++ _) h3⟩
  · simp only [if_neg hth, List.append_nil]
    exact ⟨h1, h2, h3⟩

/-- C13. A frame other than the keepalive ping that fails to parse, or parses to something
that is not a non-null object, or whose type field is missing or not a string, has exactly
this effect: the call `emitError("parse_error", ...)` carrying the failure detail (the
parser's message when parsing failed) and the raw frame. No message handler, exact or
wildcard, is called, no `unhandled` event is emitted, nothing is written to the socket, and
exactly one `parse_error` event is emitted. -/
theorem invalid_frame_reports_parse_error (pf : Platform) (c : WSClient P) (frame : String)
    (hping : frame ≠ "__ping__")
    (hbad : (∃ message, pf.parse frame = Except.error message) ∨
      (∃ v, pf.parse frame = Except.ok v ∧ v.isObject = false) ∨
      (∃ v, pf.parse frame = Except.ok v ∧ v.isObject = true ∧
        (v.typeField = none ∨ ∃ ty, v.typeField = some ty ∧ ty.typeofString = false))) :
    ∃ detail,
      messageListener pf c frame =
        c.emitError "parse_error" (ErrorData.parseError detail frame) ∧
      (∀ message, pf.parse frame = Except.error message → detail = message) ∧
      handlerCalls (messageListener pf c frame).effects = handlerCalls c.effects ∧
      unhandledEvents (messageListener pf c frame).effects = unhandledEvents c.effects ∧
      sentFrames (messageListener pf c frame).effects = sentFrames c.effects ∧
      parseErrorEvents (messageListener pf c frame).effects =
        parseErrorEvents c.effects ++ [(detail, frame)] := by
  have hdetail : ∃ detail,
      messageListener pf c frame = catchBlock c (Thrown.value detail) frame ∧
      ∀ message, pf.parse frame = Except.error message → detail = message := by
    obtain ⟨detail, hd⟩ := messageListener_invalid pf c frame hping hbad
    by_cases hp : ∃ message, pf.parse frame = Except.error message
    · obtain ⟨message, hm⟩ := hp
      refine ⟨message, by simp only [messageListener, if_neg hping, hm], ?_⟩
      intro m' hm'
      rw [hm] at hm'
      exact (Except.error.inj hm').symm ▸ rfl
    · exact ⟨detail, hd, fun m hm => absurd ⟨m, hm⟩ hp⟩
  obtain ⟨detail, hd, huniq⟩ := hdetail
  obtain ⟨k1, k2, k3, k4, -⟩ := catchBlock_observed c detail frame
  rw [hd]
  exact ⟨detail, rfl, huniq, k1, k2, k3, k4⟩

/-- Witness of C13: the frame whose type is the number 7, received by the client with a
wildcard handler. -/
theorem invalid_frame_reports_parse_error_witness :
    ∃ detail,
      messageListener demoPlatform demoWildcard "\x7b\"type\":7\x7d" =
        demoWildcard.emitError "parse_error"
          (ErrorData.parseError detail "\x7b\"type\":7\x7d") ∧
      handlerCalls (messageListener demoPlatform demoWildcard "\x7b\"type\":7\x7d").effects
        = [] := by
  obtain ⟨detail, h1, -, h2, -⟩ :=
    invalid_frame_reports_parse_error demoPlatform demoWildcard "\x7b\"type\":7\x7d"
      (by decide)
      (Or.inr (Or.inr ⟨Json.obj [("type", Json.num 7)], rfl, rfl,
        Or.inr ⟨Json.num 7, rfl, rfl⟩⟩))
  exact ⟨detail, h1, h2⟩

/-- C12, the code at the failing input. The client has only a wildcard handler and
receives a valid message of type `constructor`. Nothing is stored under that key, but
`this.listeners` is an object literal and inherits a property of that name, so line 59
takes the exact-handler branch and calls it: the wildcard handler is not called and no
`unhandled` event is emitted. A message of type `chat` does reach the wildcard handler. -/
theorem inherited_key_bypasses_wildcard :
    demoWildcard.listeners "constructor" = none ∧
      demoWildcard.listeners "*" = some { id := 7, throws := false, properties := functionExpression } ∧
      (messageListener demoPlatform demoWildcard
          "\x7b\"type\":\"constructor\"\x7d").effects =
        demoWildcard.effects ++
          [Effect.inheritedCall "constructor" "\x7b\"type\":\"constructor\"\x7d"] ∧
      handlerCalls (messageListener demoPlatform demoWildcard
          "\x7b\"type\":\"constructor\"\x7d").effects = [] ∧
      unhandledEvents (messageListener demoPlatform demoWildcard
          "\x7b\"type\":\"constructor\"\x7d").effects = [] ∧
      handlerCalls (messageListener demoPlatform demoWildcard
          "\x7b\"type\":\"chat\"\x7d").effects =
        [(7, "*", "\x7b\"type\":\"chat\"\x7d")] := by
  decide

/-- C14, the counterexample: the frame parses to a non-null object whose type field is the
empty string, a string; it is not dispatched (no handler call, no `unhandled` event) and a
`parse_error` event is emitted for it. -/
theorem empty_type_is_rejected :
    demoPlatform.parse "\x7b\"type\":\"\"\x7d" =
        Except.ok (Json.obj [("type", Json.str "")]) ∧
      (Json.obj [("type", Json.str "")]).isObject = true ∧
      (Json.obj [("type", Json.str "")]).typeField = some (Json.str "") ∧
      (Json.str "").typeofString = true ∧
      handlerCalls (messageListener demoPlatform demoWildcard
        "\x7b\"type\":\"\"\x7d").effects = [] ∧
      unhandledEvents (messageListener demoPlatform demoWildcard
        "\x7b\"type\":\"\"\x7d").effects = [] ∧
      parseErrorEvents (messageListener demoPlatform demoWildcard
        "\x7b\"type\":\"\"\x7d").effects =
        [("Отсутствует поле type в сообщении", "\x7b\"type\":\"\"\x7d")] := by
  refine ⟨rfl, rfl, rfl, rfl, ?_, ?_, ?_⟩ <;> decide

/-- After `on('__proto__', callback)` the callback is the prototype of `this.listeners`:
a valid message of type `call` finds the property `call` every function inherits, the call
throws, and the message gets a `parse_error` event instead of reaching the wildcard
handler; a message of type `__proto__` is delivered to the callback. -/
theorem prototype_replaced_by_on :
    demoPrototype.listenersPrototype =
        some { id := 9, throws := false, properties := functionExpression } ∧
      demoPrototype.listeners "__proto__" = none ∧
      handlerCalls (messageListener demoPlatform demoPrototype
        "\x7b\"type\":\"call\"\x7d").effects = [] ∧
      parseErrorEvents (messageListener demoPlatform demoPrototype
        "\x7b\"type\":\"call\"\x7d").effects =
        [("this.listeners[data.type] is not a function", "\x7b\"type\":\"call\"\x7d")] ∧
      lookupListener demoPrototype "__proto__" =
        some (Callable.registered { id := 9, throws := false, properties := functionExpression }) := by
  decide

/-- C14, as amended. The prototype of `this.listeners` being untouched (no call
`on('__proto__', ...)` has replaced it), a frame other than the keepalive ping that parses
to a non-null object whose type field is a non-empty string, not the name of a property
inherited from `Object.prototype`, passes validation and is handed to dispatch: the handler
stored under the type is called, once, with the message; else the wildcard handler is; else
the `unhandled` event is emitted. No `parse_error` event is emitted for it, unless the
handler called throws (then there is one if the thrown value has a message to read). -/
theorem valid_frame_is_dispatched (pf : Platform) (c : WSClient P) (frame t : String)
    (v : Json) (hping : frame ≠ "__ping__") (hparse : pf.parse frame = Except.ok v)
    (hobj : v.isObject = true) (htype : v.typeField = some (Json.str t)) (ht : t ≠ "")
    (hown : objectPrototype t = none) (hproto : c.listenersPrototype = none) :
    match c.listeners t, c.listeners "*" with
    | some h, _ =>
        handlerCalls (messageListener pf c frame).effects =
            handlerCalls c.effects ++ [(h.id, t, frame)] ∧
          unhandledEvents (messageListener pf c frame).effects = unhandledEvents c.effects ∧
          parseErrorEvents (messageListener pf c frame).effects =
            parseErrorEvents c.effects ++
              (if h.throws = true then
                (match pf.thrown h.id with
                  | Thrown.value message => [(message, frame)]
                  | Thrown.nullish => [])
               else [])
    | none, some h =>
        handlerCalls (messageListener pf c frame).effects =
            handlerCalls c.effects ++ [(h.id, "*", frame)] ∧
          unhandledEvents (messageListener pf c frame).effects = unhandledEvents c.effects ∧
          parseErrorEvents (messageListener pf c frame).effects =
            parseErrorEvents c.effects ++
              (if h.throws = true then
                (match pf.thrown h.id with
                  | Thrown.value message => [(message, frame)]
                  | Thrown.nullish => [])
               else [])
    | none, none =>
        handlerCalls (messageListener pf c frame).effects = handlerCalls c.effects ∧
          unhandledEvents (messageListener pf c frame).effects =
            unhandledEvents c.effects ++ [(t, frame)] ∧
          parseErrorEvents (messageListener pf c frame).effects = parseErrorEvents c.effects := by
  rw [messageListener_valid pf c frame t v hping hparse hobj htype ht]
  have hstar : objectPrototype "*" = none := by decide
  have lt := lookupListener_plain c t hproto hown
  have ls := lookupListener_plain c "*" hproto hstar
  cases hreg : c.listeners t with
  | some h =>
      simp only
      rw [hreg] at lt
      rw [dispatch_registered pf c t frame h lt]
      exact call_outcome pf c h t frame
  | none =>
      rw [hreg] at lt
      cases hany : c.listeners "*" with
      | some h =>
          simp only
          rw [hany] at ls
          rw [dispatch_wildcard pf c t frame h lt ls]
          exact call_outcome pf c h "*" frame
      | none =>
          simp only
          rw [hany] at ls
          rw [dispatch_unhandled pf c t frame lt ls]
          exact emit_unhandled_observed c t frame

/-- Witness of C14 as amended: a message of type `chat` reaches the wildcard handler of the
client, and no `parse_error` event is emitted. -/
theorem valid_frame_is_dispatched_witness :
    handlerCalls (messageListener demoPlatform demoWildcard
        "\x7b\"type\":\"chat\"\x7d").effects =
        handlerCalls demoWildcard.effects ++ [(7, "*", "\x7b\"type\":\"chat\"\x7d")] ∧
      parseErrorEvents (messageListener demoPlatform demoWildcard
        "\x7b\"type\":\"chat\"\x7d").effects = parseErrorEvents demoWildcard.effects := by
  have h := valid_frame_is_dispatched demoPlatform demoWildcard
    "\x7b\"type\":\"chat\"\x7d" "chat" (Json.obj [("type", Json.str "chat")])
    (by decide) rfl rfl rfl (by decide) (by decide) rfl
  exact ⟨h.1, by simpa using h.2.2⟩

/-- C19, the counterexample: the handler for `chat` (callback 4) throws `null`. The catch
block reads `error.message` (line 72), which throws a `TypeError`: the handler has been
called, no `parse_error` event is emitted, and the exception leaves the listener. -/
theorem handler_throwing_null_escapes :
    demoThrowingNull.listeners "chat" =
        some { id := 4, throws := true, properties := functionExpression } ∧
      demoPlatform.thrown 4 = Thrown.nullish ∧
      handlerCalls (messageListener demoPlatform demoThrowingNull
        "\x7b\"type\":\"chat\"\x7d").effects = [(4, "chat", "\x7b\"type\":\"chat\"\x7d")] ∧
      parseErrorEvents (messageListener demoPlatform demoThrowingNull
        "\x7b\"type\":\"chat\"\x7d").effects = [] ∧
      escapedExceptions (messageListener demoPlatform demoThrowingNull
        "\x7b\"type\":\"chat\"\x7d").effects =
        ["Cannot read properties of null (reading 'message')"] := by
  decide

/-- C19, as amended. For a valid inbound message (a non-null object with a non-empty string
type) whose selected handler (the one found under the type, or the wildcard handler when
lines 59-61 reach it) throws a value other than `null` and `undefined`, the listener
returns normally: the handler is called once, the thrown value is caught, no exception
leaves the listener, and exactly one `parse_error` event is emitted, carrying the message
of the thrown value and the raw frame, although the frame parsed and passed validation. -/
theorem throwing_handler_reports_parse_error (pf : Platform) (c : WSClient P)
    (frame t : String) (v : Json) (h : Handler) (key message : String)
    (hping : frame ≠ "__ping__") (hparse : pf.parse frame = Except.ok v)
    (hobj : v.isObject = true) (htype : v.typeField = some (Json.str t)) (ht : t ≠ "")
    (hsel : (key = t ∧ lookupListener c t = some (Callable.registered h)) ∨
      (key = "*" ∧ lookupListener c t = none ∧
        lookupListener c "*" = some (Callable.registered h)))
    (hthrows : h.throws = true) (hvalue : pf.thrown h.id = Thrown.value message) :
    messageListener pf c frame =
        ({ c with effects := c.effects ++
            [Effect.listenerCall h.id key (EventData.message frame)] } : WSClient P).emitError
          "parse_error" (ErrorData.parseError message frame) ∧
      handlerCalls (messageListener pf c frame).effects =
        handlerCalls c.effects ++ [(h.id, key, frame)] ∧
      parseErrorEvents (messageListener pf c frame).effects =
        parseErrorEvents c.effects ++ [(message, frame)] ∧
      escapedExceptions (messageListener pf c frame).effects = escapedExceptions c.effects := by
  have hd : messageListener pf c frame =
      catchBlock ({ c with effects := c.effects ++
        [Effect.listenerCall h.id key (EventData.message frame)] })
        (Thrown.value message) frame := by
    rw [messageListener_valid pf c frame t v hping hparse hobj htype ht, ← hvalue]
    rcases hsel with ⟨hk, hreg⟩ | ⟨hk, hnone, hany⟩
    · rw [hk, dispatch_registered pf c t frame h hreg, if_pos hthrows]
    · rw [hk, dispatch_wildcard pf c t frame h hnone hany, if_pos hthrows]
  obtain ⟨k1, -, -, k4, k5⟩ := catchBlock_observed ({ c with effects := c.effects ++
    [Effect.listenerCall h.id key (EventData.message frame)] }) message frame
  obtain ⟨h1, -, h3, h4⟩ := handler_call_observed c h key frame
  rw [hd]
  exact ⟨rfl, k1.trans h1, by rw [k4]; exact congrArg (· ++ _) h3, k5.trans h4⟩

/-- Witness of C19 as amended: the handler for `chat` (callback 3) throws an error with the
message `"handler failed"`. -/
theorem throwing_handler_reports_parse_error_witness :
    handlerCalls (messageListener demoPlatform demoThrowing
        "\x7b\"type\":\"chat\"\x7d").effects =
        handlerCalls demoThrowing.effects ++ [(3, "chat", "\x7b\"type\":\"chat\"\x7d")] ∧
      parseErrorEvents (messageListener demoPlatform demoThrowing
        "\x7b\"type\":\"chat\"\x7d").effects =
        parseErrorEvents demoThrowing.effects ++
          [("handler failed", "\x7b\"type\":\"chat\"\x7d")] ∧
      escapedExceptions (messageListener demoPlatform demoThrowing
        "\x7b\"type\":\"chat\"\x7d").effects = escapedExceptions demoThrowing.effects :=
  (throwing_handler_reports_parse_error demoPlatform demoThrowing
    "\x7b\"type\":\"chat\"\x7d" "chat" (Json.obj [("type", Json.str "chat")])
    { id := 3, throws := true, properties := functionExpression } "chat" "handler failed"
    (by decide) rfl rfl rfl (by decide) (Or.inl ⟨rfl, rfl⟩) rfl rfl).2

/-- C15, the failing run: the client's socket opens, the application calls `connect()`, and
the first socket, still open, delivers `__ping__`. The listener writes to `this.ws`, which
is now the second socket and still CONNECTING: `ws.send` throws, no `__pong__` is written to
any socket, and a `parse_error` event is emitted for the keepalive frame. -/
theorem ping_unanswered_after_connect :
    (runEvents demoEnv demoPlatform demoClient
        [Event.action Action.socketOpen, Event.action Action.connect]).ws =
        some { url := "ws://localhost:3000", readyState := ReadyState.CONNECTING } ∧
      sentFrames (runEvents demoEnv demoPlatform demoClient
        [Event.action Action.socketOpen, Event.action Action.connect,
         Event.socketMessage "__ping__"]).effects = [] ∧
      parseErrorEvents (runEvents demoEnv demoPlatform demoClient
        [Event.action Action.socketOpen, Event.action Action.connect,
         Event.socketMessage "__ping__"]).effects = [("InvalidStateError", "__ping__")] := by
  decide

/-- When the inbound frame is exactly `__ping__` and the socket in `this.ws` is open (and
its `send` returns), the only effect is that one frame, `__pong__`, written to the socket:
no message handler is called, no `unhandled` event and no `parse_error` event is emitted. -/
theorem ping_is_answered_with_pong (pf : Platform) (c : WSClient P)
    (hopen : c.isConnected = true) (haccept : ∀ message, c.faults.head? ≠ some (some message)) :
    (messageListener pf c "__ping__").effects = c.effects ++ [Effect.wsSend "__pong__"] ∧
      sentFrames (messageListener pf c "__ping__").effects =
        sentFrames c.effects ++ ["__pong__"] ∧
      handlerCalls (messageListener pf c "__ping__").effects = handlerCalls c.effects ∧
      unhandledEvents (messageListener pf c "__ping__").effects = unhandledEvents c.effects ∧
      parseErrorEvents (messageListener pf c "__ping__").effects =
        parseErrorEvents c.effects := by
  have heff : (messageListener pf c "__ping__").effects =
      c.effects ++ [Effect.wsSend "__pong__"] := by
    simp only [messageListener, if_true, socketSend_connected c _ hopen]
    cases hf : c.faults with
    | nil => rfl
    | cons x rest =>
        cases x with
        | none => rfl
        | some message => exact absurd (by simp [hf]) (haccept message)
  rw [heff]
  refine ⟨rfl, ?_, ?_, ?_, ?_⟩ <;>
    simp [sentFrames, handlerCalls, unhandledEvents, parseErrorEvents]

/-- The open client answers the ping. -/
theorem ping_is_answered_with_pong_open :
    demoWildcard.isConnected = true ∧
      sentFrames (messageListener demoPlatform demoWildcard "__ping__").effects =
        sentFrames demoWildcard.effects ++ ["__pong__"] :=
  ⟨rfl, (ping_is_answered_with_pong demoPlatform demoWildcard rfl
    (fun _ h => by cases h)).2.1⟩

/-- None of the keys the class itself looks up in `this.listeners` and
`this.errorListeners` is inherited from `Object.prototype`: `emit` and `emitError` find
exactly what was stored. -/
theorem own_keys_not_inherited :
    objectPrototype "open" = none ∧ objectPrototype "close" = none ∧
      objectPrototype "unhandled" = none ∧ objectPrototype "*" = none ∧
      objectPrototype "connect_error" = none ∧ objectPrototype "parse_error" = none ∧
      objectPrototype "ws_error" = none ∧ objectPrototype "ws_close" = none ∧
      objectPrototype "send_error" = none ∧
      objectPrototype "max_reconnect_attempts" = none := by
  decide

end Inbound

section Timer

/-- A connection attempt always leaves a trace: a new socket or a `connect_error` event. -/
theorem connect_effects_ne (env : Env P) (c : WSClient P) :
    (connect env c).effects ≠ c.effects := by
  unfold connect
  split
  · intro h
    have := congrArg List.length h
    simp at this
  · rw [emitError_eq]
    intro h
    have := congrArg List.length h
    simp at this

/-- C11, the code at the failing input. A fresh client's socket closes abnormally (code
1006): one reconnect timer is started. `close()` is then called: auto-reconnect is switched
off, the keepalive timer is cleared, but nothing cancels the reconnect timer. When it fires,
the socket is CLOSED, so its callback calls `connect()`: a second socket is created after
the `close()`. -/
theorem reconnect_timer_survives_close :
    (timerDelays (run demoEnv demoClient [Action.socketClose 1006 ""]).effects).length = 1 ∧
      (run demoEnv demoClient
        [Action.socketClose 1006 "", Action.close 1000 ""]).autoReconnect = false ∧
      connectAttempts (run demoEnv demoClient
        [Action.socketClose 1006 "", Action.close 1000 ""]).effects =
        ["ws://localhost:3000"] ∧
      connectAttempts (run demoEnv demoClient
        [Action.socketClose 1006 "", Action.close 1000 "", Action.reconnectTimer]).effects =
        ["ws://localhost:3000", "ws://localhost:3000"] ∧
      (run demoEnv demoClient
        [Action.socketClose 1006 "", Action.close 1000 "", Action.reconnectTimer]).ws =
        some { url := "ws://localhost:3000", readyState := ReadyState.CONNECTING } := by
  decide

/-- C17, the counterexample: the socket of a fresh client is CONNECTING, so the connection
is not open; when the reconnect timer fires, nothing happens, no connection attempt is
made. The same holds for a socket that is CLOSING. -/
theorem reconnect_timer_idle_while_connecting :
    demoClient.ws = some { url := "ws://localhost:3000", readyState := ReadyState.CONNECTING } ∧
      demoClient.isConnected = false ∧
      (reconnectTimerCallback demoEnv demoClient).effects = demoClient.effects ∧
      (demoClient.setReadyState ReadyState.CLOSING).isConnected = false ∧
      (reconnectTimerCallback demoEnv (demoClient.setReadyState ReadyState.CLOSING)).effects =
        (demoClient.setReadyState ReadyState.CLOSING).effects := by
  decide

/-- C17, amended. When the reconnect timer fires, a connection attempt (`connect()`) is made
if and only if the socket is absent or CLOSED; for a socket that is CONNECTING, OPEN or
CLOSING the callback does nothing. -/
theorem reconnect_timer_connects_iff (env : Env P) (c : WSClient P) :
    reconnectTimerCallback env c =
        (if c.ws = none ∨ c.ws.map (fun w => w.readyState) = some ReadyState.CLOSED
          then connect env c else c) ∧
      ((reconnectTimerCallback env c).effects ≠ c.effects ↔
        (c.ws = none ∨ c.ws.map (fun w => w.readyState) = some ReadyState.CLOSED)) := by
  have heq : reconnectTimerCallback env c =
      (if c.ws = none ∨ c.ws.map (fun w => w.readyState) = some ReadyState.CLOSED
        then connect env c else c) := by
    unfold reconnectTimerCallback
    cases hw : c.ws with
    | none => simp [isConnected, hw]
    | some w =>
        cases hr : w.readyState <;> simp [isConnected, hw, hr]
  refine ⟨heq, ?_⟩
  rw [heq]
  by_cases hc : c.ws = none ∨ c.ws.map (fun w => w.readyState) = some ReadyState.CLOSED
  · rw [if_pos hc]
    exact ⟨fun _ => hc, fun _ => connect_effects_ne env c⟩
  · rw [if_neg hc]
    exact ⟨fun h => absurd rfl h, fun h => absurd h hc⟩

end Timer

section ErrorEvents

/-- A series of `onError` calls appends, under each category, the callbacks registered for
it, in order; it has no effect on the outside world. -/
theorem registerErrors_listeners (registrations : List (String × Handler)) :
    ∀ (c : WSClient P) (k : String),
      (registerErrors c registrations).errorListeners k =
          c.errorListeners k ++ registeredFor registrations k ∧
        (registerErrors c registrations).effects = c.effects := by
  induction registrations with
  | nil => intro c k; simp [registerErrors, registeredFor]
  | cons r rest ih =>
      intro c k
      have hstep : registerErrors c (r :: rest) = registerErrors (c.onError r.1 r.2) rest := rfl
      rw [hstep]
      obtain ⟨h1, h2⟩ := ih (c.onError r.1 r.2) k
      refine ⟨?_, by rw [h2]; rfl⟩
      rw [h1]
      by_cases hk : r.1 = k
      · subst hk
        simp [onError, registeredFor, List.filter_cons]
      · have hk' : ¬ k = r.1 := fun h => hk h.symm
        simp [onError, registeredFor, List.filter_cons, hk, hk']

/-- C16. For every error category `t` and every registry of error callbacks (whatever was
registered before, followed by any series of `onError` calls), `emitError(t, data)` returns
normally, changing nothing but the record of effects, and calls every callback registered
for `t`, in registration order, then every callback registered for `"*"`, in registration
order, each once; whether a callback throws plays no part, the later ones are called all
the same. -/
theorem emitError_calls_every_registered (c : WSClient P)
    (registrations : List (String × Handler)) (t : String) (d : ErrorData P) :
    (registerErrors c registrations).emitError t d =
        { registerErrors c registrations with
          effects := c.effects ++ (Effect.emitError t d ::
            List.map (fun h => Effect.errorListenerCall h.id t d)
              ((c.errorListeners t ++ registeredFor registrations t) ++
                (c.errorListeners "*" ++ registeredFor registrations "*"))) } ∧
      errorListenerCalls ((registerErrors c registrations).emitError t d).effects =
        errorListenerCalls c.effects ++
          List.map (fun h => (h.id, t))
            ((c.errorListeners t ++ registeredFor registrations t) ++
              (c.errorListeners "*" ++ registeredFor registrations "*")) := by
  obtain ⟨h1, h2⟩ := registerErrors_listeners registrations c t
  obtain ⟨h3, -⟩ := registerErrors_listeners registrations c "*"
  have heq := emitError_eq (registerErrors c registrations) t d
  rw [h1, h3, h2] at heq
  refine ⟨heq, ?_⟩
  rw [heq]
  have hfm : ∀ l : List Handler,
      List.filterMap (fun x : Handler => some (x.id, t)) l =
        List.map (fun h => (h.id, t)) l := by
    intro l
    induction l with
    | nil => rfl
    | cons x rest ih => simp [List.filterMap_cons, ih]
  simp [errorListenerCalls, List.filterMap_map, Function.comp_def, List.filterMap_append, hfm]

end ErrorEvents

section ExplicitReconnect

/-- What `connect` leaves alone. -/
theorem connect_fields (env : Env P) (c : WSClient P) :
    (connect env c).autoReconnect = c.autoReconnect ∧
      (connect env c).pingInterval = c.pingInterval ∧
      (connect env c).reconnectAttempts = c.reconnectAttempts ∧
      (connect env c).maxReconnectAttempts = c.maxReconnectAttempts ∧
      (connect env c).messageQueue = c.messageQueue ∧
      (connect env c).url = c.url ∧
      ∃ e, (connect env c).effects = c.effects ++ e := by
  unfold connect
  split
  · exact ⟨rfl, rfl, rfl, rfl, rfl, rfl, _, rfl⟩
  · rw [emitError_eq]
    exact ⟨rfl, rfl, rfl, rfl, rfl, rfl, _, rfl⟩

/-- With auto-reconnect off, the socket's close event starts no reconnect timer. -/
theorem closeListener_without_autoReconnect (c : WSClient P) (code : Nat) (reason : String)
    (hoff : c.autoReconnect = false) :
    timerDelays (c.closeListener code reason).effects = timerDelays c.effects ∧
      (c.closeListener code reason).reconnectAttempts = c.reconnectAttempts := by
  obtain ⟨e, ht, -, -, -, h⟩ := closeListener_eq c code reason
  rw [h, hoff]
  simp only [Bool.false_and, Bool.false_eq_true, if_false]
  refine ⟨?_, trivial⟩
  rw [timerDelays_append, ht, List.append_nil]

/-- C20. In every state and configuration, after an explicit `reconnect(url)` the client
has `autoReconnect = false` and no keepalive timer (`pingInterval` is cleared, and the timer
it named has been stopped with `clearInterval`), so a later close event of the new
connection, whatever its code, starts no reconnect timer and leaves the attempt counter
alone. `reconnect` also leaves `reconnectAttempts = 0`, the queue empty, and `url` equal to
the given url (to the previous url when none, or an empty one, is given). -/
theorem reconnect_switches_auto_reconnect_off (env : Env P) (c : WSClient P)
    (url : Option String) (code : Nat) (reason : String) :
    (reconnect env c url).autoReconnect = false ∧
      (reconnect env c url).pingInterval = none ∧
      (∀ t, c.pingInterval = some t → Effect.clearInterval t ∈ (reconnect env c url).effects) ∧
      timerDelays (step env (reconnect env c url) (Action.socketClose code reason)).effects =
        timerDelays (reconnect env c url).effects ∧
      (step env (reconnect env c url) (Action.socketClose code reason)).reconnectAttempts = 0 ∧
      (reconnect env c url).reconnectAttempts = 0 ∧
      (reconnect env c url).messageQueue = [] ∧
      (reconnect env c url).url =
        (match url with
          | some given => if given = "" then c.url else given
          | none => c.url) := by
  obtain ⟨e, hclose, -⟩ := close_shape c 1000 "Reconnecting" (Or.inr closeArguments_own.1)
  obtain ⟨h1, h2, h3, -, h5, h6, e2, h7⟩ := connect_fields env
    ({ ({ c.close 1000 "Reconnecting" with
          url := if url.getD c.url = "" then (c.close 1000 "Reconnecting").url
                 else url.getD c.url } : WSClient P) with reconnectAttempts := 0 })
  have hauto : (reconnect env c url).autoReconnect = false := by
    show (connect env _).autoReconnect = false
    rw [h1, hclose]
  have hattempts : (reconnect env c url).reconnectAttempts = 0 := by
    show (connect env _).reconnectAttempts = 0
    rw [h3]
  have hstep := closeListener_without_autoReconnect
    ((reconnect env c url).setReadyState ReadyState.CLOSED) code reason hauto
  refine ⟨hauto, ?_, ?_, hstep.1, ?_, hattempts, ?_, ?_⟩
  · show (connect env _).pingInterval = none
    rw [h2, hclose]
  · intro t ht
    show Effect.clearInterval t ∈ (connect env _).effects
    rw [h7]
    apply List.mem_append_left
    show Effect.clearInterval t ∈ (c.close 1000 "Reconnecting").effects
    simp [close, stopPing, ht, closeArguments_own.1]
    cases c.ws <;> simp
  · show (((reconnect env c url).setReadyState ReadyState.CLOSED).closeListener code
      reason).reconnectAttempts = 0
    rw [hstep.2]
    exact hattempts
  · show (connect env _).messageQueue = []
    rw [h5, hclose]
  · show (connect env _).url = _
    rw [h6, hclose]
    cases url with
    | none =>
        by_cases hu : c.url = ""
        · simp [hu]
        · simp [hu]
    | some given => simp

end ExplicitReconnect

section Counter

/-- What `scheduleReconnect` does to the counter. -/
theorem scheduleReconnect_counter (c : WSClient P) :
    c.scheduleReconnect.maxReconnectAttempts = c.maxReconnectAttempts ∧
      c.scheduleReconnect.autoReconnect = c.autoReconnect ∧
      c.scheduleReconnect.reconnectAttempts =
        (if (c.reconnectAttempts : ℚ) < c.maxReconnectAttempts
          then c.reconnectAttempts + 1 else c.reconnectAttempts) := by
  by_cases h : (c.reconnectAttempts : ℚ) < c.maxReconnectAttempts
  · rw [scheduleReconnect_below c h, if_pos h]
    exact ⟨rfl, rfl, rfl⟩
  · rw [scheduleReconnect_at_max c (not_lt.mp h), if_neg h, emitError_eq]
    exact ⟨rfl, rfl, rfl⟩

/-- What the socket's close event does to the counter. -/
theorem closeListener_counter (c : WSClient P) (code : Nat) (reason : String) :
    (c.closeListener code reason).maxReconnectAttempts = c.maxReconnectAttempts ∧
      (c.closeListener code reason).autoReconnect = c.autoReconnect ∧
      (c.closeListener code reason).reconnectAttempts =
        (if (c.autoReconnect && shouldReconnect code) = true ∧
            (c.reconnectAttempts : ℚ) < c.maxReconnectAttempts
          then c.reconnectAttempts + 1 else c.reconnectAttempts) := by
  obtain ⟨e, -, -, -, -, h⟩ := closeListener_eq c code reason
  rw [h]
  by_cases hs : (c.autoReconnect && shouldReconnect code) = true
  · rw [if_pos hs]
    obtain ⟨h1, h2, h3⟩ :=
      scheduleReconnect_counter ({ c with effects := c.effects ++ e } : WSClient P)
    refine ⟨h1, h2, ?_⟩
    rw [h3]
    by_cases hlt : (c.reconnectAttempts : ℚ) < c.maxReconnectAttempts
    · rw [if_pos hlt, if_pos ⟨hs, hlt⟩]
    · rw [if_neg hlt, if_neg (fun h => hlt h.2)]
  · rw [if_neg hs, if_neg (fun h => hs h.1)]
    exact ⟨rfl, rfl, rfl⟩

/-- The counter after an abnormal close event on a client with auto-reconnect on and the
counter below the maximum. -/
theorem socketClose_increments (env : Env P) (c : WSClient P) (code : Nat) (reason : String)
    (hauto : c.autoReconnect = true) (hcode : shouldReconnect code = true)
    (hlt : (c.reconnectAttempts : ℚ) < c.maxReconnectAttempts) :
    (step env c (Action.socketClose code reason)).maxReconnectAttempts =
        c.maxReconnectAttempts ∧
      (step env c (Action.socketClose code reason)).autoReconnect = true ∧
      (step env c (Action.socketClose code reason)).reconnectAttempts =
        c.reconnectAttempts + 1 := by
  obtain ⟨h1, h2, h3⟩ := closeListener_counter (c.setReadyState ReadyState.CLOSED) code reason
  have hcond : ((c.setReadyState ReadyState.CLOSED).autoReconnect && shouldReconnect code) = true ∧
      ((c.setReadyState ReadyState.CLOSED).reconnectAttempts : ℚ) <
        (c.setReadyState ReadyState.CLOSED).maxReconnectAttempts := by
    refine ⟨?_, hlt⟩
    show (c.autoReconnect && shouldReconnect code) = true
    rw [hauto, hcode]
    rfl
  rw [if_pos hcond] at h3
  exact ⟨h1, h2.trans hauto, h3⟩

/-- The catch block leaves the counter and the maximum alone. -/
theorem catchBlock_counter (c : WSClient P) (error : Thrown) (frame : String) :
    (catchBlock c error frame).reconnectAttempts = c.reconnectAttempts ∧
      (catchBlock c error frame).maxReconnectAttempts = c.maxReconnectAttempts := by
  cases error <;> exact ⟨rfl, rfl⟩

/-- The dispatch leaves the counter and the maximum alone. -/
theorem dispatch_counter (pf : Platform) (c : WSClient P) (t frame : String) :
    (dispatch pf c t frame).reconnectAttempts = c.reconnectAttempts ∧
      (dispatch pf c t frame).maxReconnectAttempts = c.maxReconnectAttempts := by
  have hcall : ∀ (key : String) (target : Callable),
      (match (callListener pf c key frame target).2 with
        | some message => catchBlock (callListener pf c key frame target).1 message frame
        | none => (callListener pf c key frame target).1).reconnectAttempts =
          c.reconnectAttempts ∧
      (match (callListener pf c key frame target).2 with
        | some message => catchBlock (callListener pf c key frame target).1 message frame
        | none => (callListener pf c key frame target).1).maxReconnectAttempts =
          c.maxReconnectAttempts := by
    intro key target
    cases target with
    | registered h =>
        cases hth : h.throws
        · simp [callListener, hth]
        · simp only [callListener, hth, if_true]
          exact catchBlock_counter _ _ _
    | inherited thrown =>
        cases thrown with
        | none => simp [callListener]
        | some error =>
            simp only [callListener]
            exact catchBlock_counter _ _ _
  unfold dispatch
  cases lookupListener c t with
  | some target => exact hcall t target
  | none =>
      cases lookupListener c "*" with
      | some target => exact hcall "*" target
      | none =>
          obtain ⟨e, he, -⟩ := emit_shape c "unhandled" (EventData.unhandled t frame)
          rw [he]
          exact ⟨rfl, rfl⟩

/-- The listener of the socket's `message` event leaves the counter and the maximum
alone. -/
theorem messageListener_counter (pf : Platform) (c : WSClient P) (frame : String) :
    (messageListener pf c frame).reconnectAttempts = c.reconnectAttempts ∧
      (messageListener pf c frame).maxReconnectAttempts = c.maxReconnectAttempts := by
  unfold messageListener
  split
  · cases h : c.socketSend "__pong__" with
    | ok c1 =>
        obtain ⟨f, e, h1, -⟩ := socketSend_ok_shape c c1 _ h
        rw [h1]
        exact ⟨rfl, rfl⟩
    | error message =>
        obtain ⟨f, hf⟩ := socketSendThrew_shape c
        simp only [hf]
        exact catchBlock_counter _ _ _
  · cases pf.parse frame with
    | error message => exact ⟨rfl, rfl⟩
    | ok data =>
        simp only
        split
        · exact ⟨rfl, rfl⟩
        · cases data.typeField with
          | none => exact ⟨rfl, rfl⟩
          | some ty =>
              simp only
              split
              · exact ⟨rfl, rfl⟩
              · cases ty with
                | str t => exact dispatch_counter pf c t frame
                | null => exact ⟨rfl, rfl⟩
                | bool b => exact ⟨rfl, rfl⟩
                | num n => exact ⟨rfl, rfl⟩
                | arr items => exact ⟨rfl, rfl⟩
                | obj fields => exact ⟨rfl, rfl⟩

/-- How one action changes the counter: not at all; or by exactly 1, below the maximum, and
only when the action runs `scheduleReconnect` (a direct call, or the socket's close event);
or back to 0, and only for the socket's open event and an explicit `reconnect()`. The
maximum never changes. -/
theorem step_counter (env : Env P) (c : WSClient P) (a : Action P) :
    (step env c a).maxReconnectAttempts = c.maxReconnectAttempts ∧
      ((step env c a).reconnectAttempts = c.reconnectAttempts ∨
        ((step env c a).reconnectAttempts = c.reconnectAttempts + 1 ∧
          (c.reconnectAttempts : ℚ) < c.maxReconnectAttempts ∧
          (a = Action.scheduleReconnect ∨ ∃ code reason, a = Action.socketClose code reason)) ∨
        ((step env c a).reconnectAttempts = 0 ∧
          (a = Action.socketOpen ∨ ∃ url, a = Action.reconnect url))) := by
  have hq : ∀ c' : WSClient P, Quiet c c' →
      c'.maxReconnectAttempts = c.maxReconnectAttempts ∧
        (c'.reconnectAttempts = c.reconnectAttempts ∨
          (c'.reconnectAttempts = c.reconnectAttempts + 1 ∧
            (c.reconnectAttempts : ℚ) < c.maxReconnectAttempts ∧
            (a = Action.scheduleReconnect ∨
              ∃ code reason, a = Action.socketClose code reason)) ∨
          (c'.reconnectAttempts = 0 ∧
            (a = Action.socketOpen ∨ ∃ url, a = Action.reconnect url))) :=
    fun c' h => ⟨h.2.1, Or.inl h.2.2.1⟩
  cases a with
  | send data => exact hq _ (send_quiet env c data)
  | sendImmediately data => exact hq _ (sendImmediately_quiet env c data)
  | flushMessageQueue => exact hq _ (flushMessageQueue_quiet env c)
  | clearQueue => exact hq _ ⟨rfl, rfl, rfl, rfl⟩
  | close code reason => exact hq _ (close_quiet c code reason)
  | reconnect url =>
      obtain ⟨-, -, h3, h4, -⟩ := connect_fields env
        ({ ({ c.close 1000 "Reconnecting" with
              url := if url.getD c.url = "" then (c.close 1000 "Reconnecting").url
                     else url.getD c.url } : WSClient P) with reconnectAttempts := 0 })
      refine ⟨?_, Or.inr (Or.inr ⟨?_, Or.inr ⟨url, rfl⟩⟩)⟩
      · show (connect env _).maxReconnectAttempts = _
        rw [h4]
        exact (close_quiet c 1000 "Reconnecting").2.1
      · show (connect env _).reconnectAttempts = 0
        rw [h3]
  | destroy =>
      have h := close_quiet c 1000 ""
      exact hq _ ⟨h.1, h.2.1, h.2.2.1, h.2.2.2⟩
  | connect => exact hq _ (connect_quiet env c)
  | scheduleReconnect =>
      obtain ⟨h1, -, h3⟩ := scheduleReconnect_counter c
      refine ⟨h1, ?_⟩
      by_cases hlt : (c.reconnectAttempts : ℚ) < c.maxReconnectAttempts
      · rw [if_pos hlt] at h3
        exact Or.inr (Or.inl ⟨h3, hlt, Or.inl rfl⟩)
      · rw [if_neg hlt] at h3
        exact Or.inl h3
  | startPing interval => exact hq _ ⟨rfl, rfl, rfl, by simp [step, startPing, timerDelays]⟩
  | stopPing =>
      refine ⟨?_, Or.inl ?_⟩ <;>
        · simp only [step, stopPing]
          split <;> rfl
  | onType type callback =>
      apply hq
      show Quiet c (c.onType type callback)
      unfold onType
      split <;> exact ⟨rfl, rfl, rfl, rfl⟩
  | onAny callback => exact hq _ ⟨rfl, rfl, rfl, rfl⟩
  | onError type callback => exact hq _ ⟨rfl, rfl, rfl, rfl⟩
  | socketOpen =>
      have h1 := flushMessageQueue_quiet env
        (({ c.setReadyState ReadyState.OPEN with reconnectAttempts := 0 } : WSClient P).emit
          "open" EventData.opened)
      obtain ⟨e, he, -⟩ := emit_shape
        ({ c.setReadyState ReadyState.OPEN with reconnectAttempts := 0 } : WSClient P)
        "open" EventData.opened
      refine ⟨?_, Or.inr (Or.inr ⟨?_, Or.inl rfl⟩)⟩
      · show (flushMessageQueue env _).maxReconnectAttempts = _
        rw [h1.2.1, he]
        rfl
      · show (flushMessageQueue env _).reconnectAttempts = 0
        rw [h1.2.2.1, he]
  | socketError => exact hq _ (emitError_quiet c _ _)
  | socketClose code reason =>
      obtain ⟨h1, -, h3⟩ :=
        closeListener_counter (c.setReadyState ReadyState.CLOSED) code reason
      refine ⟨h1, ?_⟩
      by_cases hcond : ((c.setReadyState ReadyState.CLOSED).autoReconnect &&
          shouldReconnect code) = true ∧
          ((c.setReadyState ReadyState.CLOSED).reconnectAttempts : ℚ) <
            (c.setReadyState ReadyState.CLOSED).maxReconnectAttempts
      · rw [if_pos hcond] at h3
        exact Or.inr (Or.inl ⟨h3, hcond.2, Or.inr ⟨code, reason, rfl⟩⟩)
      · rw [if_neg hcond] at h3
        exact Or.inl h3
  | reconnectTimer =>
      have h : Quiet c (reconnectTimerCallback env c) := by
        unfold reconnectTimerCallback
        split
        · exact connect_quiet env c
        · exact ⟨rfl, rfl, rfl, rfl⟩
      exact hq _ h
  | pingTimer => exact hq _ (pingCallback_quiet c)
  | clock now => exact hq _ ⟨rfl, rfl, rfl, rfl⟩

/-- The reconnect timer's callback leaves counter, maximum and auto-reconnect alone. -/
theorem reconnectTimer_fields (env : Env P) (c : WSClient P) :
    (step env c Action.reconnectTimer).maxReconnectAttempts = c.maxReconnectAttempts ∧
      (step env c Action.reconnectTimer).autoReconnect = c.autoReconnect ∧
      (step env c Action.reconnectTimer).reconnectAttempts = c.reconnectAttempts := by
  obtain ⟨h1, -, h3, h4, -⟩ := connect_fields env c
  simp only [step, reconnectTimerCallback]
  split
  · exact ⟨h4, h1, h3⟩
  · exact ⟨rfl, rfl, rfl⟩

/-- An abnormal close event followed by the reconnect timer firing, on a client with
auto-reconnect on and the counter below the maximum. -/
theorem close_then_timer (env : Env P) (c : WSClient P) (code : Nat) (reason : String)
    (hauto : c.autoReconnect = true) (hcode : shouldReconnect code = true)
    (hlt : (c.reconnectAttempts : ℚ) < c.maxReconnectAttempts) :
    (run env c [Action.socketClose code reason, Action.reconnectTimer]).maxReconnectAttempts =
        c.maxReconnectAttempts ∧
      (run env c [Action.socketClose code reason, Action.reconnectTimer]).autoReconnect = true ∧
      (run env c [Action.socketClose code reason, Action.reconnectTimer]).reconnectAttempts =
        c.reconnectAttempts + 1 := by
  obtain ⟨h1, h2, h3⟩ := socketClose_increments env c code reason hauto hcode hlt
  obtain ⟨k1, k2, k3⟩ := reconnectTimer_fields env (step env c (Action.socketClose code reason))
  have hrun : run env c [Action.socketClose code reason, Action.reconnectTimer] =
      step env (step env c (Action.socketClose code reason)) Action.reconnectTimer := rfl
  rw [hrun]
  exact ⟨k1.trans h1, k2.trans h2, k3.trans h3⟩

/-- C18, the counterexample: with `maxReconnectAttempts: 2.5`, a positive number, three
abnormal closes (the reconnect timer firing after the first and the second) take the counter
to 3, which exceeds the maximum. -/
theorem counter_exceeds_fractional_maximum :
    fractionalOptions.maxReconnectAttempts = some (5 / 2) ∧
      (run demoEnv fractionalClient
        [Action.socketClose 1006 "", Action.reconnectTimer,
         Action.socketClose 1006 "", Action.reconnectTimer,
         Action.socketClose 1006 ""]).reconnectAttempts = 3 ∧
      (run demoEnv fractionalClient
        [Action.socketClose 1006 "", Action.reconnectTimer,
         Action.socketClose 1006 "", Action.reconnectTimer,
         Action.socketClose 1006 ""]).maxReconnectAttempts = 5 / 2 ∧
      ¬ (((run demoEnv fractionalClient
        [Action.socketClose 1006 "", Action.reconnectTimer,
         Action.socketClose 1006 "", Action.reconnectTimer,
         Action.socketClose 1006 ""]).reconnectAttempts : ℚ) ≤
        (run demoEnv fractionalClient
          [Action.socketClose 1006 "", Action.reconnectTimer,
           Action.socketClose 1006 "", Action.reconnectTimer,
           Action.socketClose 1006 ""]).maxReconnectAttempts) := by
  have hmax : fractionalClient.maxReconnectAttempts = 5 / 2 := by
    show orDefault (some (5 / 2)) 5 = 5 / 2
    norm_num [orDefault]
  have h0 : fractionalClient.reconnectAttempts = 0 := rfl
  have hauto : fractionalClient.autoReconnect = true := rfl
  have hcode : shouldReconnect 1006 = true := by decide
  obtain ⟨m1, a1, n1⟩ := close_then_timer demoEnv fractionalClient 1006 "" hauto hcode
    (by rw [h0, hmax]; norm_num)
  obtain ⟨m2, a2, n2⟩ := close_then_timer demoEnv
    (run demoEnv fractionalClient [Action.socketClose 1006 "", Action.reconnectTimer])
    1006 "" a1 hcode (by rw [n1, m1, h0, hmax]; norm_num)
  obtain ⟨m3, -, n3⟩ := socketClose_increments demoEnv
    (run demoEnv (run demoEnv fractionalClient
      [Action.socketClose 1006 "", Action.reconnectTimer])
      [Action.socketClose 1006 "", Action.reconnectTimer]) 1006 "" a2 hcode
    (by rw [n2, n1, m2, m1, h0, hmax]; norm_num)
  have hrun : run demoEnv fractionalClient
      [Action.socketClose 1006 "", Action.reconnectTimer,
       Action.socketClose 1006 "", Action.reconnectTimer, Action.socketClose 1006 ""] =
      step demoEnv (run demoEnv (run demoEnv fractionalClient
        [Action.socketClose 1006 "", Action.reconnectTimer])
        [Action.socketClose 1006 "", Action.reconnectTimer]) (Action.socketClose 1006 "") := rfl
  rw [hrun]
  have hn : (step demoEnv (run demoEnv (run demoEnv fractionalClient
      [Action.socketClose 1006 "", Action.reconnectTimer])
      [Action.socketClose 1006 "", Action.reconnectTimer])
      (Action.socketClose 1006 "")).reconnectAttempts = 3 := by
    rw [n3, n2, n1, h0]
  have hm : (step demoEnv (run demoEnv (run demoEnv fractionalClient
      [Action.socketClose 1006 "", Action.reconnectTimer])
      [Action.socketClose 1006 "", Action.reconnectTimer])
      (Action.socketClose 1006 "")).maxReconnectAttempts = 5 / 2 := by
    rw [m3, m2, m1, hmax]
  refine ⟨rfl, hn, hm, ?_⟩
  rw [hn, hm]
  norm_num

/-- How one event changes the counter. -/
theorem stepEvent_counter (env : Env P) (pf : Platform) (c : WSClient P) (e : Event P) :
    (stepEvent env pf c e).maxReconnectAttempts = c.maxReconnectAttempts ∧
      ((stepEvent env pf c e).reconnectAttempts = c.reconnectAttempts ∨
        ((stepEvent env pf c e).reconnectAttempts = c.reconnectAttempts + 1 ∧
          (c.reconnectAttempts : ℚ) < c.maxReconnectAttempts ∧
          (e = Event.action Action.scheduleReconnect ∨
            ∃ code reason, e = Event.action (Action.socketClose code reason))) ∨
        ((stepEvent env pf c e).reconnectAttempts = 0 ∧
          (e = Event.action Action.socketOpen ∨
            ∃ url, e = Event.action (Action.reconnect url)))) := by
  cases e with
  | socketMessage frame =>
      obtain ⟨h1, h2⟩ := messageListener_counter pf c frame
      exact ⟨h2, Or.inl h1⟩
  | action a =>
      obtain ⟨h1, h2⟩ := step_counter env c a
      refine ⟨h1, ?_⟩
      rcases h2 with h | ⟨h, hlt, ha⟩ | ⟨h, ha⟩
      · exact Or.inl h
      · refine Or.inr (Or.inl ⟨h, hlt, ?_⟩)
        rcases ha with ha | ⟨code, reason, ha⟩
        · exact Or.inl (by rw [ha])
        · exact Or.inr ⟨code, reason, by rw [ha]⟩
      · refine Or.inr (Or.inr ⟨h, ?_⟩)
        rcases ha with ha | ⟨url, ha⟩
        · exact Or.inl (by rw [ha])
        · exact Or.inr ⟨url, by rw [ha]⟩

/-- The counter and the maximum of a client just constructed. -/
theorem constructor_counter (env : Env P) (url : String) (options : Options) (now : Nat)
    (faults : List (Option String)) :
    (WSClient.constructor env url options now faults).reconnectAttempts = 0 ∧
      (WSClient.constructor env url options now faults).maxReconnectAttempts =
        orDefault options.maxReconnectAttempts 5 := by
  have key : ∀ c : WSClient P,
      (if options.enablePing ≠ some false
        then (connect env c).startPing (orDefault options.pingInterval 30000)
        else connect env c).reconnectAttempts = c.reconnectAttempts ∧
      (if options.enablePing ≠ some false
        then (connect env c).startPing (orDefault options.pingInterval 30000)
        else connect env c).maxReconnectAttempts = c.maxReconnectAttempts := by
    intro c
    obtain ⟨-, -, h3, h4, -⟩ := connect_fields env c
    split
    · exact ⟨h3, h4⟩
    · exact ⟨h3, h4⟩
  unfold WSClient.constructor
  exact key _

/-- A run of events keeps the counter at or below a maximum that is a natural number. -/
theorem runEvents_counter (env : Env P) (pf : Platform) (n : Nat) (events : List (Event P)) :
    ∀ c : WSClient P, c.maxReconnectAttempts = (n : ℚ) → c.reconnectAttempts ≤ n →
      (runEvents env pf c events).maxReconnectAttempts = (n : ℚ) ∧
        (runEvents env pf c events).reconnectAttempts ≤ n := by
  induction events with
  | nil => intro c h1 h2; exact ⟨h1, h2⟩
  | cons e rest ih =>
      intro c h1 h2
      have hrun : runEvents env pf c (e :: rest) = runEvents env pf (stepEvent env pf c e) rest :=
        rfl
      rw [hrun]
      obtain ⟨hm, hc⟩ := stepEvent_counter env pf c e
      apply ih
      · rw [hm, h1]
      · rcases hc with h | ⟨h, hlt, -⟩ | ⟨h, -⟩
        · rw [h]; exact h2
        · rw [h1] at hlt
          have : c.reconnectAttempts < n := by exact_mod_cast hlt
          rw [h]
          omega
        · rw [h]
          exact Nat.zero_le _

/-- C18, amended. When the configured `maxReconnectAttempts` is absent (the maximum is then
5) or a positive integer `n`, in every state reached from construction by socket events
(open, message, error, close), timers and method calls the counter satisfies
`0 ≤ reconnectAttempts ≤ maxReconnectAttempts` (the counter is a natural number; the maximum
stays `n`). In any state, one event leaves the counter alone, or increases it by exactly 1,
which only a run of `scheduleReconnect` below the maximum does (a direct call or the
socket's close event), or sets it to 0, which only the socket's open event and an explicit
`reconnect()` do. -/
theorem counter_bounded_for_integer_maximum (env : Env P) (pf : Platform) (url : String)
    (options : Options) (now : Nat) (faults : List (Option String)) (events : List (Event P))
    (n : Nat)
    (hmax : (options.maxReconnectAttempts = none ∧ n = 5) ∨
      (0 < n ∧ options.maxReconnectAttempts = some (n : ℚ))) :
    (runEvents env pf (WSClient.constructor env url options now faults)
        events).maxReconnectAttempts = (n : ℚ) ∧
      (0 : ℚ) ≤ ((runEvents env pf (WSClient.constructor env url options now faults)
        events).reconnectAttempts : ℚ) ∧
      ((runEvents env pf (WSClient.constructor env url options now faults)
        events).reconnectAttempts : ℚ) ≤
        (runEvents env pf (WSClient.constructor env url options now faults)
          events).maxReconnectAttempts ∧
      ∀ (c : WSClient P) (e : Event P),
        (stepEvent env pf c e).reconnectAttempts = c.reconnectAttempts ∨
          ((stepEvent env pf c e).reconnectAttempts = c.reconnectAttempts + 1 ∧
            (c.reconnectAttempts : ℚ) < c.maxReconnectAttempts ∧
            (e = Event.action Action.scheduleReconnect ∨
              ∃ code reason, e = Event.action (Action.socketClose code reason))) ∨
          ((stepEvent env pf c e).reconnectAttempts = 0 ∧
            (e = Event.action Action.socketOpen ∨
              ∃ url, e = Event.action (Action.reconnect url))) := by
  obtain ⟨h0, hm⟩ := constructor_counter env url options now faults
  have hinit : (WSClient.constructor env url options now faults).maxReconnectAttempts =
      (n : ℚ) := by
    rw [hm]
    rcases hmax with ⟨hnone, hn⟩ | ⟨hpos, hsome⟩
    · rw [hnone, hn]
      simp [orDefault]
    · rw [hsome]
      have hne : (n : ℚ) ≠ 0 := by exact_mod_cast (Nat.pos_iff_ne_zero.mp hpos)
      simp [orDefault, hne]
  obtain ⟨r1, r2⟩ := runEvents_counter env pf n events _ hinit (by rw [h0]; exact Nat.zero_le _)
  refine ⟨r1, by exact_mod_cast Nat.zero_le _, ?_, fun c e => (stepEvent_counter env pf c e).2⟩
  rw [r1]
  exact_mod_cast r2

/-- Witness of C18 as amended: the default maximum 5; two abnormal closes, each followed by
the reconnect timer, then the socket opens and a ping arrives. -/
theorem counter_bounded_for_integer_maximum_witness :
    demoOptions.maxReconnectAttempts = none ∧
      ((runEvents demoEnv demoPlatform demoClient
        [Event.action (Action.socketClose 1006 ""), Event.action Action.reconnectTimer,
         Event.action (Action.socketClose 1006 ""), Event.action Action.reconnectTimer,
         Event.action Action.socketOpen, Event.socketMessage "__ping__"]).reconnectAttempts :
          ℚ) ≤
        (runEvents demoEnv demoPlatform demoClient
          [Event.action (Action.socketClose 1006 ""), Event.action Action.reconnectTimer,
           Event.action (Action.socketClose 1006 ""), Event.action Action.reconnectTimer,
           Event.action Action.socketOpen,
           Event.socketMessage "__ping__"]).maxReconnectAttempts :=
  ⟨rfl, (counter_bounded_for_integer_maximum demoEnv demoPlatform "ws://localhost:3000"
    demoOptions 0 [] _ 5 (Or.inl ⟨rfl, rfl⟩)).2.2.1⟩

end Counter

end WSClient
